import Mathlib

/-!
# Reading tracker: statistics, projection and store operations

A shallow embedding of the JavaScript sources of the reading tracker
(`src/context/BooksContext.js`, `src/components/ReadingTimer.js`,
`src/components/ReadingPlanner.js`, `src/components/ProgressChart.js`,
`src/components/NotesTimeline.js`, `src/pages/BookDetails.js`, `src/pages/AddEditBook.js`,
`src/pages/Dashboard.js`, `src/pages/SearchBooks.js`).

Modelling conventions.

* A JavaScript Number is a `JSNum`: an exact rational, `+Infinity`, `-Infinity` or `NaN`, with
  the rules of the arithmetic for division by zero, `NaN` propagation and comparisons with
  `NaN`. The rounding of IEEE-754 doubles is modelled in `calculateWPM`, whose two divisions
  in a row make it visible on page and second counts (`JSNum.toDouble`); the other
  computations are on exact rationals. The sign of zero is not modelled.
* A JavaScript value that the program stores in a record field is a `JSVal`
  (`undefined`, `null`, a boolean, a number or a string); the coercions `ToNumber`,
  `ToBoolean`, strict equality and the relational operators follow ECMAScript.
* Book and note records are open key/value objects (`JSObj`), because the program builds them
  by object spread; a reading session has the fixed shape that `calculateWPM` gives it.
* React state is passed explicitly: a handler maps the state captured by its closure to the
  state after the event. `Date.now()` and `new Date().toISOString()` are read from a `Clock`.
* The attributes `min`, `max` and `required` of the form fields are markup: an event handler
  is modelled on every value its state can hold.
* A callback that can throw returns an `Option`; the method `toLowerCase` of the platform is a
  parameter of the functions that call it, and a string is its list of characters.
-/

namespace ReadingTracker

/-! ## JavaScript numbers -/

/-- A JavaScript Number: an exact rational, an infinity, or NaN. -/
inductive JSNum where
  | fin (q : ℚ)
  | posInf
  | negInf
  | nan
  deriving DecidableEq

namespace JSNum

instance : Inhabited JSNum := ⟨nan⟩

instance (n : Nat) : OfNat JSNum n := ⟨fin n⟩

/-- The infinity with the sign of `q`, and NaN when `q` is zero. -/
def ofSign (q : ℚ) : JSNum :=
  if 0 < q then posInf else if q < 0 then negInf else nan

/-- Unary minus. -/
def neg : JSNum → JSNum
  | fin q => fin (-q)
  | posInf => negInf
  | negInf => posInf
  | nan => nan

/-- Number addition. -/
def add : JSNum → JSNum → JSNum
  | fin a, fin b => fin (a + b)
  | fin _, posInf => posInf
  | fin _, negInf => negInf
  | posInf, fin _ => posInf
  | posInf, posInf => posInf
  | negInf, fin _ => negInf
  | negInf, negInf => negInf
  | posInf, negInf => nan
  | negInf, posInf => nan
  | nan, _ => nan
  | fin _, nan => nan
  | posInf, nan => nan
  | negInf, nan => nan

/-- Number subtraction. -/
def sub (a b : JSNum) : JSNum := add a (neg b)

/-- Number multiplication. -/
def mul : JSNum → JSNum → JSNum
  | fin a, fin b => fin (a * b)
  | fin a, posInf => ofSign a
  | fin a, negInf => ofSign (-a)
  | posInf, fin b => ofSign b
  | negInf, fin b => ofSign (-b)
  | posInf, posInf => posInf
  | posInf, negInf => negInf
  | negInf, posInf => negInf
  | negInf, negInf => posInf
  | nan, _ => nan
  | fin _, nan => nan
  | posInf, nan => nan
  | negInf, nan => nan

/-- Number division: a finite non-zero dividend over zero is an infinity, `0 / 0` is NaN. -/
def div : JSNum → JSNum → JSNum
  | fin a, fin b => if b = 0 then ofSign a else fin (a / b)
  | fin _, posInf => fin 0
  | fin _, negInf => fin 0
  | posInf, fin b => if b < 0 then negInf else posInf
  | negInf, fin b => if b < 0 then posInf else negInf
  | posInf, posInf => nan
  | posInf, negInf => nan
  | negInf, posInf => nan
  | negInf, negInf => nan
  | nan, _ => nan
  | fin _, nan => nan
  | posInf, nan => nan
  | negInf, nan => nan

instance : Add JSNum := ⟨add⟩
instance : Sub JSNum := ⟨sub⟩
instance : Mul JSNum := ⟨mul⟩
instance : Div JSNum := ⟨div⟩

/-- The function `Math.round`: the nearest integer, a tie going towards `+Infinity`. -/
def round : JSNum → JSNum
  | fin q => fin (⌊q + 1 / 2⌋ : ℤ)
  | x => x

/-- The function `Math.ceil`. -/
def ceil : JSNum → JSNum
  | fin q => fin (⌈q⌉ : ℤ)
  | x => x

/-- The operator `a < b` on numbers; false as soon as one side is NaN. -/
def lt : JSNum → JSNum → Bool
  | fin a, fin b => decide (a < b)
  | fin _, posInf => true
  | negInf, fin _ => true
  | negInf, posInf => true
  | _, _ => false

/-- The operator `a > b` on numbers. -/
def gt (a b : JSNum) : Bool := lt b a

/-- Whether the number is NaN. -/
def isNaN : JSNum → Bool
  | nan => true
  | _ => false

/-- The operator `a <= b` on numbers: `!(b < a)` unless one side is NaN. -/
def le (a b : JSNum) : Bool := !(isNaN a) && !(isNaN b) && !(lt b a)

/-- The operator `a >= b` on numbers. -/
def ge (a b : JSNum) : Bool := le b a

/-- The operator `a === b` on numbers: NaN equals nothing. -/
def eq : JSNum → JSNum → Bool
  | fin a, fin b => decide (a = b)
  | posInf, posInf => true
  | negInf, negInf => true
  | _, _ => false

/-- The coercion `ToBoolean` on numbers: zero and NaN are falsy. -/
def truthy : JSNum → Bool
  | fin q => decide (q ≠ 0)
  | posInf => true
  | negInf => true
  | nan => false

/-- The expression `a || b` on numbers. -/
def orElse (a b : JSNum) : JSNum := if truthy a then a else b

end JSNum

/-! ## Double precision -/

/-- Rounding a rational to the nearest integer, a tie going to the even one. -/
def roundHalfEven (q : ℚ) : ℤ :=
  if q - ⌊q⌋ < 1 / 2 then ⌊q⌋
  else if 1 / 2 < q - ⌊q⌋ then ⌊q⌋ + 1
  else if ⌊q⌋ % 2 = 0 then ⌊q⌋ else ⌊q⌋ + 1

/-- The exponent a double gives to a rational: the exponent of its leading bit, and -1022 for
the subnormal numbers. -/
def doubleExponent (q : ℚ) : ℤ := max (Int.log 2 |q|) (-1022)

/-- The rational nearest to `q` among those with 53 significant bits at the exponent of `q`,
a tie going to the even significand. -/
def nearestDouble (q : ℚ) : ℚ :=
  roundHalfEven (q * 2 ^ (52 - doubleExponent q)) * 2 ^ (doubleExponent q - 52)

/-- The double that an arithmetic operation returns for its exact result (IEEE 754 binary64,
round to nearest, ties to even): the nearest double, and an infinity from `2^1024` on. -/
def JSNum.toDouble : JSNum → JSNum
  | JSNum.fin q =>
    if 2 ^ 1024 ≤ |nearestDouble q| then JSNum.ofSign q else JSNum.fin (nearestDouble q)
  | x => x

/-! ## Strings to numbers -/

/-- The characters ECMAScript counts as white space or line terminator. -/
def isJSWhiteSpace (c : Char) : Bool :=
  let n := c.toNat
  n = 9 || n = 10 || n = 11 || n = 12 || n = 13 || n = 32 || n = 160 || n = 0x1680 ||
  (0x2000 ≤ n && n ≤ 0x200A) || n = 0x2028 || n = 0x2029 || n = 0x202F || n = 0x205F ||
  n = 0x3000 || n = 0xFEFF

/-- The value of a character as a digit in the given radix. -/
def digitValue (radix : Nat) (c : Char) : Option Nat :=
  let n := c.toNat
  let v : Option Nat :=
    if 48 ≤ n ∧ n ≤ 57 then some (n - 48)
    else if 97 ≤ n ∧ n ≤ 122 then some (n - 97 + 10)
    else if 65 ≤ n ∧ n ≤ 90 then some (n - 65 + 10)
    else none
  match v with
  | some d => if d < radix then some d else none
  | none => none

/-- The longest run of digits at the head of the list, and what follows it. -/
def spanDigits (radix : Nat) : List Char → List Nat × List Char
  | [] => ([], [])
  | c :: cs =>
    match digitValue radix c with
    | some d => let r := spanDigits radix cs; (d :: r.1, r.2)
    | none => ([], c :: cs)

/-- The natural number written by a list of digits, most significant first. -/
def digitsToNat (radix : Nat) (ds : List Nat) : Nat :=
  ds.foldl (fun acc d => acc * radix + d) 0

/-- The sign in front of a numeral, and the text after it. -/
def takeSign : List Char → Bool × List Char
  | '-' :: cs => (true, cs)
  | '+' :: cs => (false, cs)
  | cs => (false, cs)

/-- The function `parseInt(string)` without a radix argument: leading white space is skipped,
a sign is read, a `0x` or `0X` marker selects radix 16, and the longest run of digits is the
value; NaN when there is no digit. -/
def parseInt (s : String) : JSNum :=
  let t := s.toList.dropWhile isJSWhiteSpace
  let (negative, u) := takeSign t
  let (radix, v) : Nat × List Char :=
    match u with
    | '0' :: 'x' :: r => (16, r)
    | '0' :: 'X' :: r => (16, r)
    | r => (10, r)
  let ds := (spanDigits radix v).1
  if ds.isEmpty then JSNum.nan
  else
    let m : ℚ := (digitsToNat radix ds : ℕ)
    JSNum.fin (if negative then -m else m)

/-- The shapes of the text that `ToNumber` accepts. -/
inductive StrNumeric where
  | empty
  | infinity (negative : Bool)
  | radix (value : Nat)
  | decimal (negative : Bool) (mantissa : Nat) (fracLen : Nat) (exponent : Int)
  | invalid
  deriving DecidableEq

/-- The exponent part of a decimal literal: nothing, or `e` / `E`, a sign and digits up to
the end of the text. -/
def readExponent : List Char → Option Int
  | [] => some 0
  | c :: r =>
    if c = 'e' ∨ c = 'E' then
      let (negative, u) := takeSign r
      let (ds, rest) := spanDigits 10 u
      if ds.isEmpty ∨ ¬ rest.isEmpty then none
      else
        let m : Int := (digitsToNat 10 ds : Nat)
        some (if negative then -m else m)
    else none

/-- The digits of a literal in radix 16, 8 or 2, which must run to the end of the text. -/
def readRadix (radix : Nat) (cs : List Char) : StrNumeric :=
  let (ds, rest) := spanDigits radix cs
  if ds.isEmpty ∨ ¬ rest.isEmpty then StrNumeric.invalid
  else StrNumeric.radix (digitsToNat radix ds)

/-- A signed decimal literal: digits, an optional fraction, an optional exponent. -/
def readDecimal (cs : List Char) : StrNumeric :=
  let (negative, u) := takeSign cs
  if u = "Infinity".toList then StrNumeric.infinity negative
  else
    let (ip, r1) := spanDigits 10 u
    let (fp, r2) : List Nat × List Char :=
      match r1 with
      | '.' :: r => spanDigits 10 r
      | r => ([], r)
    if ip.isEmpty ∧ fp.isEmpty then StrNumeric.invalid
    else
      match readExponent r2 with
      | some e => StrNumeric.decimal negative (digitsToNat 10 (ip ++ fp)) fp.length e
      | none => StrNumeric.invalid

/-- The grammar of `StringToNumber`: the text is trimmed of white space on both sides; the
empty text, `Infinity`, a literal in radix 16, 8 or 2, or a decimal literal is accepted. -/
def classifyNumeric (s : String) : StrNumeric :=
  let t := ((s.toList.dropWhile isJSWhiteSpace).reverse.dropWhile isJSWhiteSpace).reverse
  match t with
  | [] => StrNumeric.empty
  | '0' :: 'x' :: r => readRadix 16 r
  | '0' :: 'X' :: r => readRadix 16 r
  | '0' :: 'o' :: r => readRadix 8 r
  | '0' :: 'O' :: r => readRadix 8 r
  | '0' :: 'b' :: r => readRadix 2 r
  | '0' :: 'B' :: r => readRadix 2 r
  | cs => readDecimal cs

/-- The number a recognised text stands for. -/
def StrNumeric.value : StrNumeric → JSNum
  | StrNumeric.empty => JSNum.fin 0
  | StrNumeric.infinity negative => if negative then JSNum.negInf else JSNum.posInf
  | StrNumeric.radix v => JSNum.fin (v : ℚ)
  | StrNumeric.decimal negative m k e =>
    let q : ℚ := (m : ℚ) / (10 : ℚ) ^ k * (10 : ℚ) ^ e
    JSNum.fin (if negative then -q else q)
  | StrNumeric.invalid => JSNum.nan

/-- The coercion `ToNumber` applied to a string. -/
def stringToNumber (s : String) : JSNum := (classifyNumeric s).value

/-! ## JavaScript values and objects -/

/-- A JavaScript value as the program stores it in a record field. -/
inductive JSVal where
  | undefined
  | null
  | bool (b : Bool)
  | num (n : JSNum)
  | str (s : String)
  deriving DecidableEq

namespace JSVal

instance : Inhabited JSVal := ⟨undefined⟩

/-- The coercion `ToNumber`. -/
def toNumber : JSVal → JSNum
  | undefined => JSNum.nan
  | null => JSNum.fin 0
  | bool b => if b then JSNum.fin 1 else JSNum.fin 0
  | num n => n
  | str s => stringToNumber s

/-- The coercion `ToBoolean`. -/
def truthy : JSVal → Bool
  | undefined => false
  | null => false
  | bool b => b
  | num n => n.truthy
  | str s => decide (s ≠ "")

/-- The expression `a || b`. -/
def orElse (a b : JSVal) : JSVal := if a.truthy then a else b

/-- The operator `a === b`. -/
def strictEq : JSVal → JSVal → Bool
  | undefined, undefined => true
  | null, null => true
  | bool a, bool b => decide (a = b)
  | num a, num b => JSNum.eq a b
  | str a, str b => decide (a = b)
  | _, _ => false

/-- The operator `a < b`: two strings are compared as text, anything else as numbers. -/
def lt : JSVal → JSVal → Bool
  | str a, str b => decide (a < b)
  | a, b => JSNum.lt a.toNumber b.toNumber

/-- The operator `a > b`. -/
def gt (a b : JSVal) : Bool := lt b a

/-- The operator `a <= b`: two strings are compared as text, anything else as numbers. -/
def le : JSVal → JSVal → Bool
  | str a, str b => decide (a ≤ b)
  | a, b => JSNum.le a.toNumber b.toNumber

/-- The operator `a >= b`. -/
def ge (a b : JSVal) : Bool := le b a

end JSVal

/-- A JavaScript object with string keys, in insertion order. -/
abbrev JSObj := List (String × JSVal)

namespace JSObj

/-- Property access `o.k`: `undefined` when the key is absent. -/
def get (o : JSObj) (k : String) : JSVal :=
  match o.find? (fun p => p.1 == k) with
  | some p => p.2
  | none => JSVal.undefined

/-- Whether the object has the key. -/
def has (o : JSObj) (k : String) : Bool := o.any (fun p => p.1 == k)

/-- Writing a property: an existing key keeps its position, a new key goes last. -/
def set (o : JSObj) (k : String) (v : JSVal) : JSObj :=
  if has o k then o.map (fun p => if p.1 == k then (k, v) else p) else o ++ [(k, v)]

/-- The object literal with two spreads, `{ ...a, ...b }`. -/
def spread (a b : JSObj) : JSObj := b.foldl (fun acc p => set acc p.1 p.2) a

end JSObj

/-! ## Records and the store (`BooksContext.js`) -/

/-- What `calculateWPM` passes to `addReadingSession`. -/
structure SessionInput where
  bookId : JSVal
  startPage : JSNum
  endPage : JSNum
  duration : JSNum
  wpm : Option JSNum
  deriving DecidableEq

/-- A stored reading session. The field `wpm` is `none` when the stored record carries
`null` or no value there. -/
structure Session where
  bookId : JSVal
  startPage : JSNum
  endPage : JSNum
  duration : JSNum
  wpm : Option JSNum
  id : JSVal
  createdAt : JSVal
  deriving DecidableEq

/-- The two readings of the clock an add operation makes: `Date.now()` in milliseconds and
`new Date().toISOString()`. -/
structure Clock where
  now : Nat
  iso : String

/-- The three collections held by `BooksProvider`. -/
structure Store where
  books : List JSObj
  notes : List JSObj
  readingSessions : List Session
  deriving DecidableEq

/-- The array method `sort(compare)`: a stable sort, an element moving behind another only
when `compare` returns a number greater than zero. -/
def jsSort {α : Type} (compare : α → α → JSNum) (l : List α) : List α :=
  l.insertionSort (fun a b => (compare a b).gt 0 = false)

namespace BooksContext

/-- The source function `addBook`: the new store and the identifier it returns, or `none` when
the call throws, which it does when `publishedDate` is truthy and not a string (it has no
`substring`). The method `substring(0, 4)` is taken on characters. -/
def addBook (c : Clock) (s : Store) (book : JSObj) : Option (Store × JSVal) :=
  let coverImage := JSVal.orElse (book.get "coverUrl") (JSVal.str "")
  let publishedYear : Option JSVal :=
    if (book.get "publishedDate").truthy then
      match book.get "publishedDate" with
      | JSVal.str d => some (JSVal.str (d.take 4))
      | _ => none
    else some (JSVal.str "")
  match publishedYear with
  | none => none
  | some year =>
    let newBook : JSObj :=
      (((((book.set "id" (JSVal.str (toString c.now))).set "createdAt" (JSVal.str c.iso)).set
        "currentPage" (JSVal.num 0)).set "rating" (JSVal.num 0)).set
        "coverImage" coverImage).set "publishedYear" year
    some ({ s with books := s.books ++ [newBook] }, newBook.get "id")

/-- The source function `updateBook`. -/
def updateBook (s : Store) (id : JSVal) (updatedBook : JSObj) : Store :=
  { s with
    books := s.books.map
      (fun book => if (book.get "id").strictEq id then JSObj.spread book updatedBook else book) }

/-- The source function `deleteBook`. -/
def deleteBook (s : Store) (id : JSVal) : Store :=
  { books := s.books.filter (fun book => !(book.get "id").strictEq id)
    notes := s.notes.filter (fun note => !(note.get "bookId").strictEq id)
    readingSessions := s.readingSessions.filter (fun session => !session.bookId.strictEq id) }

/-- The source function `getBook`: `none` stands for `undefined`. -/
def getBook (s : Store) (id : JSVal) : Option JSObj :=
  s.books.find? (fun book => (book.get "id").strictEq id)

/-- The source function `updateNote`. -/
def updateNote (s : Store) (id : JSVal) (updatedNote : JSObj) : Store :=
  { s with
    notes := s.notes.map
      (fun note => if (note.get "id").strictEq id then JSObj.spread note updatedNote else note) }

/-- The source function `deleteNote`. -/
def deleteNote (s : Store) (id : JSVal) : Store :=
  { s with notes := s.notes.filter (fun note => !(note.get "id").strictEq id) }

/-- The source function `getNotesByBook`. -/
def getNotesByBook (s : Store) (bookId : JSVal) : List JSObj :=
  jsSort (fun a b => (a.get "page").toNumber - (b.get "page").toNumber)
    (s.notes.filter (fun note => (note.get "bookId").strictEq bookId))

/-- The source function `addReadingSession`: the new store and the record it returns. -/
def addReadingSession (c : Clock) (s : Store) (session : SessionInput) : Store × Session :=
  let newSession : Session :=
    { bookId := session.bookId
      startPage := session.startPage
      endPage := session.endPage
      duration := session.duration
      wpm := session.wpm
      id := JSVal.str (toString c.now)
      createdAt := JSVal.str c.iso }
  ({ s with readingSessions := s.readingSessions ++ [newSession] }, newSession)

/-- The source function `getSessionsByBook`. -/
def getSessionsByBook (s : Store) (bookId : JSVal) : List Session :=
  s.readingSessions.filter (fun session => session.bookId.strictEq bookId)

/-- The expression `session.wpm || 0`. -/
def wpmOrZero (session : Session) : JSNum :=
  match session.wpm with
  | some n => JSNum.orElse n 0
  | none => 0

/-- The source function `calculateAverageWPM`. -/
def calculateAverageWPM (s : Store) (bookId : JSVal) : JSNum :=
  let sessions := getSessionsByBook s bookId
  if sessions.length = 0 then 0
  else
    let totalWPM := sessions.foldl (fun sum session => sum + wpmOrZero session) 0
    JSNum.round (totalWPM / JSNum.fin sessions.length)

/-- The object returned by `calculateEstimatedTime`. -/
structure Estimate where
  totalMinutes : JSNum
  daysNeeded : JSNum
  hoursNeeded : JSNum
  deriving DecidableEq

/-- The source function `calculateEstimatedTime`; `wpm` is `none` when the caller leaves the
argument out, and the default 200 applies. -/
def calculateEstimatedTime (totalPages currentPage : JSVal) (dailyMinutes : JSNum)
    (wpm : Option JSNum) : Estimate :=
  let wpm := wpm.getD 200
  let remainingPages := totalPages.toNumber - currentPage.toNumber
  let wordsPerPage : JSNum := 250
  let totalWords := remainingPages * wordsPerPage
  let totalMinutes := totalWords / wpm
  let daysNeeded := JSNum.ceil (totalMinutes / dailyMinutes)
  { totalMinutes := JSNum.round totalMinutes
    daysNeeded := daysNeeded
    hoursNeeded := JSNum.round (totalMinutes / 60) }

end BooksContext

/-! ## The reading timer (`ReadingTimer.js`) -/

namespace ReadingTimer

/-- The properties the component receives from `BookDetails`. -/
structure Props where
  bookId : JSVal
  totalPages : JSVal

/-- The component state: the `useState` cells of the timer. The page inputs are the text of
the two number fields; `wpm` is `none` for `null`. -/
structure State where
  isRunning : Bool
  seconds : Nat
  startPage : String
  endPage : String
  wpm : Option JSNum
  deriving DecidableEq

/-- What an event handler leaves behind: the component state, the store, and the title of
the toast it showed. -/
structure Outcome where
  state : State
  store : Store
  toast : String
  deriving DecidableEq

/-- The state of a freshly mounted timer. -/
def initial : State :=
  { isRunning := false, seconds := 0, startPage := "", endPage := "", wpm := none }

/-- One firing of the one-second interval, which exists only while the timer runs. -/
def tick (st : State) : State :=
  if st.isRunning then { st with seconds := st.seconds + 1 } else st

/-- The `onChange` of the start-page field, which is disabled while the timer runs. -/
def setStartPage (st : State) (value : String) : State :=
  if st.isRunning then st else { st with startPage := value }

/-- The `onChange` of the end-page field, which is disabled unless the timer runs. -/
def setEndPage (st : State) (value : String) : State :=
  if st.isRunning then { st with endPage := value } else st

/-- The source function `handleStart`. -/
def handleStart (p : Props) (store : Store) (st : State) : Outcome :=
  if st.startPage = "" then
    { state := st, store := store, toast := "Erro" }
  else if (parseInt st.startPage).lt 1
      || (JSVal.num (parseInt st.startPage)).gt p.totalPages then
    { state := st, store := store, toast := "Erro" }
  else
    { state := { st with isRunning := true }, store := store, toast := "Cronômetro iniciado!" }

/-- The constant `calculatedWPM` of `calculateWPM`: the first five statements of the
function, each arithmetic operation returning the double nearest to its exact result. -/
def calculatedWPM (start finish totalSeconds : JSNum) : JSNum :=
  let pagesRead := JSNum.toDouble (finish - start)
  let wordsPerPage : JSNum := 250
  let totalWords := JSNum.toDouble (pagesRead * wordsPerPage)
  let minutes := JSNum.toDouble (totalSeconds / 60)
  JSNum.round (JSNum.toDouble (totalWords / minutes))

/-- The source function `calculateWPM`. -/
def calculateWPM (p : Props) (c : Clock) (store : Store) (st : State)
    (start finish totalSeconds : JSNum) : Outcome :=
  let calculatedWPM := calculatedWPM start finish totalSeconds
  let store1 := (BooksContext.addReadingSession c store
    { bookId := p.bookId
      startPage := start
      endPage := finish
      duration := totalSeconds
      wpm := some calculatedWPM }).1
  let store2 := BooksContext.updateBook store1 p.bookId [("currentPage", JSVal.num finish)]
  { state := { st with wpm := some calculatedWPM }
    store := store2
    toast := "Sessão de leitura salva!" }

/-- The source function `handleStop`. -/
def handleStop (p : Props) (c : Clock) (store : Store) (st : State) : Outcome :=
  if st.endPage = "" then
    { state := st, store := store, toast := "Erro" }
  else
    let start := parseInt st.startPage
    let finish := parseInt st.endPage
    if finish.lt 1 || (JSVal.num finish).gt p.totalPages then
      { state := st, store := store, toast := "Erro" }
    else if finish.le start then
      { state := st, store := store, toast := "Erro" }
    else
      calculateWPM p c store { st with isRunning := false } start finish (JSNum.fin st.seconds)

/-- The source function `handleReset`. -/
def handleReset (st : State) : State :=
  { st with isRunning := false, seconds := 0, startPage := "", endPage := "", wpm := none }

/-- The timer states the user can bring about for given properties: the mounted component,
and what the page fields, the three buttons and the one-second interval make of a state. The
start button is shown only while the timer stands, the stop button only while it runs. -/
inductive Reachable (p : Props) : State → Prop where
  | mount : Reachable p initial
  | typeStart (st : State) (value : String) : Reachable p st → Reachable p (setStartPage st value)
  | typeEnd (st : State) (value : String) : Reachable p st → Reachable p (setEndPage st value)
  | start (store : Store) (st : State) :
      Reachable p st → st.isRunning = false → Reachable p (handleStart p store st).state
  | stop (c : Clock) (store : Store) (st : State) :
      Reachable p st → st.isRunning = true → Reachable p (handleStop p c store st).state
  | reset (st : State) : Reachable p st → Reachable p (handleReset st)
  | second (st : State) : Reachable p st → Reachable p (tick st)

/-- The source function `calculateAverageWPM` of the timer, over
`sessions = getSessionsByBook(bookId)`. -/
def calculateAverageWPM (p : Props) (store : Store) : JSNum :=
  let sessions := BooksContext.getSessionsByBook store p.bookId
  if sessions.length = 0 then 0
  else
    let total := sessions.foldl (fun sum session => sum + BooksContext.wpmOrZero session) 0
    JSNum.round (total / JSNum.fin sessions.length)

end ReadingTimer

/-! ## The progress chart (`ProgressChart.js`) -/

namespace ProgressChart

/-- The constant `progressPercentage` of the component. -/
def progressPercentage (book : JSObj) : JSNum :=
  if (book.get "totalPages").gt (JSVal.num 0) then
    JSNum.round ((book.get "currentPage").toNumber / (book.get "totalPages").toNumber * 100)
  else 0

/-- The constant `averageWPM` of the component, over `sessions = getSessionsByBook(bookId)`. -/
def averageWPM (store : Store) (bookId : JSVal) : JSNum :=
  let sessions := BooksContext.getSessionsByBook store bookId
  if sessions.length > 0 then
    JSNum.round
      (sessions.foldl (fun sum session => sum + BooksContext.wpmOrZero session) 0
        / JSNum.fin sessions.length)
  else 0

end ProgressChart

/-! ## The book page and the dashboard (`BookDetails.js`, `Dashboard.js`) -/

namespace BookDetails

/-- The source function `calculateProgress` of the book page. -/
def calculateProgress (book : JSObj) : JSNum :=
  if !(book.get "totalPages").truthy || (book.get "totalPages").strictEq (JSVal.num 0) then 0
  else JSNum.round ((book.get "currentPage").toNumber / (book.get "totalPages").toNumber * 100)

end BookDetails

namespace Dashboard

/-- The source function `calculateProgress` of the dashboard. -/
def calculateProgress (book : JSObj) : JSNum :=
  if !(book.get "totalPages").truthy || (book.get "totalPages").strictEq (JSVal.num 0) then 0
  else JSNum.round ((book.get "currentPage").toNumber / (book.get "totalPages").toNumber * 100)

end Dashboard

/-! ## The reading planner (`ReadingPlanner.js`) -/

namespace ReadingPlanner

/-- The component state: the text of the two number fields and the last result. -/
structure State where
  desiredDays : String
  dailyMinutes : String
  result : Option BooksContext.Estimate
  deriving DecidableEq

/-- The constant `averageWPM` of the component: `calculateAverageWPM(bookId) || 200`. -/
def averageWPM (store : Store) (bookId : JSVal) : JSNum :=
  JSNum.orElse (BooksContext.calculateAverageWPM store bookId) 200

/-- The source function `handleCalculate`, for the book and the `averageWPM` the component
holds: the state after the event and the title of the toast shown, if any. -/
def handleCalculate (book : JSObj) (averageWPM : JSNum) (st : State) : State × Option String :=
  if st.dailyMinutes = "" then (st, some "Erro")
  else
    let estimated := BooksContext.calculateEstimatedTime
      (book.get "totalPages")
      (JSVal.orElse (book.get "currentPage") (JSVal.num 0))
      (parseInt st.dailyMinutes)
      (some averageWPM)
    let st1 := { st with result := some estimated }
    if st.desiredDays ≠ "" && (parseInt st.desiredDays).lt estimated.daysNeeded then
      (st1, some "Atenção!")
    else if st.desiredDays ≠ "" then (st1, some "Perfeito!")
    else (st1, none)

/-- The source function `calculateRequiredDailyTime`, for the book and the `averageWPM` the
component holds. -/
def calculateRequiredDailyTime (book : JSObj) (averageWPM : JSNum) (st : State) : JSNum :=
  if st.desiredDays = "" then 0
  else
    let remainingPages :=
      (book.get "totalPages").toNumber
        - (JSVal.orElse (book.get "currentPage") (JSVal.num 0)).toNumber
    let wordsPerPage : JSNum := 250
    let totalWords := remainingPages * wordsPerPage
    let totalMinutes := totalWords / averageWPM
    JSNum.ceil (totalMinutes / parseInt st.desiredDays)

end ReadingPlanner

/-! ## `parseInt` on numbers -/

/-- The integer part of a rational, towards zero. -/
def truncate (q : ℚ) : ℤ := if 0 ≤ q then ⌊q⌋ else ⌈q⌉

/-- The first significant decimal digit of a positive rational. -/
def leadingDigit (q : ℚ) : ℤ :=
  if 1 ≤ q then ((⌊q⌋.toNat / 10 ^ Nat.log 10 ⌊q⌋.toNat : ℕ) : ℤ)
  else ⌊q * (10 : ℚ) ^ Nat.clog 10 ⌈1 / q⌉.toNat⌋

/-- The function `parseInt` on a number, which is first written as text. Between `1e-6` and
`1e21` in magnitude the text is in positional writing and the value is the integer part;
outside, the text is in exponent writing and the value is its first digit; `NaN` and the
infinities have no digit. -/
def parseIntNumber : JSNum → JSNum
  | JSNum.fin q =>
    if q = 0 then JSNum.fin 0
    else if (1 : ℚ) / 1000000 ≤ |q| ∧ |q| < (10 : ℚ) ^ 21 then JSNum.fin (truncate q)
    else if 0 < q then JSNum.fin (leadingDigit q)
    else JSNum.fin (-(leadingDigit (-q)))
  | _ => JSNum.nan

/-- The function `parseInt` on a value the program passes to it: the text of a field, or a
number. -/
def parseIntValue : JSVal → JSNum
  | JSVal.str s => parseInt s
  | JSVal.num n => parseIntNumber n
  | _ => JSNum.nan

/-! ## Adding records and the catalog (`BooksContext.js`) -/

/-- What an operation of the store hands back to its caller: a primitive value, an open
record, or a session record. -/
inductive JSAny where
  | prim (v : JSVal)
  | record (o : JSObj)
  | session (x : Session)
  deriving DecidableEq

/-- An entry of `industryIdentifiers` in a catalog record. -/
structure IndustryIdentifier where
  type : JSVal
  identifier : JSVal
  deriving DecidableEq

/-- The object `imageLinks` of a catalog record. -/
structure ImageLinks where
  thumbnail : JSVal
  deriving DecidableEq

/-- The object `volumeInfo` of a catalog record. A list field is `none` when the record does
not carry it. -/
structure VolumeInfo where
  title : JSVal
  authors : Option (List String)
  pageCount : JSVal
  imageLinks : Option ImageLinks
  description : JSVal
  industryIdentifiers : Option (List IndustryIdentifier)
  publisher : JSVal
  publishedDate : JSVal
  language : JSVal
  categories : Option (List String)
  deriving DecidableEq

/-- A record of the catalog; `volumeInfo` is `none` when the envelope is absent. -/
structure Volume where
  id : JSVal
  volumeInfo : Option VolumeInfo
  deriving DecidableEq

/-- The statements `let isbn = ''; if (volumeInfo.industryIdentifiers) ...`, the same in the
three copies of the mapping. -/
def extractIsbn (volumeInfo : VolumeInfo) : JSVal :=
  match volumeInfo.industryIdentifiers with
  | some ids =>
    match ids.find? (fun id => id.type.strictEq (JSVal.str "ISBN_13")
        || id.type.strictEq (JSVal.str "ISBN_10")) with
    | some isbnObj => isbnObj.identifier
    | none => JSVal.str ""
  | none => JSVal.str ""

/-- The array method `join(', ')` on an array of strings, or the given text when there is no
array. -/
def joinOr (items : Option (List String)) (absent : String) : JSVal :=
  match items with
  | some xs => JSVal.str (String.intercalate ", " xs)
  | none => JSVal.str absent

/-- The expression `volumeInfo.imageLinks?.thumbnail`. -/
def thumbnailOf (volumeInfo : VolumeInfo) : JSVal :=
  match volumeInfo.imageLinks with
  | some links => links.thumbnail
  | none => JSVal.undefined

namespace BooksContext

/-- The source function `addNote`: the new store and the record it returns. -/
def addNote (c : Clock) (s : Store) (note : JSObj) : Store × JSObj :=
  let newNote : JSObj :=
    (note.set "id" (JSVal.str (toString c.now))).set "createdAt" (JSVal.str c.iso)
  ({ s with notes := s.notes ++ [newNote] }, newNote)

/-- The object `newBook` that `addBookFromGoogle` builds from the response `data`. -/
def googleNewBook (dataId : JSVal) (volumeInfo : VolumeInfo) : JSObj :=
  [("title", volumeInfo.title),
   ("author", joinOr volumeInfo.authors "Desconhecido"),
   ("totalPages", JSVal.orElse volumeInfo.pageCount (JSVal.num 0)),
   ("coverUrl", JSVal.orElse (thumbnailOf volumeInfo) (JSVal.str "")),
   ("description", JSVal.orElse volumeInfo.description (JSVal.str "")),
   ("isbn", extractIsbn volumeInfo),
   ("publisher", JSVal.orElse volumeInfo.publisher (JSVal.str "")),
   ("publishedDate", JSVal.orElse volumeInfo.publishedDate (JSVal.str "")),
   ("googleBooksId", dataId),
   ("language", JSVal.orElse volumeInfo.language (JSVal.str "")),
   ("categories", joinOr volumeInfo.categories "")]

/-- The mapping inside `addBookFromGoogle`, from the decoded response (`none` for a response
that decodes to `null`) to the object passed to `addBook`; `none` when the function throws
before it has built the object. -/
def googlePayload (data : Option Volume) : Option JSObj :=
  match data with
  | none => none
  | some d =>
    match d.volumeInfo with
    | none => none
    | some volumeInfo => some (googleNewBook d.id volumeInfo)

/-- The source function `addBookFromGoogle` after the response has been decoded: the new
store and the identifier returned, or `none` when the function throws. -/
def addBookFromGoogle (c : Clock) (s : Store) (data : Option Volume) : Option (Store × JSVal) :=
  match googlePayload data with
  | none => none
  | some newBook => addBook c s newBook

/-- A decoded JSON text: an array with its items, or any other value. -/
inductive Decoded (α : Type) where
  | array (items : List α)
  | other
  deriving DecidableEq

/-- The source function `loadFromStorage`. The platform is taken as two parameters:
`getItem` is `localStorage.getItem` (`none` when it throws, `some none` for `null`) and
`parse` is `JSON.parse` (`none` when it throws). -/
def loadFromStorage {α : Type} (getItem : String → Option (Option String))
    (parse : String → Option (Decoded α)) (key : String) (defaultValue : Decoded α) :
    Decoded α :=
  match getItem key with
  | none => defaultValue
  | some none => defaultValue
  | some (some item) =>
    if item ≠ "" then
      match parse item with
      | some value => value
      | none => defaultValue
    else defaultValue

end BooksContext

/-! ## The note dialog (`NotesTimeline.js`) -/

namespace NotesTimeline

/-- The properties the component receives from `BookDetails`. -/
structure Props where
  bookId : JSVal
  totalPages : JSVal

/-- The component state: whether the dialog is open, the note being edited (`none` for
`null`) and the form data with its fields `type`, `page` and `content`. -/
structure State where
  isDialogOpen : Bool
  editingNote : Option JSObj
  formData : JSObj
  deriving DecidableEq

/-- What `handleSubmit` leaves behind: the component state, the store, and the title of the
toast it showed. -/
structure Outcome where
  state : State
  store : Store
  toast : String
  deriving DecidableEq

/-- The form data of an empty dialog. -/
def emptyForm : JSObj :=
  [("type", JSVal.str "anotacao"), ("page", JSVal.str ""), ("content", JSVal.str "")]

/-- The source function `handleOpenDialog`, `none` standing for the call without a note. -/
def handleOpenDialog (note : Option JSObj) : State :=
  match note with
  | some n =>
    { isDialogOpen := true
      editingNote := some n
      formData := [("type", n.get "type"), ("page", n.get "page"), ("content", n.get "content")] }
  | none => { isDialogOpen := true, editingNote := none, formData := emptyForm }

/-- The `onChange` of the page field. -/
def setPage (st : State) (value : String) : State :=
  { st with formData := st.formData.set "page" (JSVal.str value) }

/-- The `onChange` of the content field. -/
def setContent (st : State) (value : String) : State :=
  { st with formData := st.formData.set "content" (JSVal.str value) }

/-- The source function `handleSubmit` of the note dialog. -/
def handleSubmit (p : Props) (c : Clock) (store : Store) (st : State) : Outcome :=
  if !(st.formData.get "page").truthy || !(st.formData.get "content").truthy then
    { state := st, store := store, toast := "Erro" }
  else if (JSVal.num (parseIntValue (st.formData.get "page"))).gt p.totalPages
      || (parseIntValue (st.formData.get "page")).lt 1 then
    { state := st, store := store, toast := "Erro" }
  else
    let page := JSVal.num (parseIntValue (st.formData.get "page"))
    let store1 :=
      match st.editingNote with
      | some editingNote =>
        BooksContext.updateNote store (editingNote.get "id") (st.formData.set "page" page)
      | none =>
        (BooksContext.addNote c store ((st.formData.set "bookId" p.bookId).set "page" page)).1
    { state := { st with isDialogOpen := false, formData := emptyForm }
      store := store1
      toast := "Sucesso!" }

end NotesTimeline

/-! ## Updating and editing a book (`BookDetails.js`, `AddEditBook.js`) -/

namespace BookDetails

/-- The source function `handleUpdatePage`, for the text of the page field: the store after
the event and the title of the toast shown (empty when none is). The handler exists only when
`getBook(id)` finds the book. -/
def handleUpdatePage (s : Store) (id : JSVal) (currentPageInput : String) : Store × String :=
  match BooksContext.getBook s id with
  | none => (s, "")
  | some book =>
    if currentPageInput = "" then (s, "")
    else
      let newPage := parseInt currentPageInput
      if newPage.isNaN || newPage.lt 0 || (JSVal.num newPage).gt (book.get "totalPages") then
        (s, "Página inválida")
      else
        (BooksContext.updateBook s id [("currentPage", JSVal.num newPage)],
          "Progresso atualizado")

end BookDetails

namespace AddEditBook

/-- The form data of a new book. -/
def initialForm : JSObj :=
  [("title", JSVal.str ""), ("author", JSVal.str ""), ("year", JSVal.str ""),
   ("totalPages", JSVal.str ""), ("edition", JSVal.str ""), ("publisher", JSVal.str ""),
   ("coverImage", JSVal.str ""), ("currentPage", JSVal.num 0)]

/-- The source function `handleChange`: the field keeps the text typed. -/
def handleChange (formData : JSObj) (name value : String) : JSObj :=
  formData.set name (JSVal.str value)

/-- The source function `handleSubmit` of the book form, `id` being the route parameter
(`undefined` on the page of a new book): the store after the event and the title of the toast
shown. An exception thrown by `addBook` leaves the store as it was. -/
def handleSubmit (c : Clock) (s : Store) (id : JSVal) (formData : JSObj) : Store × String :=
  if !(formData.get "title").truthy || !(formData.get "author").truthy
      || !(formData.get "year").truthy || !(formData.get "totalPages").truthy then
    (s, "Erro")
  else if id.truthy then (BooksContext.updateBook s id formData, "Sucesso!")
  else
    match BooksContext.addBook c s formData with
    | some r => (r.1, "Sucesso!")
    | none => (s, "")

end AddEditBook

/-! ## Importing from the catalog (`Dashboard.js`, `SearchBooks.js`) -/

namespace Dashboard

/-- The object `newBook` that `handleAddBook` of the dashboard builds. -/
def newBook (book : Volume) (volumeInfo : VolumeInfo) : JSObj :=
  [("title", volumeInfo.title),
   ("author", joinOr volumeInfo.authors "Desconhecido"),
   ("totalPages", JSVal.orElse volumeInfo.pageCount (JSVal.num 0)),
   ("coverUrl", JSVal.orElse (thumbnailOf volumeInfo) (JSVal.str "")),
   ("description", JSVal.orElse volumeInfo.description (JSVal.str "")),
   ("isbn", extractIsbn volumeInfo),
   ("publisher", JSVal.orElse volumeInfo.publisher (JSVal.str "")),
   ("publishedDate", JSVal.orElse volumeInfo.publishedDate (JSVal.str "")),
   ("googleBooksId", book.id),
   ("language", JSVal.orElse volumeInfo.language (JSVal.str "")),
   ("categories", joinOr volumeInfo.categories "")]

/-- The mapping inside `handleAddBook` of the dashboard: `none` when reading a property of an
absent `volumeInfo` throws. -/
def payload (book : Volume) : Option JSObj :=
  match book.volumeInfo with
  | none => none
  | some volumeInfo => some (newBook book volumeInfo)

/-- The source function `handleAddBook` of the dashboard: the store after the event and the
title of the toast shown; every exception ends in the `catch` block. -/
def handleAddBook (c : Clock) (s : Store) (book : Volume) : Store × String :=
  match payload book with
  | none => (s, "Erro")
  | some nb =>
    match BooksContext.addBook c s nb with
    | some r => (r.1, "Livro adicionado")
    | none => (s, "Erro")

end Dashboard

namespace SearchBooks

/-- The object `newBook` that `handleAddBook` of the search page builds. -/
def newBook (book : Volume) (volumeInfo : VolumeInfo) : JSObj :=
  [("title", volumeInfo.title),
   ("author", joinOr volumeInfo.authors "Desconhecido"),
   ("totalPages", JSVal.orElse volumeInfo.pageCount (JSVal.num 0)),
   ("coverUrl", JSVal.orElse (thumbnailOf volumeInfo) (JSVal.str "")),
   ("description", JSVal.orElse volumeInfo.description (JSVal.str "")),
   ("isbn", extractIsbn volumeInfo),
   ("publisher", JSVal.orElse volumeInfo.publisher (JSVal.str "")),
   ("publishedDate", JSVal.orElse volumeInfo.publishedDate (JSVal.str "")),
   ("googleBooksId", book.id),
   ("language", JSVal.orElse volumeInfo.language (JSVal.str "")),
   ("categories", joinOr volumeInfo.categories "")]

/-- The mapping inside `handleAddBook` of the search page: `none` when reading a property of
an absent `volumeInfo` throws. -/
def payload (book : Volume) : Option JSObj :=
  match book.volumeInfo with
  | none => none
  | some volumeInfo => some (newBook book volumeInfo)

/-- The source function `handleAddBook` of the search page. -/
def handleAddBook (c : Clock) (s : Store) (book : Volume) : Store × String :=
  match payload book with
  | none => (s, "Erro")
  | some nb =>
    match BooksContext.addBook c s nb with
    | some r => (r.1, "Livro adicionado")
    | none => (s, "Erro")

end SearchBooks

/-! ## The status line of the planner and the book list of the dashboard -/

/-- The method `toFixed(digits)` of a number: the decimal text of the number rounded to the
given number of fraction digits, a tie going to the larger magnitude. A magnitude of `10^21`
or more, which the method prints in exponent notation, is printed in decimal digits here. -/
def JSNum.toFixed (x : JSNum) (digits : Nat) : String :=
  match x with
  | JSNum.nan => "NaN"
  | JSNum.posInf => "Infinity"
  | JSNum.negInf => "-Infinity"
  | JSNum.fin q =>
    let n : Nat := (⌊|q| * 10 ^ digits + 1 / 2⌋).toNat
    let whole := toString (n / 10 ^ digits)
    let frac := toString (n % 10 ^ digits)
    let text :=
      if digits = 0 then whole
      else whole ++ "." ++ String.mk (List.replicate (digits - frac.length) '0') ++ frac
    if q < 0 then "-" ++ text else text

/-- The constant `remainingPages` of the planner. -/
def ReadingPlanner.remainingPages (book : JSObj) : JSNum :=
  (book.get "totalPages").toNumber
    - (JSVal.orElse (book.get "currentPage") (JSVal.num 0)).toNumber

/-- The constant `progressPercentage` of the planner: the text shown before the percent
sign. -/
def ReadingPlanner.progressPercentage (book : JSObj) : String :=
  JSNum.toFixed
    ((JSVal.orElse (book.get "currentPage") (JSVal.num 0)).toNumber
      / (book.get "totalPages").toNumber * 100) 1

/-- The method `includes` of a string. -/
def stringIncludes (text part : String) : Bool := decide (part.toList <:+: text.toList)

/-- The array method `filter` with a callback that may throw: `none` when the callback throws
on an element. -/
def jsFilter {α : Type} (callback : α → Option Bool) : List α → Option (List α)
  | [] => some []
  | a :: rest =>
    match callback a with
    | none => none
    | some keep =>
      match jsFilter callback rest with
      | none => none
      | some kept => some (if keep then a :: kept else kept)

/-- The array method `slice(start, end)` on integer arguments: a negative index counts from
the end, and both are clamped to the array. -/
def jsSlice {α : Type} (l : List α) (start finish : ℤ) : List α :=
  let len : ℤ := l.length
  let first := if start < 0 then max (len + start) 0 else min start len
  let last := if finish < 0 then max (len + finish) 0 else min finish len
  (l.drop first.toNat).take (last - first).toNat

namespace Dashboard

/-- The cells of the dashboard state that drive the book list: the four text filters, the
status filter and the page shown. The page is an integer: it starts at 1 and the buttons move
it by one. -/
structure ListState where
  localSearchTerm : String
  filterAuthor : String
  filterYear : String
  filterPublisher : String
  filterStatus : String
  currentPage : ℤ
  deriving DecidableEq

/-- The list state of a freshly mounted dashboard. -/
def initialList : ListState :=
  { localSearchTerm := "", filterAuthor := "", filterYear := "", filterPublisher := "",
    filterStatus := "all", currentPage := 1 }

/-- The object returned by `calculateStats`. -/
structure Stats where
  total : Nat
  inProgress : Nat
  completed : Nat
  rated : Nat
  deriving DecidableEq

/-- The constant `booksPerPage`. -/
def booksPerPage : Nat := 9

/-- The source function `calculateStats`. -/
def calculateStats (books : List JSObj) : Stats :=
  { total := books.length
    inProgress := (books.filter (fun book =>
      (book.get "currentPage").gt (JSVal.num 0)
        && (book.get "currentPage").lt (book.get "totalPages"))).length
    completed := (books.filter (fun book =>
      (book.get "currentPage").ge (book.get "totalPages")
        && (book.get "totalPages").gt (JSVal.num 0))).length
    rated := (books.filter (fun book => (book.get "rating").gt (JSVal.num 0))).length }

/-- The expression `field?.toLowerCase().includes(term.toLowerCase())` read as a condition:
`false` when the field is `undefined` or `null`, `none` when the call throws because the field
is neither absent nor a string. The method `toLowerCase` of the platform is a parameter. -/
def lowerIncludes (toLowerCase : String → String) (field : JSVal) (term : String) :
    Option Bool :=
  match field with
  | JSVal.undefined => some false
  | JSVal.null => some false
  | JSVal.str s => some (stringIncludes (toLowerCase s) (toLowerCase term))
  | _ => none

/-- The condition of the local search in `getFilteredBooks`. -/
def searchRejects (toLowerCase : String → String) (st : ListState) (book : JSObj) :
    Option Bool :=
  if st.localSearchTerm = "" then some false
  else
    match lowerIncludes toLowerCase (book.get "title") st.localSearchTerm with
    | none => none
    | some true => some false
    | some false =>
      (lowerIncludes toLowerCase (book.get "author") st.localSearchTerm).map (fun b => !b)

/-- The condition of the author filter in `getFilteredBooks`. -/
def authorRejects (toLowerCase : String → String) (st : ListState) (book : JSObj) :
    Option Bool :=
  if st.filterAuthor = "" then some false
  else (lowerIncludes toLowerCase (book.get "author") st.filterAuthor).map (fun b => !b)

/-- The condition of the year filter in `getFilteredBooks`: `none` when `publishedYear` is
truthy and has no method `includes`. -/
def yearRejects (st : ListState) (book : JSObj) : Option Bool :=
  if st.filterYear = "" then some false
  else if !(book.get "publishedYear").truthy then some true
  else
    match book.get "publishedYear" with
    | JSVal.str s => some (!stringIncludes s st.filterYear)
    | _ => none

/-- The condition of the publisher filter in `getFilteredBooks`: `none` when `publisher` is
truthy and has no method `toLowerCase`. -/
def publisherRejects (toLowerCase : String → String) (st : ListState) (book : JSObj) :
    Option Bool :=
  if st.filterPublisher = "" then some false
  else if !(book.get "publisher").truthy then some true
  else
    match book.get "publisher" with
    | JSVal.str s => some (!stringIncludes (toLowerCase s) (toLowerCase st.filterPublisher))
    | _ => none

/-- The callback of `getFilteredBooks`: whether the book is kept, `none` when it throws. -/
def keepsBook (toLowerCase : String → String) (st : ListState) (book : JSObj) : Option Bool :=
  if st.filterStatus = "inProgress"
      && ((book.get "currentPage").strictEq (JSVal.num 0)
        || (book.get "currentPage").ge (book.get "totalPages")) then some false
  else if st.filterStatus = "completed"
      && ((book.get "currentPage").lt (book.get "totalPages")
        || (book.get "totalPages").strictEq (JSVal.num 0)) then some false
  else
    (searchRejects toLowerCase st book).bind fun bySearch =>
      if bySearch then some false
      else (authorRejects toLowerCase st book).bind fun byAuthor =>
        if byAuthor then some false
        else (yearRejects st book).bind fun byYear =>
          if byYear then some false
          else (publisherRejects toLowerCase st book).bind fun byPublisher =>
            if byPublisher then some false else some true

/-- The source function `getFilteredBooks`: `none` when the callback throws. -/
def getFilteredBooks (toLowerCase : String → String) (books : List JSObj) (st : ListState) :
    Option (List JSObj) :=
  jsFilter (keepsBook toLowerCase st) books

/-- The source function `getPaginatedBooks`. -/
def getPaginatedBooks (toLowerCase : String → String) (books : List JSObj) (st : ListState) :
    Option (List JSObj) :=
  (getFilteredBooks toLowerCase books st).map fun filteredBooks =>
    let startIndex := (st.currentPage - 1) * booksPerPage
    let endIndex := startIndex + booksPerPage
    jsSlice filteredBooks startIndex endIndex

/-- The constant `totalPages` of the dashboard: `Math.ceil` of an exact quotient of two
natural numbers. -/
def totalPages (toLowerCase : String → String) (books : List JSObj) (st : ListState) :
    Option ℤ :=
  (getFilteredBooks toLowerCase books st).map fun filteredBooks =>
    ⌈(filteredBooks.length : ℚ) / booksPerPage⌉

/-- The source function `changePage`; the handler exists only when the component has
rendered, that is when `getFilteredBooks` did not throw. -/
def changePage (toLowerCase : String → String) (books : List JSObj) (st : ListState)
    (newPage : ℤ) : ListState :=
  match totalPages toLowerCase books st with
  | none => st
  | some total =>
    if 1 ≤ newPage ∧ newPage ≤ total then { st with currentPage := newPage } else st

/-- The source function `clearFilters`. -/
def clearFilters (st : ListState) : ListState :=
  { st with
    filterAuthor := "", filterYear := "", filterPublisher := "", localSearchTerm := "",
    filterStatus := "all", currentPage := 1 }

/-- The source function `handleStatusFilterClick`. -/
def handleStatusFilterClick (st : ListState) (status : String) : ListState :=
  { st with filterStatus := status, currentPage := 1 }

end Dashboard

/-! ## Properties of records -/

/-- The invariant of a book in the data model, read on the numbers its fields denote:
`0 <= currentPage <= totalPages` whenever `totalPages > 0`. -/
def bookInvariant (book : JSObj) : Bool :=
  !(JSNum.lt 0 (book.get "totalPages").toNumber)
    || (JSNum.le 0 (book.get "currentPage").toNumber
        && JSNum.le (book.get "currentPage").toNumber (book.get "totalPages").toNumber)

/-- The page bounds of a session in the data model: `1 <= startPage < endPage <= totalPages`,
for the number the page count denotes. -/
def sessionBounds (session : Session) (totalPages : JSVal) : Bool :=
  JSNum.le 1 session.startPage && JSNum.lt session.startPage session.endPage
    && JSNum.le session.endPage totalPages.toNumber

/-- The records of a collection carry pairwise distinct identifiers. -/
def distinctIds (records : List JSObj) : Prop :=
  records.Pairwise (fun a b => (a.get "id").strictEq (b.get "id") = false)

/-- The keys of an object are pairwise distinct, as they are in every JavaScript object. -/
def JSObj.wellFormed (o : JSObj) : Prop := (o.map Prod.fst).Nodup

/-! ## Sample data -/

/-- A book of 300 pages, imported from the catalog and not yet started. -/
def sampleBook : JSObj :=
  [("title", JSVal.str "Dom Casmurro"), ("totalPages", JSVal.num 300),
   ("id", JSVal.str "b1"), ("currentPage", JSVal.num 0)]

/-- A note on page 10 of `sampleBook`, as `addNote` stores it. -/
def sampleNote : JSObj :=
  [("type", JSVal.str "anotacao"), ("page", JSVal.num 10), ("content", JSVal.str "Capitu"),
   ("bookId", JSVal.str "b1"), ("id", JSVal.str "n1"),
   ("createdAt", JSVal.str "2023-11-14T22:10:00.000Z")]

/-- A store holding `sampleBook`, one note on it and no session. -/
def sampleStore : Store :=
  { books := [sampleBook], notes := [sampleNote], readingSessions := [] }

/-- The `formData` of `AddEditBook` with the text `0` typed in the field of the page count:
`handleChange` keeps what the user typed as a string. -/
def zeroPagesForm : JSObj :=
  [("title", JSVal.str "Rascunho"), ("author", JSVal.str "Anônimo"), ("year", JSVal.str "2024"),
   ("totalPages", JSVal.str "0"), ("edition", JSVal.str ""), ("publisher", JSVal.str ""),
   ("coverImage", JSVal.str ""), ("currentPage", JSVal.num 0)]

/-- The record `addBook` stores for `zeroPagesForm`. -/
def zeroPagesBook : JSObj :=
  [("title", JSVal.str "Rascunho"), ("author", JSVal.str "Anônimo"), ("year", JSVal.str "2024"),
   ("totalPages", JSVal.str "0"), ("edition", JSVal.str ""), ("publisher", JSVal.str ""),
   ("coverImage", JSVal.str ""), ("currentPage", JSVal.num 0),
   ("id", JSVal.str "1700000000000"), ("createdAt", JSVal.str "2023-11-14T22:13:20.000Z"),
   ("rating", JSVal.num 0), ("publishedYear", JSVal.str "")]

/-- The properties `BookDetails` passes to the timer of the book in `sampleStore`. -/
def sampleProps : ReadingTimer.Props := { bookId := JSVal.str "b1", totalPages := JSVal.num 300 }

/-- A reading of the clock. -/
def sampleClock : Clock := { now := 1700000000000, iso := "2023-11-14T22:13:20.000Z" }

/-- A store with two sessions on the book `b1`, at 250 and 301 words per minute, and one
session on another book. -/
def twoSessionStore : Store :=
  { books := [sampleBook]
    notes := []
    readingSessions :=
      [{ bookId := JSVal.str "b1", startPage := JSNum.fin 1, endPage := JSNum.fin 51,
         duration := JSNum.fin 3000, wpm := some (JSNum.fin 250),
         id := JSVal.str "1700000000000", createdAt := JSVal.str "2023-11-14T22:13:20.000Z" },
       { bookId := JSVal.str "b2", startPage := JSNum.fin 1, endPage := JSNum.fin 5,
         duration := JSNum.fin 60, wpm := some (JSNum.fin 1000),
         id := JSVal.str "1700000100000", createdAt := JSVal.str "2023-11-14T22:15:00.000Z" },
       { bookId := JSVal.str "b1", startPage := JSNum.fin 51, endPage := JSNum.fin 94,
         duration := JSNum.fin 2143, wpm := some (JSNum.fin 301),
         id := JSVal.str "1700000200000", createdAt := JSVal.str "2023-11-14T22:16:40.000Z" }] }

/-- The store after a session on `sampleBook` from page 1 to page 2 that was stopped with the
timer at 30001 seconds. -/
def slowStore : Store :=
  (ReadingTimer.handleStop sampleProps sampleClock sampleStore
    { isRunning := true, seconds := 30001, startPage := "1", endPage := "2", wpm := none }).store

/-- The book of `slowStore`: `sampleBook` at page 2. -/
def slowBook : JSObj :=
  [("title", JSVal.str "Dom Casmurro"), ("totalPages", JSVal.num 300),
   ("id", JSVal.str "b1"), ("currentPage", JSVal.num 2)]

/-- The payload `handleSubmit` of the note dialog passes to `addNote` for a quotation on
page 50 of the book `b1`. -/
def sampleNoteInput : JSObj :=
  [("type", JSVal.str "citacao"), ("page", JSVal.num 50), ("content", JSVal.str "Bentinho"),
   ("bookId", JSVal.str "b1")]

/-- A session payload as `calculateWPM` builds it. -/
def sampleSessionInput : SessionInput :=
  { bookId := JSVal.str "b1", startPage := JSNum.fin 94, endPage := JSNum.fin 120,
    duration := JSNum.fin 1500, wpm := some (JSNum.fin 260) }

/-- The store after two notes were added to the book `b1`, the first on page 50 and the
second on page 10. -/
def fiftyTenStore : Store :=
  (BooksContext.addNote { now := 1700000300000, iso := "2023-11-14T22:18:20.000Z" }
    (BooksContext.addNote sampleClock { books := [sampleBook], notes := [], readingSessions := [] }
      sampleNoteInput).1
    [("type", JSVal.str "anotacao"), ("page", JSVal.num 10), ("content", JSVal.str "Escobar"),
     ("bookId", JSVal.str "b1")]).1

/-- A catalog record that lists its ISBN-10 before its ISBN-13 and has no page count, no
cover, no publisher, no date, no language and no categories. -/
def sampleVolume : Volume :=
  { id := JSVal.str "zyTCAlFPjgYC"
    volumeInfo := some
      { title := JSVal.str "Dom Casmurro"
        authors := some ["Machado de Assis"]
        pageCount := JSVal.undefined
        imageLinks := none
        description := JSVal.undefined
        industryIdentifiers := some
          [{ type := JSVal.str "ISBN_10", identifier := JSVal.str "8535902775" },
           { type := JSVal.str "ISBN_13", identifier := JSVal.str "9788535902778" }]
        publisher := JSVal.undefined
        publishedDate := JSVal.undefined
        language := JSVal.undefined
        categories := none } }

/-- The function `JSON.parse` on the three texts the examples store: `[]` decodes to the empty
array, `null` to a value that is no array, and the text `oops` is malformed. -/
def sampleParse (text : String) : Option (BooksContext.Decoded JSObj) :=
  if text = "[]" then some (BooksContext.Decoded.array [])
  else if text = "null" then some BooksContext.Decoded.other
  else none

/-- A storage that holds the given text under the key `books` and nothing else. -/
def storageWithBooks (text : String) (key : String) : Option (Option String) :=
  if key = "books" then some (some text) else some none

/-- The properties `BookDetails` passes to the note dialog of the book in `sampleStore`. -/
def sampleNoteProps : NotesTimeline.Props :=
  { bookId := JSVal.str "b1", totalPages := JSVal.num 300 }

/-- The note dialog opened for a new note, with the given text typed in the page field and a
content typed in. -/
def noteDialogWithPage (page : String) : NotesTimeline.State :=
  NotesTimeline.setContent (NotesTimeline.setPage (NotesTimeline.handleOpenDialog none) page)
    "Capitu"

/-- The form data of `AddEditBook` on the page of `sampleBook` after the author and the year
were typed in, the page count was changed to 100 and the current page to 150. -/
def overrunForm : JSObj :=
  AddEditBook.handleChange
    (AddEditBook.handleChange
      (AddEditBook.handleChange
        (AddEditBook.handleChange sampleBook "author" "Machado de Assis") "year" "1899")
      "totalPages" "100")
    "currentPage" "150"

/-- A store with no record. -/
def emptyStore : Store := { books := [], notes := [], readingSessions := [] }

/-- The form data of `AddEditBook` on the page of a new book after the title, the author, the
year, the page count and the address of a cover image were typed in. -/
def coverForm : JSObj :=
  AddEditBook.handleChange
    (AddEditBook.handleChange
      (AddEditBook.handleChange
        (AddEditBook.handleChange
          (AddEditBook.handleChange AddEditBook.initialForm "title" "Dom Casmurro")
          "author" "Machado de Assis")
        "year" "1899")
      "totalPages" "256")
    "coverImage" "https://exemplo.com/capa.jpg"

/-- The planner with the text `0` typed in the field of the daily minutes. -/
def zeroMinutesPlan : ReadingPlanner.State :=
  { desiredDays := "", dailyMinutes := "0", result := none }

/-- The planner with the text `0` typed in the field of the desired days. -/
def zeroDaysPlan : ReadingPlanner.State :=
  { desiredDays := "0", dailyMinutes := "", result := none }

/-- The store after `sampleVolume`, which has no page count, was added from the search
results of the dashboard. -/
def importedStore : Store := (Dashboard.handleAddBook sampleClock emptyStore sampleVolume).1

/-- The book `b1` recorded at page 200 of 300. -/
def advancedBook : JSObj :=
  [("title", JSVal.str "Dom Casmurro"), ("totalPages", JSVal.num 300),
   ("id", JSVal.str "b1"), ("currentPage", JSVal.num 200)]

/-- A store holding `advancedBook` and nothing else. -/
def advancedStore : Store := { books := [advancedBook], notes := [], readingSessions := [] }

/-- Five books: not started, in progress, finished, without a page count, and in progress. -/
def shelf : List JSObj :=
  [[("id", JSVal.str "b1"), ("totalPages", JSVal.num 300), ("currentPage", JSVal.num 0)],
   [("id", JSVal.str "b2"), ("totalPages", JSVal.num 300), ("currentPage", JSVal.num 50)],
   [("id", JSVal.str "b3"), ("totalPages", JSVal.num 120), ("currentPage", JSVal.num 120)],
   [("id", JSVal.str "b4"), ("totalPages", JSVal.num 0), ("currentPage", JSVal.num 0)],
   [("id", JSVal.str "b5"), ("totalPages", JSVal.num 80), ("currentPage", JSVal.num 79)]]

/-- A book edited through the form of `AddEditBook` with the text `0` typed as current page:
both page fields are held as text. -/
def textPagesBook : JSObj :=
  [("id", JSVal.str "b6"), ("totalPages", JSVal.str "300"), ("currentPage", JSVal.str "0")]

/-- The book with the given number as identifier, 100 pages long and not started. -/
def numberedBook (n : Nat) : JSObj :=
  [("id", JSVal.str (toString n)), ("totalPages", JSVal.num 100), ("currentPage", JSVal.num 0)]

/-- A library of twenty books, numbered from 0 to 19. -/
def twentyBooks : List JSObj := (List.range 20).map numberedBook

/-- A later reading of the clock. -/
def laterClock : Clock := { now := 1700000300000, iso := "2023-11-14T22:18:20.000Z" }

/-- The timer of `sampleBook` running from page 1, two seconds after the start, with the end
page 2 typed in. -/
def twoSecondTimer : ReadingTimer.State :=
  { isRunning := true, seconds := 2, startPage := "1", endPage := "2", wpm := none }

/-- What `handleStop` leaves when `twoSecondTimer` is stopped on `sampleStore`. -/
def firstStop : ReadingTimer.Outcome :=
  ReadingTimer.handleStop sampleProps sampleClock sampleStore twoSecondTimer

/-- The timer after `firstStop`, with the start page 2 typed in, started again without a
reset, three seconds later and with the end page 3 typed in. -/
def resumedTimer : ReadingTimer.State :=
  ReadingTimer.setEndPage
    (ReadingTimer.tick^[3]
      (ReadingTimer.handleStart sampleProps firstStop.store
        (ReadingTimer.setStartPage firstStop.state "2")).state)
    "3"

/-! ## Arithmetic lemmas -/

namespace JSNum

theorem ofNat_eq (n : Nat) : (OfNat.ofNat n : JSNum) = fin (n : ℚ) := rfl

@[simp]
theorem zero_eq : (0 : JSNum) = fin 0 := by
  show fin ((0 : ℕ) : ℚ) = fin 0
  simp

@[simp]
theorem one_eq : (1 : JSNum) = fin 1 := by
  show fin ((1 : ℕ) : ℚ) = fin 1
  simp

@[simp]
theorem ofNat_eq_fin (n : Nat) [n.AtLeastTwo] :
    (no_index (OfNat.ofNat n) : JSNum) = fin (OfNat.ofNat n) := by
  show fin ((OfNat.ofNat n : ℕ) : ℚ) = fin (OfNat.ofNat n)
  simp

@[simp]
theorem fin_add (a b : ℚ) : fin a + fin b = fin (a + b) := rfl

@[simp]
theorem fin_sub (a b : ℚ) : fin a - fin b = fin (a - b) := by
  show add (fin a) (neg (fin b)) = fin (a - b)
  simp [add, neg, sub_eq_add_neg]

@[simp]
theorem fin_mul (a b : ℚ) : fin a * fin b = fin (a * b) := rfl

theorem fin_div_def (a b : ℚ) : fin a / fin b = if b = 0 then ofSign a else fin (a / b) := rfl

@[simp]
theorem fin_div (a b : ℚ) (h : b ≠ 0) : fin a / fin b = fin (a / b) := by
  rw [fin_div_def, if_neg h]

theorem posInf_div_fin (b : ℚ) : posInf / fin b = if b < 0 then negInf else posInf := rfl

theorem negInf_div_fin (b : ℚ) : negInf / fin b = if b < 0 then posInf else negInf := rfl

@[simp]
theorem ceil_fin (q : ℚ) : JSNum.ceil (fin q) = fin (⌈q⌉ : ℤ) := rfl

@[simp]
theorem round_posInf : JSNum.round posInf = posInf := rfl

@[simp]
theorem round_negInf : JSNum.round negInf = negInf := rfl

@[simp]
theorem round_nan : JSNum.round nan = nan := rfl

@[simp]
theorem ceil_posInf : JSNum.ceil posInf = posInf := rfl

@[simp]
theorem ceil_negInf : JSNum.ceil negInf = negInf := rfl

@[simp]
theorem ceil_nan : JSNum.ceil nan = nan := rfl

@[simp]
theorem lt_fin (a b : ℚ) : lt (fin a) (fin b) = decide (a < b) := rfl

@[simp]
theorem le_fin (a b : ℚ) : le (fin a) (fin b) = decide (a ≤ b) := by
  by_cases h : b < a
  · simp [le, isNaN, lt, h, not_le.mpr h]
  · simp [le, isNaN, lt, h, not_lt.mp h]

@[simp]
theorem truthy_fin (q : ℚ) : truthy (fin q) = decide (q ≠ 0) := rfl

theorem orElse_fin (q : ℚ) (d : JSNum) : orElse (fin q) d = if q = 0 then d else fin q := by
  by_cases h : q = 0 <;> simp [orElse, h]

end JSNum

/-- On a finite number `Math.round` is the rounding to the nearest integer. -/
@[simp]
theorem mathRound_fin (q : ℚ) : JSNum.round (JSNum.fin q) = JSNum.fin (round q : ℤ) := by
  simp [JSNum.round, round_eq]

open JSNum (fin posInf negInf nan)

/-! ## Lemmas on double precision -/

/-- An integer rounds to itself. -/
theorem roundHalfEven_intCast (z : ℤ) : roundHalfEven (z : ℚ) = z := by
  simp [roundHalfEven]

/-- Rounding to the nearest integer moves a number by at most one half. -/
theorem roundHalfEven_near (q : ℚ) : |(roundHalfEven q : ℚ) - q| ≤ 1 / 2 := by
  have h1 : (⌊q⌋ : ℚ) ≤ q := Int.floor_le q
  have h2 : q < ⌊q⌋ + 1 := Int.lt_floor_add_one q
  unfold roundHalfEven
  split_ifs with a b c
  · rw [abs_le]; constructor <;> linarith
  · push_cast; rw [abs_le]; constructor <;> linarith
  · rw [abs_le]; constructor <;> linarith
  · push_cast; rw [abs_le]; constructor <;> linarith

/-- The exponent of a rational between two consecutive powers of two. -/
theorem doubleExponent_eq (q : ℚ) (e : ℤ) (h1 : (2 : ℚ) ^ e ≤ |q|) (h2 : |q| < (2 : ℚ) ^ (e + 1))
    (he : -1022 ≤ e) : doubleExponent q = e := by
  have hpos : 0 < |q| := lt_of_lt_of_le (by positivity) h1
  have hlog : Int.log 2 |q| = e := by
    apply le_antisymm
    · have := (Int.lt_zpow_iff_log_lt (b := 2) (by norm_num) hpos).mp (by exact_mod_cast h2)
      omega
    · exact (Int.zpow_le_iff_le_log (b := 2) (by norm_num) hpos).mp (by exact_mod_cast h1)
  rw [doubleExponent, hlog]
  omega

/-- The nearest double of a rational whose exponent is known. -/
theorem nearestDouble_of_exponent (q : ℚ) (e : ℤ) (h1 : (2 : ℚ) ^ e ≤ |q|)
    (h2 : |q| < (2 : ℚ) ^ (e + 1)) (he : -1022 ≤ e) :
    nearestDouble q = roundHalfEven (q * 2 ^ (52 - e)) * 2 ^ (e - 52) := by
  rw [nearestDouble, doubleExponent_eq q e h1 h2 he]

/-- The nearest double lies within half a unit in the last place, which is at most the
rational times `2^-53`. -/
theorem nearestDouble_near (q : ℚ) (e : ℤ) (h1 : (2 : ℚ) ^ e ≤ |q|)
    (h2 : |q| < (2 : ℚ) ^ (e + 1)) (he : -1022 ≤ e) :
    |nearestDouble q - q| ≤ |q| * (1 / 2 ^ 53) := by
  rw [nearestDouble_of_exponent q e h1 h2 he]
  have hr := roundHalfEven_near (q * 2 ^ (52 - e))
  have hp : (0 : ℚ) < 2 ^ (e - 52) := by positivity
  have hmul : (2 : ℚ) ^ (52 - e) * 2 ^ (e - 52) = 1 := by
    rw [← zpow_add₀ (by norm_num : (2 : ℚ) ≠ 0)]
    simp
  have e1 : (roundHalfEven (q * 2 ^ (52 - e)) : ℚ) * 2 ^ (e - 52) - q
      = ((roundHalfEven (q * 2 ^ (52 - e)) : ℚ) - q * 2 ^ (52 - e)) * 2 ^ (e - 52) := by
    rw [sub_mul, mul_assoc, hmul, mul_one]
  rw [e1, abs_mul, abs_of_pos hp]
  have hsplit : (2 : ℚ) ^ (e - 52) = 2 ^ e * (1 / 2 ^ 52) := by
    rw [zpow_sub₀ (by norm_num : (2 : ℚ) ≠ 0)]
    norm_num [div_eq_mul_inv]
  calc |(roundHalfEven (q * 2 ^ (52 - e)) : ℚ) - q * 2 ^ (52 - e)| * 2 ^ (e - 52)
      ≤ 1 / 2 * 2 ^ (e - 52) := by
        apply mul_le_mul_of_nonneg_right hr (le_of_lt hp)
    _ = 2 ^ e * (1 / 2 ^ 53) := by rw [hsplit]; ring
    _ ≤ |q| * (1 / 2 ^ 53) := by
        apply mul_le_mul_of_nonneg_right h1 (by positivity)

/-- The relative error of the nearest double is at most `2^-53` above the subnormal range. -/
theorem nearestDouble_near_of_le (q : ℚ) (h : (2 : ℚ) ^ (-1022 : ℤ) ≤ |q|) :
    |nearestDouble q - q| ≤ |q| * (1 / 2 ^ 53) := by
  have hpos : 0 < |q| := lt_of_lt_of_le (by positivity) h
  have h1 : (2 : ℚ) ^ (Int.log 2 |q|) ≤ |q| := by
    exact_mod_cast Int.zpow_log_le_self (b := 2) (by norm_num) hpos
  have h2 : |q| < (2 : ℚ) ^ (Int.log 2 |q| + 1) := by
    exact_mod_cast Int.lt_zpow_succ_log_self (b := 2) (by norm_num) |q|
  have he : -1022 ≤ Int.log 2 |q| :=
    (Int.zpow_le_iff_le_log (b := 2) (by norm_num) hpos).mp (by exact_mod_cast h)
  exact nearestDouble_near q _ h1 h2 he

/-- Zero is a double. -/
theorem nearestDouble_zero : nearestDouble 0 = 0 := by
  simp [nearestDouble, roundHalfEven]

/-- An integer below `2^53` in magnitude is a double. -/
theorem nearestDouble_intCast (z : ℤ) (h : |z| < 2 ^ 53) : nearestDouble (z : ℚ) = z := by
  by_cases hz : z = 0
  · subst hz
    simpa using nearestDouble_zero
  have hq : (1 : ℚ) ≤ |(z : ℚ)| := by
    have : 1 ≤ |z| := Int.one_le_abs hz
    exact_mod_cast this
  have hpos : 0 < |(z : ℚ)| := lt_of_lt_of_le one_pos hq
  have h1 : (2 : ℚ) ^ (Int.log 2 |(z : ℚ)|) ≤ |(z : ℚ)| := by
    exact_mod_cast Int.zpow_log_le_self (b := 2) (by norm_num) hpos
  have h2 : |(z : ℚ)| < (2 : ℚ) ^ (Int.log 2 |(z : ℚ)| + 1) := by
    exact_mod_cast Int.lt_zpow_succ_log_self (b := 2) (by norm_num) |(z : ℚ)|
  have he0 : 0 ≤ Int.log 2 |(z : ℚ)| :=
    (Int.zpow_le_iff_le_log (b := 2) (by norm_num) hpos).mp (by simpa using hq)
  have he52 : Int.log 2 |(z : ℚ)| < 53 := by
    apply (Int.lt_zpow_iff_log_lt (b := 2) (by norm_num) hpos).mp
    have : ((|z| : ℤ) : ℚ) < ((2 ^ 53 : ℤ) : ℚ) := by exact_mod_cast h
    push_cast at this
    exact_mod_cast this
  rw [nearestDouble_of_exponent _ _ h1 h2 (by omega)]
  obtain ⟨n, hn⟩ : ∃ n : ℕ, 52 - Int.log 2 |(z : ℚ)| = n := ⟨(52 - Int.log 2 |(z : ℚ)|).toNat, by omega⟩
  have hcast : (z : ℚ) * 2 ^ (52 - Int.log 2 |(z : ℚ)|) = ((z * 2 ^ n : ℤ) : ℚ) := by
    rw [hn]
    push_cast
    rw [zpow_natCast]
  rw [hcast, roundHalfEven_intCast]
  have hback : Int.log 2 |(z : ℚ)| - 52 = -(n : ℤ) := by omega
  rw [hback]
  push_cast
  rw [zpow_neg, zpow_natCast, mul_assoc, mul_inv_cancel₀ (by positivity), mul_one]

/-- The smallest normal double is below `2^-60`. -/
theorem tiny_le : (2 : ℚ) ^ (-1022 : ℤ) ≤ 1 / 2 ^ 60 := by
  have h : (2 : ℚ) ^ (-1022 : ℤ) = 1 / 2 ^ 1022 := by
    rw [zpow_neg, one_div]
    norm_cast
  rw [h, div_le_div_iff₀ (by positivity) (by positivity)]
  norm_num

/-- The double nearest to a divisor between 1/60 and 2^53. -/
theorem nearestDouble_divisor (a : ℚ) (ha1 : 1 / 60 ≤ a) :
    |nearestDouble a - a| ≤ a * (1 / 2 ^ 53) ∧ a / 2 ≤ nearestDouble a
      ∧ nearestDouble a ≤ 2 * a := by
  have ha : 0 < a := by linarith
  have hma : |nearestDouble a - a| ≤ a * (1 / 2 ^ 53) := by
    have h := nearestDouble_near_of_le a (by
      rw [abs_of_pos ha]
      calc (2 : ℚ) ^ (-1022 : ℤ) ≤ 1 / 2 ^ 60 := tiny_le
        _ ≤ 1 / 60 := by norm_num
        _ ≤ a := ha1)
    rwa [abs_of_pos ha] at h
  have hu : a * (1 / 2 ^ 53) ≤ a / 2 := by
    have : (1 : ℚ) / 2 ^ 53 ≤ 1 / 2 := by norm_num
    nlinarith
  have h1 := (abs_le.mp hma).1
  have h2 := (abs_le.mp hma).2
  refine ⟨hma, by linarith, by linarith⟩

/-- The error of a quotient whose divisor carries a relative error and which is rounded
itself. -/
theorem quotient_error (x a m w : ℚ) (ha : 0 < a) (hlo : a / 2 ≤ m)
    (hma : |m - a| ≤ a * (1 / 2 ^ 53)) (hwq : |w - x / m| ≤ |x / m| * (1 / 2 ^ 53)) :
    |x / m| * a ≤ 2 * |x| ∧ |w - x / a| ≤ 2 * (|x / m| * (1 / 2 ^ 53)) := by
  have hm : 0 < m := by linarith
  have hq_abs : |x / m| = |x| / m := by rw [abs_div, abs_of_pos hm]
  have hx0 : 0 ≤ |x| := abs_nonneg _
  constructor
  · rw [hq_abs, div_mul_eq_mul_div, div_le_iff₀ hm]
    nlinarith
  · have hqx : |x / m - x / a| ≤ |x / m| * (1 / 2 ^ 53) := by
      have e : x / m - x / a = x / m * ((a - m) / a) := by
        field_simp
        ring
      rw [e, abs_mul]
      apply mul_le_mul_of_nonneg_left _ (abs_nonneg _)
      rw [abs_div, abs_of_pos ha, div_le_iff₀ ha, abs_sub_comm]
      linarith
    have := abs_sub_le w (x / m) (x / a)
    linarith

/-- The quotient `W / (s / 60)` computed with two rounded divisions: no overflow, and the result
lies closer than `1 / (2 s)` to the exact quotient. -/
theorem quotient_near (W : ℤ) (s : ℕ) (hs : 0 < s) (hs2 : s < 2 ^ 53)
    (hW : |W| * 60 < 2 ^ 50) :
    0 < nearestDouble ((s : ℚ) / 60)
    ∧ nearestDouble ((s : ℚ) / 60) < 2 ^ 1024
    ∧ |nearestDouble ((W : ℚ) / nearestDouble ((s : ℚ) / 60))| < 2 ^ 1024
    ∧ |nearestDouble ((W : ℚ) / nearestDouble ((s : ℚ) / 60)) - (W : ℚ) * 60 / s|
        * (2 * s) < 1 := by
  have hsq : (0 : ℚ) < s := by exact_mod_cast hs
  have hs1 : (1 : ℚ) ≤ s := by exact_mod_cast hs
  have hs2q : (s : ℚ) < 2 ^ 53 := by exact_mod_cast hs2
  have hWq : |(W : ℚ)| * 60 < 2 ^ 50 := by
    have : ((|W| * 60 : ℤ) : ℚ) < ((2 ^ 50 : ℤ) : ℚ) := by exact_mod_cast hW
    push_cast at this
    exact this
  have hW0 : 0 ≤ |(W : ℚ)| := abs_nonneg _
  have ha : (0 : ℚ) < (s : ℚ) / 60 := by positivity
  have ha1 : 1 / 60 ≤ (s : ℚ) / 60 := by linarith
  have ha2 : (s : ℚ) / 60 < 2 ^ 53 := by linarith
  obtain ⟨hma, hm_lo, hm_hi⟩ := nearestDouble_divisor _ ha1
  generalize nearestDouble ((s : ℚ) / 60) = m at hma hm_lo hm_hi ⊢
  have hm : 0 < m := by linarith
  have hm1024 : m < 2 ^ 1024 := by
    have h54 : m < 2 ^ 54 := by linarith
    exact lt_of_lt_of_le h54 (by norm_num)
  refine ⟨hm, hm1024, ?_⟩
  by_cases hWz : W = 0
  · subst hWz
    simp [nearestDouble_zero]
  have hW1 : (1 : ℚ) ≤ |(W : ℚ)| := by
    have : 1 ≤ |W| := Int.one_le_abs hWz
    exact_mod_cast this
  have hq_abs : |(W : ℚ) / m| = |(W : ℚ)| / m := by rw [abs_div, abs_of_pos hm]
  have hq_lo : (2 : ℚ) ^ (-1022 : ℤ) ≤ |(W : ℚ) / m| := by
    have h1 : 1 / (2 ^ 54 : ℚ) ≤ |(W : ℚ) / m| := by
      rw [hq_abs, div_le_div_iff₀ (by positivity) hm]
      nlinarith
    have h2 : (1 : ℚ) / 2 ^ 60 ≤ 1 / 2 ^ 54 := by norm_num
    exact le_trans tiny_le (le_trans h2 h1)
  have hwq := nearestDouble_near_of_le _ hq_lo
  obtain ⟨hqa, hwx⟩ := quotient_error (W : ℚ) _ m _ ha hm_lo hma hwq
  generalize nearestDouble ((W : ℚ) / m) = w at hwq hwx ⊢
  generalize hq : |(W : ℚ) / m| = q at hqa hwx hwq
  have hq0 : 0 ≤ q := by rw [← hq]; exact abs_nonneg _
  have hbound : q * s ≤ 120 * |(W : ℚ)| := by
    have : q * ((s : ℚ) / 60) = q * s / 60 := by ring
    rw [this] at hqa
    linarith
  have hx : (W : ℚ) * 60 / s = (W : ℚ) / ((s : ℚ) / 60) := by
    field_simp
  refine ⟨?_, ?_⟩
  · have h1 : |w| ≤ |(W : ℚ) / m| + q * (1 / 2 ^ 53) := by
      have := abs_sub_abs_le_abs_sub w ((W : ℚ) / m)
      linarith
    rw [hq] at h1
    have h2 : q ≤ 120 * |(W : ℚ)| := by nlinarith
    have h3 : q * (1 / 2 ^ 53) ≤ q := by
      have : (1 : ℚ) / 2 ^ 53 ≤ 1 := by norm_num
      nlinarith
    have h4 : |w| < 2 ^ 60 := by linarith
    exact lt_of_lt_of_le h4 (by norm_num)
  · rw [hx]
    calc |w - (W : ℚ) / ((s : ℚ) / 60)| * (2 * s)
        ≤ 2 * (q * (1 / 2 ^ 53)) * (2 * s) := by
          apply mul_le_mul_of_nonneg_right hwx (by positivity)
      _ = 4 * (q * s) * (1 / 2 ^ 53) := by ring
      _ ≤ 4 * (120 * |(W : ℚ)|) * (1 / 2 ^ 53) := by
          apply mul_le_mul_of_nonneg_right _ (by positivity)
          linarith
      _ < 1 := by
          have h53 : (8 : ℚ) * 2 ^ 50 * (1 / 2 ^ 53) = 1 := by norm_num
          have hpos : (0 : ℚ) < 1 / 2 ^ 53 := by positivity
          nlinarith

/-- Rounding half up a number that lies closer than `1 / (2 s)` to a quotient with the
denominator `s`: the rounded quotient or one less, and the rounded quotient itself unless the
quotient is halfway between two integers. -/
theorem round_of_near (W : ℤ) (s : ℕ) (hs : 0 < s) (w : ℚ)
    (h : |w - (W : ℚ) * 60 / s| * (2 * s) < 1) :
    (⌊w + 1 / 2⌋ = ⌊(W : ℚ) * 60 / s + 1 / 2⌋ ∨ ⌊w + 1 / 2⌋ = ⌊(W : ℚ) * 60 / s + 1 / 2⌋ - 1)
    ∧ ((∀ k : ℤ, (W : ℚ) * 60 / s ≠ k + 1 / 2) →
        ⌊w + 1 / 2⌋ = ⌊(W : ℚ) * 60 / s + 1 / 2⌋) := by
  have hsq : (0 : ℚ) < s := by exact_mod_cast hs
  have h2s : (0 : ℚ) < 2 * s := by positivity
  have hxs : (W : ℚ) * 60 / s * (2 * s) = 120 * W := by
    field_simp
    ring
  generalize hx : (W : ℚ) * 60 / s = x at h hxs ⊢
  generalize hn : ⌊x + 1 / 2⌋ = n
  have hn1 : (n : ℚ) ≤ x + 1 / 2 := by rw [← hn]; exact Int.floor_le _
  have hn2 : x + 1 / 2 < n + 1 := by rw [← hn]; exact Int.lt_floor_add_one _
  have hw : |(w - x) * (2 * s)| < 1 := by
    rw [abs_mul, abs_of_pos h2s]
    exact h
  have hw1 := (abs_lt.mp hw).1
  have hw2 := (abs_lt.mp hw).2
  -- the gap below the next integer
  have hup : (120 * W + s + 1 : ℚ) ≤ 2 * (n + 1) * s := by
    have h1 : (120 * W + s : ℚ) < 2 * (n + 1) * s := by
      have := mul_lt_mul_of_pos_right hn2 h2s
      nlinarith
    have h2 : (120 * W + s : ℤ) < 2 * (n + 1) * s := by exact_mod_cast h1
    have h3 : (120 * W + s + 1 : ℤ) ≤ 2 * (n + 1) * s := by omega
    exact_mod_cast h3
  have hlt : w + 1 / 2 < n + 1 := by
    have : (w + 1 / 2) * (2 * s) < (n + 1) * (2 * s) := by nlinarith
    exact lt_of_mul_lt_mul_right this (le_of_lt h2s)
  have hge : (n : ℚ) - 1 ≤ w + 1 / 2 := by
    have : ((n : ℚ) - 1) * (2 * s) ≤ (w + 1 / 2) * (2 * s) := by
      have := mul_le_mul_of_nonneg_right hn1 (le_of_lt h2s)
      nlinarith
    exact le_of_mul_le_mul_right this h2s
  constructor
  · by_cases hc : (n : ℚ) ≤ w + 1 / 2
    · left
      rw [Int.floor_eq_iff]
      exact ⟨hc, hlt⟩
    · right
      rw [Int.floor_eq_iff]
      push_cast
      exact ⟨hge, by linarith⟩
  · intro hhalf
    rw [Int.floor_eq_iff]
    refine ⟨?_, hlt⟩
    have hne : (n : ℚ) ≠ x + 1 / 2 := by
      intro heq
      apply hhalf (n - 1)
      rw [← hx] at heq ⊢
      push_cast
      linarith
    have hlo : (n : ℚ) < x + 1 / 2 := lt_of_le_of_ne hn1 hne
    have hdown : (2 * n * s + 1 : ℚ) ≤ 120 * W + s := by
      have h1 : (2 * n * s : ℚ) < 120 * W + s := by
        have := mul_lt_mul_of_pos_right hlo h2s
        nlinarith
      have h2 : (2 * n * s : ℤ) < 120 * W + s := by exact_mod_cast h1
      have h3 : (2 * n * s + 1 : ℤ) ≤ 120 * W + s := by omega
      exact_mod_cast h3
    have : (n : ℚ) * (2 * s) ≤ (w + 1 / 2) * (2 * s) := by nlinarith
    exact le_of_mul_le_mul_right this h2s

/-- Rounding to a double leaves NaN and the infinities as they are. -/
theorem toDouble_special :
    JSNum.toDouble nan = nan ∧ JSNum.toDouble posInf = posInf
      ∧ JSNum.toDouble negInf = negInf := ⟨rfl, rfl, rfl⟩

/-- Below the overflow threshold, rounding to a double gives the nearest double. -/
theorem toDouble_fin (q : ℚ) (h : |nearestDouble q| < 2 ^ 1024) :
    JSNum.toDouble (fin q) = fin (nearestDouble q) := by
  rw [JSNum.toDouble, if_neg (not_le.mpr h)]

/-- An integer below `2^53` in magnitude is not changed by rounding to a double. -/
theorem toDouble_intCast (z : ℤ) (h : |z| < 2 ^ 53) :
    JSNum.toDouble (fin (z : ℚ)) = fin (z : ℚ) := by
  have hn := nearestDouble_intCast z h
  have hlt : |nearestDouble (z : ℚ)| < 2 ^ 1024 := by
    rw [hn]
    have h1 : |(z : ℚ)| < 2 ^ 53 := by
      have : ((|z| : ℤ) : ℚ) < ((2 ^ 53 : ℤ) : ℚ) := by exact_mod_cast h
      push_cast at this
      exact this
    exact lt_of_lt_of_le h1 (by norm_num)
  rw [toDouble_fin _ hlt, hn]

/-- The value `calculatedWPM` takes on integer pages and a positive number of seconds: the
exact quotient rounded half up, or one less; the rounded exact quotient itself unless the
exact quotient is halfway between two integers. -/
theorem calculatedWPM_int (start finish : ℤ) (seconds : ℕ) (hs : 0 < seconds)
    (hs2 : seconds < 2 ^ 53) (hp : |finish - start| * 15000 < 2 ^ 50) :
    ∃ n : ℤ,
      ReadingTimer.calculatedWPM (fin start) (fin finish) (fin seconds) = fin n
      ∧ (n = round (((finish : ℚ) - start) * 250 / ((seconds : ℚ) / 60))
        ∨ n = round (((finish : ℚ) - start) * 250 / ((seconds : ℚ) / 60)) - 1)
      ∧ ((∀ k : ℤ, ((finish : ℚ) - start) * 250 / ((seconds : ℚ) / 60) ≠ k + 1 / 2) →
          n = round (((finish : ℚ) - start) * 250 / ((seconds : ℚ) / 60))) := by
  have hW : |(finish - start) * 250| * 60 < 2 ^ 50 := by
    rw [abs_mul]
    have : |(250 : ℤ)| = 250 := by norm_num
    rw [this]
    omega
  have h0 : (0 : ℤ) ≤ |finish - start| := abs_nonneg _
  have hd1 : |finish - start| < 2 ^ 53 := by omega
  have hd2 : |(finish - start) * 250| < 2 ^ 53 := by omega
  obtain ⟨hm, hm1024, hw1024, hnear⟩ := quotient_near ((finish - start) * 250) seconds hs hs2 hW
  have hx : ((finish : ℚ) - start) * 250 / ((seconds : ℚ) / 60)
      = (((finish - start) * 250 : ℤ) : ℚ) * 60 / seconds := by
    have hsq : (seconds : ℚ) ≠ 0 := by
      have : (0 : ℚ) < seconds := by exact_mod_cast hs
      exact ne_of_gt this
    push_cast
    field_simp
  have hval : ReadingTimer.calculatedWPM (fin start) (fin finish) (fin seconds)
      = fin ((⌊nearestDouble ((((finish - start) * 250 : ℤ) : ℚ)
          / nearestDouble ((seconds : ℚ) / 60)) + 1 / 2⌋ : ℤ) : ℚ) := by
    have e1 : JSNum.toDouble (fin (finish : ℚ) - fin (start : ℚ))
        = fin ((finish - start : ℤ) : ℚ) := by
      rw [JSNum.fin_sub, ← Int.cast_sub, toDouble_intCast _ hd1]
    have e2 : JSNum.toDouble (fin ((finish - start : ℤ) : ℚ) * 250)
        = fin (((finish - start) * 250 : ℤ) : ℚ) := by
      have : fin ((finish - start : ℤ) : ℚ) * 250 = fin (((finish - start) * 250 : ℤ) : ℚ) := by
        simp
      rw [this, toDouble_intCast _ hd2]
    have e3 : JSNum.toDouble (fin (seconds : ℚ) / 60)
        = fin (nearestDouble ((seconds : ℚ) / 60)) := by
      have : fin (seconds : ℚ) / 60 = fin ((seconds : ℚ) / 60) := by simp
      rw [this, toDouble_fin _ (by rw [abs_of_pos hm]; exact hm1024)]
    unfold ReadingTimer.calculatedWPM
    simp only [e1, e2, e3]
    rw [JSNum.fin_div _ _ (ne_of_gt hm), toDouble_fin _ hw1024, mathRound_fin, round_eq]
  obtain ⟨hor, himp⟩ := round_of_near ((finish - start) * 250) seconds hs _ hnear
  refine ⟨_, hval, ?_, ?_⟩
  · rw [hx, round_eq]
    exact hor
  · intro hhalf
    rw [hx, round_eq]
    apply himp
    intro k
    rw [← hx]
    exact hhalf k

/-- The value `calculatedWPM` takes when the exact quotient lies strictly between `n - 1/2`
and `n + 1/2`: the integer `n`. -/
theorem calculatedWPM_of_round (start finish : ℤ) (seconds : ℕ) (n : ℤ) (hs : 0 < seconds)
    (hs2 : seconds < 2 ^ 53) (hp : |finish - start| * 15000 < 2 ^ 50)
    (hlo : (n : ℚ) - 1 / 2 < ((finish : ℚ) - start) * 250 / ((seconds : ℚ) / 60))
    (hhi : ((finish : ℚ) - start) * 250 / ((seconds : ℚ) / 60) < n + 1 / 2) :
    ReadingTimer.calculatedWPM (fin start) (fin finish) (fin seconds) = fin n := by
  obtain ⟨m, hm, _, himp⟩ := calculatedWPM_int start finish seconds hs hs2 hp
  have hround : round (((finish : ℚ) - start) * 250 / ((seconds : ℚ) / 60)) = n := by
    rw [round_eq, Int.floor_eq_iff]
    constructor <;> linarith
  have hne : ∀ k : ℤ, ((finish : ℚ) - start) * 250 / ((seconds : ℚ) / 60) ≠ k + 1 / 2 := by
    intro k hk
    rw [hk] at hlo hhi
    have h1 : (n : ℚ) - 1 < k := by linarith
    have h2 : (k : ℚ) < n := by linarith
    have h3 : n - 1 < k := by exact_mod_cast h1
    have h4 : k < n := by exact_mod_cast h2
    omega
  rw [hm, himp hne, hround]

/-- With the counter at 0 and the end page above the start page, `calculatedWPM` is
`Infinity`. -/
theorem calculatedWPM_zero_seconds (start finish : ℤ) (h : start < finish)
    (hp : |finish - start| * 15000 < 2 ^ 50) :
    ReadingTimer.calculatedWPM (fin start) (fin finish) (fin 0) = posInf := by
  have h0 : (0 : ℤ) ≤ |finish - start| := abs_nonneg _
  have hd1 : |finish - start| < 2 ^ 53 := by omega
  have hd2 : |(finish - start) * 250| < 2 ^ 53 := by
    rw [abs_mul]
    have : |(250 : ℤ)| = 250 := by norm_num
    rw [this]
    omega
  have e1 : JSNum.toDouble (fin (finish : ℚ) - fin (start : ℚ))
      = fin ((finish - start : ℤ) : ℚ) := by
    rw [JSNum.fin_sub, ← Int.cast_sub, toDouble_intCast _ hd1]
  have e2 : JSNum.toDouble (fin ((finish - start : ℤ) : ℚ) * 250)
      = fin (((finish - start) * 250 : ℤ) : ℚ) := by
    have : fin ((finish - start : ℤ) : ℚ) * 250 = fin (((finish - start) * 250 : ℤ) : ℚ) := by
      simp
    rw [this, toDouble_intCast _ hd2]
  have e3 : JSNum.toDouble (fin 0 / 60) = fin 0 := by
    have : (fin 0 / 60 : JSNum) = fin ((0 : ℤ) : ℚ) := by simp
    rw [this, toDouble_intCast 0 (by norm_num)]
    simp
  have hpos : (0 : ℚ) < (((finish - start) * 250 : ℤ) : ℚ) := by
    have : 0 < (finish - start) * 250 := by omega
    exact_mod_cast this
  unfold ReadingTimer.calculatedWPM
  simp only [e1, e2, e3]
  rw [JSNum.fin_div_def, if_pos rfl, JSNum.ofSign, if_pos hpos]
  rfl

/-- With an end page that is NaN, `calculatedWPM` is NaN. -/
theorem calculatedWPM_nan_end (start : ℚ) (totalSeconds : JSNum) :
    ReadingTimer.calculatedWPM (fin start) nan totalSeconds = nan := by
  have hsub : nan - fin start = nan := rfl
  have hmul : nan * (250 : JSNum) = nan := rfl
  have hdiv : ∀ x : JSNum, nan / x = nan := by
    intro x
    cases x <;> rfl
  unfold ReadingTimer.calculatedWPM
  simp only [hsub, toDouble_special.1, hmul, hdiv]
  rfl

/-- A rational strictly within one half of an integer rounds to that integer. -/
theorem roundHalfEven_of_lt (q : ℚ) (f : ℤ) (h1 : (f : ℚ) - 1 / 2 < q) (h2 : q < f + 1 / 2) :
    roundHalfEven q = f := by
  by_cases hq : (f : ℚ) ≤ q
  · have hfl : ⌊q⌋ = f := by
      rw [Int.floor_eq_iff]
      constructor <;> linarith
    rw [roundHalfEven, hfl, if_pos (by linarith)]
  · have hfl : ⌊q⌋ = f - 1 := by
      rw [Int.floor_eq_iff]
      push_cast
      constructor <;> linarith
    have hc : ¬ (q - ((f - 1 : ℤ) : ℚ) < 1 / 2) := by
      push_cast
      linarith
    have hd : 1 / 2 < q - ((f - 1 : ℤ) : ℚ) := by
      push_cast
      linarith
    rw [roundHalfEven, hfl, if_neg hc, if_pos hd]
    ring

/-- The nearest double of a positive rational, from its exponent and the integer its scaled
value is nearest to. -/
theorem nearestDouble_eval (q : ℚ) (e f : ℤ) (h1 : (2 : ℚ) ^ e ≤ q) (h2 : q < (2 : ℚ) ^ (e + 1))
    (he : -1022 ≤ e) (hlo : (f : ℚ) - 1 / 2 < q * 2 ^ (52 - e))
    (hhi : q * 2 ^ (52 - e) < f + 1 / 2) :
    nearestDouble q = f * 2 ^ (e - 52) := by
  have hpos : 0 < q := lt_of_lt_of_le (by positivity) h1
  rw [nearestDouble_of_exponent q e (by rwa [abs_of_pos hpos]) (by rwa [abs_of_pos hpos]) he,
    roundHalfEven_of_lt _ f hlo hhi]

/-- In double precision 2000 / 60 is `4691249611844267 / 2^47`, just above the exact
quotient. -/
theorem nearestDouble_2000_60 :
    nearestDouble ((2000 : ℚ) / 60) = 4691249611844267 / 2 ^ 47 := by
  rw [nearestDouble_eval (2000 / 60) 5 4691249611844267 (by norm_num) (by norm_num)
    (by norm_num) (by norm_num) (by norm_num)]
  norm_num

/-- In double precision 250 divided by the double for 2000 / 60 is
`8444249301319679 / 2^50`, just below 7.5. -/
theorem nearestDouble_250_quotient :
    nearestDouble ((250 : ℚ) / (4691249611844267 / 2 ^ 47)) = 8444249301319679 / 2 ^ 50 := by
  rw [nearestDouble_eval _ 2 8444249301319679 (by norm_num) (by norm_num)
    (by norm_num) (by norm_num) (by norm_num)]
  norm_num

/-- One page in 2000 seconds: `calculatedWPM` is 7. -/
theorem calculatedWPM_1_2_2000 :
    ReadingTimer.calculatedWPM (fin 1) (fin 2) (fin 2000) = fin 7 := by
  have e1 : JSNum.toDouble (fin 2 - fin 1) = fin 1 := by
    have h := toDouble_intCast 1 (by norm_num)
    have : (fin 2 - fin 1 : JSNum) = fin ((1 : ℤ) : ℚ) := by
      rw [JSNum.fin_sub]
      norm_num
    rw [this, h]
    norm_num
  have e2 : JSNum.toDouble (fin 1 * 250) = fin 250 := by
    have h := toDouble_intCast 250 (by norm_num)
    have : (fin 1 * 250 : JSNum) = fin ((250 : ℤ) : ℚ) := by simp
    rw [this, h]
    norm_num
  have e3 : JSNum.toDouble (fin 2000 / 60) = fin (4691249611844267 / 2 ^ 47) := by
    have : (fin 2000 / 60 : JSNum) = fin ((2000 : ℚ) / 60) := by simp
    rw [this, toDouble_fin _ (by rw [nearestDouble_2000_60, abs_of_pos (by norm_num)]; norm_num), nearestDouble_2000_60]
  have e4 : JSNum.toDouble (fin 250 / fin (4691249611844267 / 2 ^ 47))
      = fin (8444249301319679 / 2 ^ 50) := by
    rw [JSNum.fin_div _ _ (by norm_num),
      toDouble_fin _ (by rw [nearestDouble_250_quotient, abs_of_pos (by norm_num)]; norm_num), nearestDouble_250_quotient]
  unfold ReadingTimer.calculatedWPM
  simp only [e1, e2, e3, e4]
  rw [mathRound_fin, round_eq]
  have : ⌊(8444249301319679 / 2 ^ 50 : ℚ) + 1 / 2⌋ = 7 := by
    rw [Int.floor_eq_iff]
    norm_num
  rw [this]
  norm_num

/-! ## Lemmas on the embedding -/

/-- The empty text has no digit. -/
theorem parseInt_empty : parseInt "" = nan := by decide

/-- The text `1`. -/
theorem parseInt_1 : parseInt "1" = fin 1 := by decide

/-- The text `2`. -/
theorem parseInt_2 : parseInt "2" = fin 2 := by decide

/-- The text `30`. -/
theorem parseInt_30 : parseInt "30" = fin 30 := by decide

/-- The text `51`. -/
theorem parseInt_51 : parseInt "51" = fin 51 := by decide

/-- The empty string denotes zero. -/
theorem stringToNumber_empty : stringToNumber "" = fin 0 := by
  have h : classifyNumeric "" = StrNumeric.empty := by decide
  simp [stringToNumber, h, StrNumeric.value]

/-- The string `0` denotes zero. -/
theorem stringToNumber_zero : stringToNumber "0" = fin 0 := by
  have h : classifyNumeric "0" = StrNumeric.decimal false 0 0 0 := by decide
  simp [stringToNumber, h, StrNumeric.value]

/-- On a finite `wpm` the expression `session.wpm || 0` is that number. -/
theorem wpmOrZero_fin (x : Session) (q : ℚ) (h : x.wpm = some (fin q)) :
    BooksContext.wpmOrZero x = fin q := by
  by_cases hq : q = 0 <;> simp [BooksContext.wpmOrZero, h, JSNum.orElse, hq]

/-- The `reduce` of the averages over sessions with finite `wpm` values is their sum. -/
theorem foldl_wpm_fin (l : List Session) :
    ∀ (ws : List ℚ) (a : ℚ), l.map Session.wpm = ws.map (fun q => some (fin q)) →
      l.foldl (fun sum session => sum + BooksContext.wpmOrZero session) (fin a)
        = fin (a + ws.sum) := by
  induction l with
  | nil =>
    intro ws a h
    cases ws with
    | nil => simp
    | cons w ws => simp at h
  | cons x l ih =>
    intro ws a h
    cases ws with
    | nil => simp at h
    | cons w ws =>
      simp only [List.map_cons, List.cons.injEq] at h
      simp only [List.foldl_cons, wpmOrZero_fin x w h.1, JSNum.fin_add, List.sum_cons]
      rw [ih ws (a + w) h.2, add_assoc]

/-- The expression `v || 0` denotes the same number as `v` whenever `v` denotes a number. -/
theorem toNumber_orElse_zero (v : JSVal) (q : ℚ) (h : v.toNumber = fin q) :
    (JSVal.orElse v (JSVal.num 0)).toNumber = fin q := by
  cases v with
  | undefined => simp [JSVal.toNumber] at h
  | null => simpa [JSVal.orElse, JSVal.truthy, JSVal.toNumber] using h
  | bool b => cases b <;> simpa [JSVal.orElse, JSVal.truthy, JSVal.toNumber] using h
  | num n =>
    simp only [JSVal.toNumber] at h
    subst h
    by_cases hq : q = 0 <;> simp [JSVal.orElse, JSVal.truthy, JSVal.toNumber, hq]
  | str s =>
    by_cases hs : s = ""
    · subst hs
      simp only [JSVal.toNumber, stringToNumber_empty] at h
      simpa [JSVal.orElse, JSVal.truthy, JSVal.toNumber] using h
    · simpa [JSVal.orElse, JSVal.truthy, hs] using h

/-- The three fields of `calculateEstimatedTime` for finite page numbers and a non-zero finite
`wpm`, whatever the daily budget. -/
theorem calculateEstimatedTime_eq (totalPages currentPage : JSVal) (tp cp w : ℚ)
    (dailyMinutes : JSNum) (htp : totalPages.toNumber = fin tp)
    (hcp : currentPage.toNumber = fin cp) (hw : w ≠ 0) :
    BooksContext.calculateEstimatedTime totalPages currentPage dailyMinutes (some (fin w))
      = { totalMinutes := fin (round ((tp - cp) * 250 / w) : ℤ)
          daysNeeded := JSNum.ceil (fin ((tp - cp) * 250 / w) / dailyMinutes)
          hoursNeeded := fin (round ((tp - cp) * 250 / w / 60) : ℤ) } := by
  simp [BooksContext.calculateEstimatedTime, htp, hcp, hw]

/-- The three fields of `calculateEstimatedTime` on finite arguments, in rational
arithmetic. -/
theorem calculateEstimatedTime_fin (totalPages currentPage : JSVal) (tp cp w m : ℚ)
    (htp : totalPages.toNumber = fin tp) (hcp : currentPage.toNumber = fin cp)
    (hw : w ≠ 0) (hm : m ≠ 0) :
    BooksContext.calculateEstimatedTime totalPages currentPage (fin m) (some (fin w))
      = { totalMinutes := fin (round ((tp - cp) * 250 / w) : ℤ)
          daysNeeded := fin (⌈(tp - cp) * 250 / w / m⌉ : ℤ)
          hoursNeeded := fin (round ((tp - cp) * 250 / w / 60) : ℤ) } := by
  rw [calculateEstimatedTime_eq totalPages currentPage tp cp w (fin m) htp hcp hw]
  simp [hm]

/-- With a daily budget typed in, `handleCalculate` stores the estimate of
`calculateEstimatedTime` as the result. -/
theorem handleCalculate_result (book : JSObj) (avg : JSNum) (st : ReadingPlanner.State)
    (h : st.dailyMinutes ≠ "") :
    (ReadingPlanner.handleCalculate book avg st).1.result
      = some (BooksContext.calculateEstimatedTime (book.get "totalPages")
          (JSVal.orElse (book.get "currentPage") (JSVal.num 0))
          (parseInt st.dailyMinutes) (some avg)) := by
  unfold ReadingPlanner.handleCalculate
  rw [if_neg h]
  dsimp only
  split_ifs <;> rfl

/-- A value that denotes a non-zero number is truthy and is not strictly equal to the
number 0, unless it is that number. -/
theorem truthy_of_toNumber_pos (v : JSVal) (q : ℚ) (h : v.toNumber = fin q) (hq : 0 < q) :
    v.truthy = true ∧ v.strictEq (JSVal.num (fin 0)) = false := by
  cases v with
  | undefined => simp [JSVal.toNumber] at h
  | null =>
    simp only [JSVal.toNumber, JSNum.fin.injEq] at h
    exact absurd h (ne_of_lt hq)
  | bool b =>
    cases b
    · simp only [JSVal.toNumber, JSNum.fin.injEq] at h
      exact absurd (by simpa using h) (ne_of_lt hq)
    · simp [JSVal.truthy, JSVal.strictEq]
  | num n =>
    simp only [JSVal.toNumber] at h
    subst h
    simp [JSVal.truthy, JSVal.strictEq, JSNum.eq, ne_of_gt hq]
  | str s =>
    have hs : s ≠ "" := by
      intro h0
      rw [h0] at h
      simp only [JSVal.toNumber, stringToNumber_empty, JSNum.fin.injEq] at h
      exact absurd h (ne_of_lt hq)
    simp [JSVal.truthy, JSVal.strictEq, hs]

/-- The operator `v > 0` on a value that denotes a finite number. -/
theorem gt_zero_of_toNumber (v : JSVal) (q : ℚ) (h : v.toNumber = fin q) :
    v.gt (JSVal.num (fin 0)) = decide (0 < q) := by
  have hl : v.gt (JSVal.num (fin 0)) = JSNum.lt (fin 0) v.toNumber := by
    cases v <;> rfl
  rw [hl, h, JSNum.lt_fin]

/-- For a book whose page count denotes a positive number the three progress functions agree
and compute `round(currentPage / totalPages * 100)`. -/
theorem progress_of_positive (book : JSObj) (tp cp : ℚ)
    (htp : (book.get "totalPages").toNumber = fin tp)
    (hcp : (book.get "currentPage").toNumber = fin cp) (hpos : 0 < tp) :
    ProgressChart.progressPercentage book = fin (round (cp / tp * 100) : ℤ)
    ∧ BookDetails.calculateProgress book = fin (round (cp / tp * 100) : ℤ)
    ∧ Dashboard.calculateProgress book = fin (round (cp / tp * 100) : ℤ) := by
  obtain ⟨h1, h2⟩ := truthy_of_toNumber_pos _ tp htp hpos
  refine ⟨?_, ?_, ?_⟩
  · simp [ProgressChart.progressPercentage, gt_zero_of_toNumber _ tp htp, hpos, htp, hcp,
      ne_of_gt hpos]
  · simp [BookDetails.calculateProgress, h1, h2, htp, hcp, ne_of_gt hpos]
  · simp [Dashboard.calculateProgress, h1, h2, htp, hcp, ne_of_gt hpos]

/-- For a book whose page count is the number 0 the three progress functions return 0. -/
theorem progress_of_zero (book : JSObj) (htp : book.get "totalPages" = JSVal.num 0) :
    ProgressChart.progressPercentage book = fin 0
    ∧ BookDetails.calculateProgress book = fin 0
    ∧ Dashboard.calculateProgress book = fin 0 := by
  refine ⟨?_, ?_, ?_⟩
  · simp [ProgressChart.progressPercentage, htp, JSVal.gt, JSVal.lt, JSVal.toNumber]
  · simp [BookDetails.calculateProgress, htp, JSVal.truthy]
  · simp [Dashboard.calculateProgress, htp, JSVal.truthy]

/-- For a book with `0 <= currentPage <= totalPages` and a positive page count the progress
is an integer between 0 and 100. -/
theorem progress_in_range (book : JSObj) (tp cp : ℚ)
    (htp : (book.get "totalPages").toNumber = fin tp)
    (hcp : (book.get "currentPage").toNumber = fin cp) (hpos : 0 < tp)
    (h0 : 0 ≤ cp) (h1 : cp ≤ tp) :
    ∃ n : ℤ, 0 ≤ n ∧ n ≤ 100 ∧ ProgressChart.progressPercentage book = fin n
      ∧ BookDetails.calculateProgress book = fin n
      ∧ Dashboard.calculateProgress book = fin n := by
  obtain ⟨ha, hb, hc⟩ := progress_of_positive book tp cp htp hcp hpos
  refine ⟨round (cp / tp * 100), ?_, ?_, ha, hb, hc⟩
  · rw [round_eq]
    apply Int.floor_nonneg.mpr
    have : 0 ≤ cp / tp := div_nonneg h0 (le_of_lt hpos)
    positivity
  · rw [round_eq]
    have hle : cp / tp ≤ 1 := (div_le_one hpos).mpr h1
    have : ⌊cp / tp * 100 + 1 / 2⌋ < 101 := by
      rw [Int.floor_lt]
      push_cast
      linarith
    omega

/-- Sorting the empty array. -/
theorem jsSort_nil {α : Type} (compare : α → α → JSNum) : jsSort compare [] = [] := rfl

/-- Filtering for a predicate what was filtered for its negation leaves nothing. -/
theorem filter_filter_not {α : Type} (p : α → Bool) (l : List α) :
    (l.filter (fun x => !p x)).filter p = [] := by
  rw [List.filter_eq_nil_iff]
  intro a ha
  have := (List.mem_filter.mp ha).2
  simpa using this

/-- Mapping with a function that changes only the elements that pass a test no element
passes is the identity. -/
theorem map_ite_of_forall_false {α : Type} (p : α → Bool) (f : α → α) (l : List α)
    (h : ∀ x ∈ l, p x = false) : l.map (fun x => if p x then f x else x) = l := by
  induction l with
  | nil => rfl
  | cons a l ih =>
    have ha : p a = false := h a (List.mem_cons_self a l)
    have hl : ∀ x ∈ l, p x = false := fun x hx => h x (List.mem_cons_of_mem a hx)
    simp [ha, ih hl]

/-- Submitting `zeroPagesForm` to `addBook` stores `zeroPagesBook`. -/
theorem addBook_zeroPagesForm :
    BooksContext.addBook sampleClock { books := [], notes := [], readingSessions := [] }
        zeroPagesForm
      = some ({ books := [zeroPagesBook], notes := [], readingSessions := [] },
          JSVal.str "1700000000000") := by
  have hid : (toString 1700000000000 : String) = "1700000000000" := by decide
  simp [BooksContext.addBook, zeroPagesForm, zeroPagesBook, sampleClock, JSObj.get, JSObj.set,
    JSObj.has, JSVal.truthy, JSVal.orElse, hid]

/-- The page count of `sampleBook`. -/
theorem sampleBook_totalPages : (sampleBook.get "totalPages").toNumber = fin 300 := by
  simp [sampleBook, JSObj.get, JSVal.toNumber]

/-- The current page of `sampleBook`. -/
theorem sampleBook_currentPage : (sampleBook.get "currentPage").toNumber = fin 0 := by
  simp [sampleBook, JSObj.get, JSVal.toNumber]

/-- The book of `sampleStore` has no session, so its average is 0. -/
theorem sampleStore_average : BooksContext.calculateAverageWPM sampleStore (JSVal.str "b1") = fin 0 := by
  simp [BooksContext.calculateAverageWPM, BooksContext.getSessionsByBook, sampleStore]

/-- The content of `slowStore`: the book at page 2 and one session whose `wpm` rounds to 0. -/
theorem slowStore_eq :
    slowStore =
      { books := [slowBook]
        notes := [sampleNote]
        readingSessions :=
          [{ bookId := JSVal.str "b1"
             startPage := fin 1
             endPage := fin 2
             duration := fin 30001
             wpm := some (fin 0)
             id := JSVal.str "1700000000000"
             createdAt := JSVal.str "2023-11-14T22:13:20.000Z" }] } := by
  have hid : (toString 1700000000000 : String) = "1700000000000" := by decide
  have hw : ReadingTimer.calculatedWPM (fin 1) (fin 2) (fin 30001) = fin 0 := by
    have h := calculatedWPM_of_round 1 2 30001 0 (by norm_num) (by norm_num) (by norm_num)
      (by norm_num) (by norm_num)
    simpa using h
  have h300 : ¬ ((300 : ℚ) < 2) := by norm_num
  simp [slowStore, slowBook, ReadingTimer.handleStop, ReadingTimer.calculateWPM, parseInt_1,
    parseInt_2, sampleProps, sampleStore, sampleBook, sampleClock, JSVal.gt, JSVal.lt,
    JSVal.toNumber, JSVal.strictEq, JSObj.get, JSObj.spread, JSObj.set, JSObj.has,
    BooksContext.addReadingSession, BooksContext.updateBook, hid, hw, h300]

/-- The page count of `slowBook`. -/
theorem slowBook_totalPages : (slowBook.get "totalPages").toNumber = fin 300 := by
  simp [slowBook, JSObj.get, JSVal.toNumber]

/-- The current page of `slowBook`. -/
theorem slowBook_currentPage : (slowBook.get "currentPage").toNumber = fin 2 := by
  simp [slowBook, JSObj.get, JSVal.toNumber]

/-- The average WPM of the book of `slowStore` is 0. -/
theorem slowStore_average :
    BooksContext.calculateAverageWPM slowStore (JSVal.str "b1") = fin 0 := by
  rw [slowStore_eq]
  simp [BooksContext.calculateAverageWPM, BooksContext.getSessionsByBook, JSVal.strictEq,
    BooksContext.wpmOrZero, JSNum.orElse]

/-! ## The claims -/

/-- C1 (the claim as stated fails). One page in 2000 seconds: the exact quotient
`250 / (2000 / 60)` is 7.5 and rounds to 8, but the two divisions are carried out in double
precision, where the quotient is `7.499999999999999`, and `calculateWPM` sets and records 7. -/
theorem C1_halfway_quotient_is_rounded_down :
    round (((2 : ℚ) - 1) * 250 / ((2000 : ℚ) / 60)) = 8
    ∧ (ReadingTimer.calculateWPM sampleProps sampleClock sampleStore ReadingTimer.initial
        (fin 1) (fin 2) (fin 2000)).state.wpm = some (fin 7)
    ∧ (ReadingTimer.calculateWPM sampleProps sampleClock sampleStore ReadingTimer.initial
        (fin 1) (fin 2) (fin 2000)).store.readingSessions.map (fun session => session.wpm)
      = [some (fin 7)] := by
  refine ⟨?_, ?_, ?_⟩
  · rw [round_eq, Int.floor_eq_iff]
    norm_num
  · simp [ReadingTimer.calculateWPM, calculatedWPM_1_2_2000]
  · simp [ReadingTimer.calculateWPM, BooksContext.addReadingSession, BooksContext.updateBook,
      sampleStore, calculatedWPM_1_2_2000]

/-- C1 (amended). For integer pages less than `2^50 / 15000` apart and a number of elapsed
seconds between 1 and `2^53`, `calculateWPM` sets an integer as the `wpm` of the timer and
records the same integer in the session it appends to the store. The integer is
`round((end - start) * 250 / (seconds / 60))` or one less, and it is the rounded quotient
whenever the quotient is not exactly halfway between two integers. -/
theorem C1_calculateWPM (p : ReadingTimer.Props) (c : Clock) (store : Store)
    (st : ReadingTimer.State) (start finish : ℤ) (seconds : ℕ) (h : 0 < seconds)
    (hs : seconds < 2 ^ 53) (hp : |finish - start| * 15000 < 2 ^ 50) :
    ∃ n : ℤ,
      (ReadingTimer.calculateWPM p c store st (fin start) (fin finish) (fin seconds)).state.wpm
          = some (fin n)
      ∧ (ReadingTimer.calculateWPM p c store st (fin start) (fin finish)
            (fin seconds)).store.readingSessions
          = store.readingSessions ++
              [{ bookId := p.bookId
                 startPage := fin start
                 endPage := fin finish
                 duration := fin seconds
                 wpm := some (fin n)
                 id := JSVal.str (toString c.now)
                 createdAt := JSVal.str c.iso }]
      ∧ (n = round (((finish : ℚ) - start) * 250 / ((seconds : ℚ) / 60))
        ∨ n = round (((finish : ℚ) - start) * 250 / ((seconds : ℚ) / 60)) - 1)
      ∧ ((∀ k : ℤ, ((finish : ℚ) - start) * 250 / ((seconds : ℚ) / 60) ≠ k + 1 / 2) →
          n = round (((finish : ℚ) - start) * 250 / ((seconds : ℚ) / 60))) := by
  obtain ⟨n, hn, hor, himp⟩ := calculatedWPM_int start finish seconds h hs hp
  refine ⟨n, ?_, ?_, hor, himp⟩
  · simp [ReadingTimer.calculateWPM, hn]
  · simp [ReadingTimer.calculateWPM, BooksContext.addReadingSession, BooksContext.updateBook,
      hn]

/-- C1 (witness). From page 1 to page 51 in 3000 seconds the quotient is 250, which is not
halfway between two integers: 250 words per minute. -/
theorem C1_calculateWPM_witness :
    (ReadingTimer.calculateWPM sampleProps sampleClock sampleStore ReadingTimer.initial
        (fin 1) (fin 51) (fin 3000)).state.wpm = some (fin 250) := by
  obtain ⟨n, h1, _, _, himp⟩ := C1_calculateWPM sampleProps sampleClock sampleStore
    ReadingTimer.initial 1 51 3000 (by norm_num) (by norm_num) (by norm_num)
  have e : ((((51 : ℤ) : ℚ) - ((1 : ℤ) : ℚ)) * 250 / (((3000 : ℕ) : ℚ) / 60)) = 250 := by
    norm_num
  have hn : n = 250 := by
    rw [himp (by
      intro k hk
      rw [e] at hk
      have h2 : (2 * k + 1 : ℚ) = 500 := by linarith
      have h3 : (2 * k + 1 : ℤ) = 500 := by exact_mod_cast h2
      omega), e]
    norm_num
  have h1' := h1
  rw [hn] at h1'
  simpa using h1'

/-- C2 (the code at the failing input). A timer that is started on page 1 and stopped on page
51 before the first tick has its counter at 0; `handleStop` then calls `calculateWPM`, which
records a session of duration 0 whose `wpm` is `Infinity`. -/
theorem C2_zero_duration_session_recorded :
    (ReadingTimer.setEndPage
        (ReadingTimer.handleStart sampleProps sampleStore
          (ReadingTimer.setStartPage ReadingTimer.initial "1")).state "51").seconds = 0
    ∧ (ReadingTimer.handleStop sampleProps sampleClock sampleStore
        (ReadingTimer.setEndPage
          (ReadingTimer.handleStart sampleProps sampleStore
            (ReadingTimer.setStartPage ReadingTimer.initial "1")).state "51")).store.readingSessions
      = [{ bookId := JSVal.str "b1"
           startPage := fin 1
           endPage := fin 51
           duration := fin 0
           wpm := some posInf
           id := JSVal.str "1700000000000"
           createdAt := JSVal.str "2023-11-14T22:13:20.000Z" }]
    ∧ (ReadingTimer.handleStop sampleProps sampleClock sampleStore
        (ReadingTimer.setEndPage
          (ReadingTimer.handleStart sampleProps sampleStore
            (ReadingTimer.setStartPage ReadingTimer.initial "1")).state "51")).state.wpm
      = some posInf := by
  have hst : ReadingTimer.setEndPage
        (ReadingTimer.handleStart sampleProps sampleStore
          (ReadingTimer.setStartPage ReadingTimer.initial "1")).state "51"
      = { isRunning := true, seconds := 0, startPage := "1", endPage := "51", wpm := none } := by
    simp [ReadingTimer.setEndPage, ReadingTimer.handleStart, ReadingTimer.setStartPage,
      ReadingTimer.initial, parseInt_1, sampleProps, JSVal.gt, JSVal.lt, JSVal.toNumber]
  have hid : (toString 1700000000000 : String) = "1700000000000" := by decide
  have hw : ReadingTimer.calculatedWPM (fin 1) (fin 51) (fin 0) = posInf := by
    have h := calculatedWPM_zero_seconds 1 51 (by norm_num) (by norm_num)
    simpa using h
  have h300 : ¬ ((300 : ℚ) < 51) := by norm_num
  rw [hst]
  refine ⟨rfl, ?_, ?_⟩
  · simp [ReadingTimer.handleStop, ReadingTimer.calculateWPM, parseInt_1, parseInt_51,
      sampleProps, sampleStore, sampleBook, sampleClock, JSVal.gt, JSVal.lt, JSVal.toNumber,
      BooksContext.addReadingSession, BooksContext.updateBook, hid, hw, h300]
  · simp [ReadingTimer.handleStop, ReadingTimer.calculateWPM, parseInt_1, parseInt_51,
      sampleProps, JSVal.gt, JSVal.lt, JSVal.toNumber, hw, h300]

/-- C3. The average WPM of a book is 0 when the book has no session and otherwise the mean of
the `wpm` values of the sessions whose `bookId` is the book, rounded to the nearest integer;
the store, the timer and the progress chart compute the same value. -/
theorem C3_averageWPM (s : Store) (bookId totalPages : JSVal) (ws : List ℚ)
    (h : (s.readingSessions.filter (fun x => x.bookId.strictEq bookId)).map Session.wpm
      = ws.map (fun q => some (fin q))) :
    ReadingTimer.calculateAverageWPM ⟨bookId, totalPages⟩ s
        = BooksContext.calculateAverageWPM s bookId
    ∧ ProgressChart.averageWPM s bookId = BooksContext.calculateAverageWPM s bookId
    ∧ BooksContext.calculateAverageWPM s bookId
        = if ws = [] then fin 0 else fin (round (ws.sum / ws.length) : ℤ) := by
  have hlen : (s.readingSessions.filter (fun x => x.bookId.strictEq bookId)).length
      = ws.length := by
    have := congrArg List.length h
    simpa using this
  refine ⟨rfl, ?_, ?_⟩
  · unfold ProgressChart.averageWPM BooksContext.calculateAverageWPM
    by_cases h0 : (BooksContext.getSessionsByBook s bookId).length = 0
    · simp [h0]
    · have : (BooksContext.getSessionsByBook s bookId).length > 0 := Nat.pos_of_ne_zero h0
      simp only [h0, this, if_true, if_false]
  · unfold BooksContext.calculateAverageWPM BooksContext.getSessionsByBook
    by_cases hw : ws = []
    · subst hw
      have h0 : (s.readingSessions.filter (fun x => x.bookId.strictEq bookId)).length = 0 := hlen
      simp only [h0, if_true, JSNum.zero_eq]
    · have hpos : ws.length ≠ 0 := by
        intro h0
        exact hw (List.length_eq_zero.mp h0)
      have hq : (ws.length : ℚ) ≠ 0 := by exact_mod_cast hpos
      simp only [hlen, hpos, if_false, hw]
      have := foldl_wpm_fin _ ws 0 h
      rw [JSNum.zero_eq, this]
      simp [hq]

/-- C3 (witness). Two sessions of the book at 250 and 301 words per minute, and a session of
another book: the average is 276. -/
theorem C3_averageWPM_witness :
    BooksContext.calculateAverageWPM twoSessionStore (JSVal.str "b1") = fin 276 := by
  have h := (C3_averageWPM twoSessionStore (JSVal.str "b1") (JSVal.num 300) [250, 301]
    (by simp [twoSessionStore, JSVal.strictEq])).2.2
  have e : round (([250, 301] : List ℚ).sum / (([250, 301] : List ℚ).length : ℚ)) = 276 := by
    rw [round_eq, Int.floor_eq_iff]
    norm_num
  rw [e] at h
  simpa using h

/-- C4 (the claim as stated fails). After a session of one page that lasted 30001 seconds the
book has a session and its average WPM is 0; the planner then projects with 200 words per
minute and answers 13 days, where the formula of the claim with the average WPM divides by
zero. -/
theorem C4_zero_average_with_sessions :
    BooksContext.getBook slowStore (JSVal.str "b1") = some slowBook
    ∧ BooksContext.getSessionsByBook slowStore (JSVal.str "b1") ≠ []
    ∧ BooksContext.calculateAverageWPM slowStore (JSVal.str "b1") = fin 0
    ∧ (ReadingPlanner.handleCalculate slowBook
          (ReadingPlanner.averageWPM slowStore (JSVal.str "b1"))
          { desiredDays := "", dailyMinutes := "30", result := none }).1.result
        = some { totalMinutes := fin 373, daysNeeded := fin 13, hoursNeeded := fin 6 }
    ∧ JSNum.ceil
          (((slowBook.get "totalPages").toNumber - (slowBook.get "currentPage").toNumber) * 250
            / BooksContext.calculateAverageWPM slowStore (JSVal.str "b1") / parseInt "30")
        = posInf := by
  refine ⟨?_, ?_, slowStore_average, ?_, ?_⟩
  · rw [slowStore_eq]
    simp [BooksContext.getBook, slowBook, JSObj.get, JSVal.strictEq]
  · rw [slowStore_eq]
    simp [BooksContext.getSessionsByBook, JSVal.strictEq]
  · rw [handleCalculate_result _ _ _ (by decide)]
    have hw : ReadingPlanner.averageWPM slowStore (JSVal.str "b1") = fin 200 := by
      simp [ReadingPlanner.averageWPM, slowStore_average, JSNum.orElse]
    have h1 : round ((300 - 2 : ℚ) * 250 / 200) = 373 := by
      rw [round_eq, Int.floor_eq_iff]
      norm_num
    have h2 : ⌈(300 - 2 : ℚ) * 250 / 200 / 30⌉ = 13 := by
      rw [Int.ceil_eq_iff]
      norm_num
    have h3 : round ((300 - 2 : ℚ) * 250 / 200 / 60) = 6 := by
      rw [round_eq, Int.floor_eq_iff]
      norm_num
    rw [hw, parseInt_30, calculateEstimatedTime_fin _ _ 300 2 200 30 slowBook_totalPages
      (toNumber_orElse_zero _ 2 slowBook_currentPage) (by norm_num) (by norm_num), h1, h2, h3]
    norm_num
  · rw [slowBook_totalPages, slowBook_currentPage, slowStore_average, parseInt_30]
    simp [JSNum.fin_div_def, JSNum.ofSign]
    norm_num [JSNum.posInf_div_fin]

/-- C4 (amended). The planner projects with the average WPM of the book when that average is
not zero and with 200 otherwise (in particular when the book has no session):
`daysNeeded = ceil(((totalPages - currentPage) * 250 / wpm) / dailyMinutes)` and
`hoursNeeded = round(((totalPages - currentPage) * 250 / wpm) / 60)`. -/
theorem C4_projection (book : JSObj) (store : Store) (bookId : JSVal)
    (st : ReadingPlanner.State) (tp cp a : ℚ) (m : ℕ)
    (htp : (book.get "totalPages").toNumber = fin tp)
    (hcp : (book.get "currentPage").toNumber = fin cp)
    (havg : BooksContext.calculateAverageWPM store bookId = fin a)
    (hm : parseInt st.dailyMinutes = fin m) (hpos : 0 < m) :
    ∃ est : BooksContext.Estimate,
      (ReadingPlanner.handleCalculate book (ReadingPlanner.averageWPM store bookId) st).1.result
        = some est
      ∧ est.daysNeeded
          = fin (⌈(tp - cp) * 250 / (if a = 0 then 200 else a) / m⌉ : ℤ)
      ∧ est.hoursNeeded
          = fin (round ((tp - cp) * 250 / (if a = 0 then 200 else a) / 60) : ℤ) := by
  have hne : st.dailyMinutes ≠ "" := by
    intro h0
    rw [h0, parseInt_empty] at hm
    exact absurd hm (by simp)
  have hmq : (m : ℚ) ≠ 0 := by
    have : (0 : ℚ) < m := by exact_mod_cast hpos
    exact ne_of_gt this
  have hw : (if a = 0 then (200 : ℚ) else a) ≠ 0 := by
    by_cases ha : a = 0 <;> simp [ha]
  have havg2 : ReadingPlanner.averageWPM store bookId = fin (if a = 0 then 200 else a) := by
    by_cases ha : a = 0 <;> simp [ReadingPlanner.averageWPM, havg, JSNum.orElse_fin, ha]
  have hest := calculateEstimatedTime_fin (book.get "totalPages")
    (JSVal.orElse (book.get "currentPage") (JSVal.num 0)) tp cp _ m htp
    (toNumber_orElse_zero _ cp hcp) hw hmq
  refine ⟨
    { totalMinutes := fin (round ((tp - cp) * 250 / (if a = 0 then 200 else a)) : ℤ),
      daysNeeded := fin (⌈(tp - cp) * 250 / (if a = 0 then 200 else a) / m⌉ : ℤ),
      hoursNeeded := fin (round ((tp - cp) * 250 / (if a = 0 then 200 else a) / 60) : ℤ) },
    ?_, rfl, rfl⟩
  rw [handleCalculate_result book _ st hne, havg2, hm, hest]

/-- C4 (witness). The book of 300 pages at page 0 without sessions and 30 minutes a day:
13 days and 6 hours. -/
theorem C4_projection_witness :
    ∃ est : BooksContext.Estimate,
      (ReadingPlanner.handleCalculate sampleBook
          (ReadingPlanner.averageWPM sampleStore (JSVal.str "b1"))
          { desiredDays := "", dailyMinutes := "30", result := none }).1.result = some est
      ∧ est.daysNeeded = fin 13 ∧ est.hoursNeeded = fin 6 := by
  obtain ⟨est, h1, h2, h3⟩ := C4_projection sampleBook sampleStore (JSVal.str "b1")
    { desiredDays := "", dailyMinutes := "30", result := none } 300 0 0 30
    sampleBook_totalPages sampleBook_currentPage sampleStore_average parseInt_30 (by decide)
  have e2 : ⌈(300 - 0 : ℚ) * 250 / (if (0 : ℚ) = 0 then 200 else 0) / (30 : ℕ)⌉ = 13 := by
    rw [Int.ceil_eq_iff]
    norm_num
  have e3 : round ((300 - 0 : ℚ) * 250 / (if (0 : ℚ) = 0 then 200 else 0) / 60) = 6 := by
    rw [round_eq, Int.floor_eq_iff]
    norm_num
  rw [e2] at h2
  rw [e3] at h3
  exact ⟨est, h1, by simpa using h2, by simpa using h3⟩

/-- C5 (the claim as stated fails). For one remaining page at 200 words per minute the quotient
`totalWords / wpm` is 5/4 and the `totalMinutes` field of the result is 1. -/
theorem C5_totalMinutes_is_rounded :
    (BooksContext.calculateEstimatedTime (JSVal.num 1) (JSVal.num 0) 30 (some 200)).totalMinutes
        = fin 1
    ∧ ((JSVal.num 1).toNumber - (JSVal.num 0).toNumber) * 250 / 200 = fin (5 / 4)
    ∧ (BooksContext.calculateEstimatedTime (JSVal.num 1) (JSVal.num 0) 30 (some 200)).totalMinutes
        ≠ ((JSVal.num 1).toNumber - (JSVal.num 0).toNumber) * 250 / 200 := by
  have h1 : round ((1 - 0 : ℚ) * 250 / 200) = 1 := by
    rw [round_eq, Int.floor_eq_iff]
    norm_num
  have hA : (BooksContext.calculateEstimatedTime (JSVal.num 1) (JSVal.num 0) 30
      (some 200)).totalMinutes = fin 1 := by
    have := calculateEstimatedTime_fin (JSVal.num 1) (JSVal.num 0) 1 0 200 30
      (by simp [JSVal.toNumber]) (by simp [JSVal.toNumber]) (by norm_num) (by norm_num)
    simp only [JSNum.ofNat_eq_fin] at this ⊢
    rw [this, h1]
    norm_num
  have hB : ((JSVal.num 1).toNumber - (JSVal.num 0).toNumber) * 250 / 200 = fin (5 / 4) := by
    simp [JSVal.toNumber]
    norm_num
  refine ⟨hA, hB, ?_⟩
  rw [hA, hB]
  intro h
  injection h with h
  norm_num at h

/-- C5 (amended). The `totalMinutes` field of the result of `calculateEstimatedTime` is
`totalWords / wpm` rounded to the nearest integer, where `totalWords / wpm` is
`(totalPages - currentPage) * 250 / wpm`; `daysNeeded` and `hoursNeeded` are derived from the
quotient before it is rounded. -/
theorem C5_totalMinutes (totalPages currentPage : JSVal) (dailyMinutes : JSNum) (tp cp w : ℚ)
    (htp : totalPages.toNumber = fin tp) (hcp : currentPage.toNumber = fin cp)
    (hw : 0 < w) :
    (BooksContext.calculateEstimatedTime totalPages currentPage dailyMinutes
        (some (fin w))).totalMinutes
      = fin (round ((tp - cp) * 250 / w) : ℤ)
    ∧ (BooksContext.calculateEstimatedTime totalPages currentPage dailyMinutes
        (some (fin w))).daysNeeded
      = JSNum.ceil (fin ((tp - cp) * 250 / w) / dailyMinutes)
    ∧ (BooksContext.calculateEstimatedTime totalPages currentPage dailyMinutes
        (some (fin w))).hoursNeeded
      = fin (round ((tp - cp) * 250 / w / 60) : ℤ) := by
  rw [calculateEstimatedTime_eq totalPages currentPage tp cp w dailyMinutes htp hcp
    (ne_of_gt hw)]
  exact ⟨rfl, rfl, rfl⟩

/-- C5 (witness). One remaining page at 200 words per minute: `totalMinutes` is 1. -/
theorem C5_totalMinutes_witness :
    (BooksContext.calculateEstimatedTime (JSVal.num (fin 1)) (JSVal.num (fin 0)) (fin 30)
        (some (fin 200))).totalMinutes = fin 1 := by
  have h := (C5_totalMinutes (JSVal.num (fin 1)) (JSVal.num (fin 0)) (fin 30) 1 0 200 rfl rfl
    (by norm_num)).1
  have h1 : round ((1 - 0 : ℚ) * 250 / 200) = 1 := by
    rw [round_eq, Int.floor_eq_iff]
    norm_num
  rw [h1] at h
  simpa using h

/-- C6. The required daily minutes invert the projection: for a target of `D` days the planner
answers `r = ceil(((totalPages - currentPage) * 250 / wpm) / D)`, and a daily budget of `m`
minutes is projected to finish within `D` days exactly when `m >= r`. -/
theorem C6_required_daily_time (book : JSObj) (st : ReadingPlanner.State) (tp cp w : ℚ)
    (D : ℕ) (htp : (book.get "totalPages").toNumber = fin tp)
    (hcp : (book.get "currentPage").toNumber = fin cp) (hw : 0 < w)
    (hD : parseInt st.desiredDays = fin D) (hpos : 0 < D) :
    ReadingPlanner.calculateRequiredDailyTime book (fin w) st
        = fin (⌈(tp - cp) * 250 / w / D⌉ : ℤ)
    ∧ ∀ m : ℕ, 0 < m →
        ∃ d : ℤ,
          (BooksContext.calculateEstimatedTime (book.get "totalPages") (book.get "currentPage")
              (fin m) (some (fin w))).daysNeeded = fin d
          ∧ (d ≤ D ↔ ⌈(tp - cp) * 250 / w / D⌉ ≤ (m : ℤ)) := by
  have hne : st.desiredDays ≠ "" := by
    intro h0
    rw [h0, parseInt_empty] at hD
    exact absurd hD (by simp)
  have hDq : (0 : ℚ) < D := by exact_mod_cast hpos
  constructor
  · unfold ReadingPlanner.calculateRequiredDailyTime
    rw [if_neg hne]
    dsimp only
    rw [htp, toNumber_orElse_zero _ cp hcp, hD]
    simp [ne_of_gt hw, ne_of_gt hDq]
  · intro m hm
    have hmq : (0 : ℚ) < m := by exact_mod_cast hm
    refine ⟨⌈(tp - cp) * 250 / w / m⌉, ?_, ?_⟩
    · rw [calculateEstimatedTime_fin _ _ tp cp w m htp hcp (ne_of_gt hw) (ne_of_gt hmq)]
    · rw [Int.ceil_le, Int.ceil_le, div_le_iff₀ hmq, div_le_iff₀ hDq]
      push_cast
      rw [mul_comm (D : ℚ) (m : ℚ)]

/-- C6 (witness). The book of 300 pages at page 0, 200 words per minute and a target of 13
days: 29 minutes a day. -/
theorem C6_required_daily_time_witness :
    ReadingPlanner.calculateRequiredDailyTime sampleBook (fin 200)
        { desiredDays := "13", dailyMinutes := "", result := none } = fin 29 := by
  have h := (C6_required_daily_time sampleBook
    { desiredDays := "13", dailyMinutes := "", result := none } 300 0 200 13
    sampleBook_totalPages sampleBook_currentPage (by norm_num) (by decide) (by decide)).1
  have e : ⌈(300 - 0 : ℚ) * 250 / 200 / (13 : ℕ)⌉ = 29 := by
    rw [Int.ceil_eq_iff]
    norm_num
  rw [e] at h
  simpa using h

/-- C7 (the code at the failing input). For the book stored with the page count `0` typed in
the form, the page count denotes the number zero, `ProgressChart` answers 0, and
`calculateProgress` of the book page and of the dashboard answers NaN. -/
theorem C7_progress_of_text_zero :
    (zeroPagesBook.get "totalPages").toNumber = fin 0
    ∧ ProgressChart.progressPercentage zeroPagesBook = fin 0
    ∧ BookDetails.calculateProgress zeroPagesBook = nan
    ∧ Dashboard.calculateProgress zeroPagesBook = nan := by
  have h1 : zeroPagesBook.get "totalPages" = JSVal.str "0" := by
    simp [zeroPagesBook, JSObj.get]
  have h2 : zeroPagesBook.get "currentPage" = JSVal.num 0 := by
    simp [zeroPagesBook, JSObj.get]
  refine ⟨?_, ?_, ?_, ?_⟩
  · rw [h1]
    exact stringToNumber_zero
  · simp [ProgressChart.progressPercentage, h1, JSVal.gt, JSVal.lt, JSVal.toNumber,
      stringToNumber_zero]
  · simp [BookDetails.calculateProgress, h1, h2, JSVal.truthy, JSVal.strictEq, JSVal.toNumber,
      stringToNumber_zero, JSNum.fin_div_def, JSNum.ofSign]
    rfl
  · simp [Dashboard.calculateProgress, h1, h2, JSVal.truthy, JSVal.strictEq, JSVal.toNumber,
      stringToNumber_zero, JSNum.fin_div_def, JSNum.ofSign]
    rfl

/-- C8 (the code at the failing input). For the book stored with the page count `0` typed in
the form, the progress computed by the book page and by the dashboard is neither
`>= 0` nor `<= 100`. -/
theorem C8_progress_out_of_range :
    JSNum.ge (BookDetails.calculateProgress zeroPagesBook) 0 = false
    ∧ JSNum.le (BookDetails.calculateProgress zeroPagesBook) 100 = false
    ∧ JSNum.ge (Dashboard.calculateProgress zeroPagesBook) 0 = false
    ∧ JSNum.le (Dashboard.calculateProgress zeroPagesBook) 100 = false := by
  have h1 : zeroPagesBook.get "totalPages" = JSVal.str "0" := by
    simp [zeroPagesBook, JSObj.get]
  have h2 : zeroPagesBook.get "currentPage" = JSVal.num 0 := by
    simp [zeroPagesBook, JSObj.get]
  have hb : BookDetails.calculateProgress zeroPagesBook = nan := by
    simp [BookDetails.calculateProgress, h1, h2, JSVal.truthy, JSVal.strictEq, JSVal.toNumber,
      stringToNumber_zero, JSNum.fin_div_def, JSNum.ofSign]
    rfl
  have hd : Dashboard.calculateProgress zeroPagesBook = nan := by
    simp [Dashboard.calculateProgress, h1, h2, JSVal.truthy, JSVal.strictEq, JSVal.toNumber,
      stringToNumber_zero, JSNum.fin_div_def, JSNum.ofSign]
    rfl
  rw [hb, hd]
  simp [JSNum.ge, JSNum.le, JSNum.isNaN]

/-- C9. After `deleteBook(id)` no book has the id, no note and no session has it as `bookId`,
and `getNotesByBook(id)` and `getSessionsByBook(id)` are empty. -/
theorem C9_deleteBook_cascade (s : Store) (id : JSVal) :
    (∀ book ∈ (BooksContext.deleteBook s id).books, (book.get "id").strictEq id = false)
    ∧ (∀ note ∈ (BooksContext.deleteBook s id).notes,
        (note.get "bookId").strictEq id = false)
    ∧ (∀ session ∈ (BooksContext.deleteBook s id).readingSessions,
        session.bookId.strictEq id = false)
    ∧ BooksContext.getNotesByBook (BooksContext.deleteBook s id) id = []
    ∧ BooksContext.getSessionsByBook (BooksContext.deleteBook s id) id = [] := by
  refine ⟨?_, ?_, ?_, ?_, ?_⟩
  · intro book hb
    have := (List.mem_filter.mp hb).2
    simpa using this
  · intro note hn
    have := (List.mem_filter.mp hn).2
    simpa using this
  · intro session hx
    have := (List.mem_filter.mp hx).2
    simpa using this
  · unfold BooksContext.getNotesByBook BooksContext.deleteBook
    simp only
    rw [filter_filter_not (fun note : JSObj => (note.get "bookId").strictEq id) s.notes]
    rfl
  · unfold BooksContext.getSessionsByBook BooksContext.deleteBook
    simp only
    exact filter_filter_not (fun session : Session => session.bookId.strictEq id) _

/-- C10. When no record of the collection carries the id, `updateBook(id, fields)` leaves the
books as they are and `updateNote(id, fields)` leaves the notes as they are: same length, same
records, same order. -/
theorem C10_update_unknown_id (s : Store) (id : JSVal) (fields : JSObj) :
    ((∀ book ∈ s.books, (book.get "id").strictEq id = false) →
        BooksContext.updateBook s id fields = s
        ∧ (BooksContext.updateBook s id fields).books.length = s.books.length)
    ∧ ((∀ note ∈ s.notes, (note.get "id").strictEq id = false) →
        BooksContext.updateNote s id fields = s
        ∧ (BooksContext.updateNote s id fields).notes.length = s.notes.length) := by
  constructor
  · intro h
    have hs : BooksContext.updateBook s id fields = s := by
      unfold BooksContext.updateBook
      rw [map_ite_of_forall_false (fun book : JSObj => (book.get "id").strictEq id)
        (fun book => JSObj.spread book fields) s.books h]
    rw [hs]
    exact ⟨rfl, rfl⟩
  · intro h
    have hs : BooksContext.updateNote s id fields = s := by
      unfold BooksContext.updateNote
      rw [map_ite_of_forall_false (fun note : JSObj => (note.get "id").strictEq id)
        (fun note => JSObj.spread note fields) s.notes h]
    rw [hs]
    exact ⟨rfl, rfl⟩

/-- C10 (witness). An update with an id that `sampleStore` does not hold changes nothing. -/
theorem C10_update_unknown_id_witness :
    BooksContext.updateBook sampleStore (JSVal.str "missing") [("currentPage", JSVal.num 7)]
        = sampleStore
    ∧ BooksContext.updateNote sampleStore (JSVal.str "missing") [("page", JSVal.num 7)]
        = sampleStore := by
  constructor
  · exact ((C10_update_unknown_id sampleStore (JSVal.str "missing")
      [("currentPage", JSVal.num 7)]).1 (by
        simp [sampleStore, sampleBook, JSObj.get, JSVal.strictEq])).1
  · exact ((C10_update_unknown_id sampleStore (JSVal.str "missing")
      [("page", JSVal.num 7)]).2 (by
        simp [sampleStore, sampleNote, JSObj.get, JSVal.strictEq])).1

/-- Reading the head entry of an object. -/
theorem get_cons (k0 : String) (v0 : JSVal) (o : JSObj) (k : String) :
    JSObj.get ((k0, v0) :: o) k = if k0 = k then v0 else JSObj.get o k := by
  by_cases h : k0 = k
  · simp [JSObj.get, List.find?, h]
  · have hb : (k0 == k) = false := by simpa using h
    simp [JSObj.get, List.find?, h, hb]

/-- The test `has` on the head entry. -/
theorem has_cons (k0 : String) (v0 : JSVal) (o : JSObj) (k : String) :
    JSObj.has ((k0, v0) :: o) k = (decide (k0 = k) || JSObj.has o k) := by
  by_cases h : k0 = k
  · simp [JSObj.has, h]
  · have hb : (k0 == k) = false := by simpa using h
    simp [JSObj.has, h, hb]

/-- A key the object does not have reads as `undefined`. -/
theorem get_of_has_false (o : JSObj) (k : String) (h : JSObj.has o k = false) :
    JSObj.get o k = JSVal.undefined := by
  induction o with
  | nil => rfl
  | cons p o ih =>
    obtain ⟨k0, v0⟩ := p
    rw [has_cons] at h
    simp only [Bool.or_eq_false_iff, decide_eq_false_iff_not] at h
    rw [get_cons, if_neg h.1, ih h.2]

/-- Reading after the entries of a key were overwritten in place. -/
theorem get_map_replace (o : JSObj) (k : String) (v : JSVal) (k' : String) :
    JSObj.get (o.map (fun p => if p.1 == k then (k, v) else p)) k'
      = if k' = k ∧ JSObj.has o k = true then v else JSObj.get o k' := by
  induction o with
  | nil => simp [JSObj.get, JSObj.has]
  | cons p o ih =>
    obtain ⟨k0, v0⟩ := p
    rw [List.map_cons, has_cons]
    by_cases h0 : k0 = k
    · subst h0
      simp only [beq_self_eq_true, if_true, get_cons, decide_True, Bool.true_or, and_true]
      by_cases hk : k0 = k'
      · simp [hk]
      · have hk2 : ¬ k' = k0 := fun h => hk h.symm
        rw [if_neg hk, if_neg hk, ih, if_neg hk2]
        simp [hk2]
    · have hb : (k0 == k) = false := by simpa using h0
      simp only [hb, Bool.false_eq_true, if_false, get_cons, decide_eq_true_eq, h0,
        decide_False, Bool.false_or]
      by_cases hk : k0 = k'
      · have hk2 : ¬ k' = k := fun h => h0 (hk.trans h)
        simp [hk, hk2]
      · rw [if_neg hk, ih]
        simp [hk]

/-- Reading after an entry was put behind the others. -/
theorem get_append_single (o : JSObj) (k : String) (v : JSVal) (k' : String)
    (h : JSObj.has o k = false) :
    JSObj.get (o ++ [(k, v)]) k' = if k' = k then v else JSObj.get o k' := by
  induction o with
  | nil =>
    rw [List.nil_append, get_cons]
    by_cases hk : k = k'
    · simp [hk]
    · have hk2 : ¬ k' = k := fun h => hk h.symm
      simp [hk, hk2, JSObj.get]
  | cons p o ih =>
    obtain ⟨k0, v0⟩ := p
    rw [has_cons] at h
    simp only [Bool.or_eq_false_iff, decide_eq_false_iff_not] at h
    rw [List.cons_append, get_cons, get_cons, ih h.2]
    by_cases hk : k0 = k'
    · have hk2 : ¬ k' = k := fun h' => h.1 (hk.trans h')
      simp [hk, hk2]
    · simp [hk]

/-- Reading after a write: the written key has the new value, every other key its old one. -/
theorem get_set (o : JSObj) (k : String) (v : JSVal) (k' : String) :
    JSObj.get (JSObj.set o k v) k' = if k' = k then v else JSObj.get o k' := by
  unfold JSObj.set
  by_cases hh : JSObj.has o k = true
  · rw [if_pos hh, get_map_replace]
    by_cases hk : k' = k <;> simp [hk, hh]
  · have hf : JSObj.has o k = false := by simpa using hh
    rw [if_neg hh, get_append_single o k v k' hf]

/-- After a write the object has the written key and the keys it had. -/
theorem has_set (o : JSObj) (k : String) (v : JSVal) (k' : String) :
    JSObj.has (JSObj.set o k v) k' = (decide (k' = k) || JSObj.has o k') := by
  unfold JSObj.set
  by_cases hh : JSObj.has o k = true
  · rw [if_pos hh]
    have hmap : ∀ o : JSObj, JSObj.has (o.map (fun p => if p.1 == k then (k, v) else p)) k'
        = JSObj.has o k' := by
      intro o
      induction o with
      | nil => rfl
      | cons p o ih =>
        obtain ⟨k0, v0⟩ := p
        rw [List.map_cons]
        by_cases h0 : k0 = k
        · subst h0
          simp only [beq_self_eq_true, if_true, has_cons, ih]
        · have hb : (k0 == k) = false := by simpa using h0
          simp only [hb, Bool.false_eq_true, if_false, has_cons, ih]
    rw [hmap]
    by_cases hk : k' = k
    · subst hk
      simp [hh]
    · simp [hk]
  · rw [if_neg hh]
    have happ : ∀ o : JSObj, JSObj.has (o ++ [(k, v)]) k'
        = (JSObj.has o k' || decide (k = k')) := by
      intro o
      induction o with
      | nil =>
        rw [List.nil_append, has_cons]
        simp [JSObj.has]
      | cons p o ih =>
        obtain ⟨k0, v0⟩ := p
        rw [List.cons_append, has_cons, has_cons, ih, Bool.or_assoc]
    rw [happ, Bool.or_comm]
    by_cases hk : k' = k
    · subst hk
      simp
    · have hk2 : ¬ k = k' := fun h => hk h.symm
      simp [hk, hk2]

/-- Reading the spread `{ ...a, ...b }`: a key of `b` has the value it has in `b`, every other
key the value it has in `a`. -/
theorem get_spread (b : JSObj) :
    ∀ (a : JSObj) (k : String), JSObj.wellFormed b →
      JSObj.get (JSObj.spread a b) k = if JSObj.has b k = true then JSObj.get b k
        else JSObj.get a k := by
  induction b with
  | nil =>
    intro a k _
    simp [JSObj.spread, JSObj.has]
  | cons p b ih =>
    intro a k hwf
    obtain ⟨k0, v0⟩ := p
    have hwf' : JSObj.wellFormed b := by
      unfold JSObj.wellFormed at hwf ⊢
      simp only [List.map_cons, List.nodup_cons] at hwf
      exact hwf.2
    have hk0 : JSObj.has b k0 = false := by
      unfold JSObj.wellFormed at hwf
      simp only [List.map_cons, List.nodup_cons, List.mem_map, not_exists, not_and] at hwf
      unfold JSObj.has
      rw [List.any_eq_false]
      intro x hx
      have := hwf.1 x hx
      simpa using this
    have hstep : JSObj.spread a ((k0, v0) :: b) = JSObj.spread (JSObj.set a k0 v0) b := by
      simp [JSObj.spread]
    rw [hstep, ih (JSObj.set a k0 v0) k hwf', get_set, has_cons, get_cons]
    by_cases hk : k0 = k
    · subst hk
      simp [hk0]
    · have hk2 : ¬ k = k0 := fun h => hk h.symm
      simp [hk, hk2]

/-- The record at a position after a map that merges `fields` into the records that pass
a test. -/
theorem getElem?_map_merge (test : JSObj → Bool) (fields : JSObj) (l : List JSObj) (i : Nat)
    (r : JSObj) (h : l[i]? = some r) :
    (l.map (fun x => if test x then JSObj.spread x fields else x))[i]?
      = some (if test r then JSObj.spread r fields else r) := by
  rw [List.getElem?_map, h]
  rfl

/-- C11. `updateBook(id, fields)` and `updateNote(id, fields)` keep the length and the order of
the collection; at every position, a record with another id is unchanged, and a record with
the id is replaced by one in which every field named in `fields` has the new value and every
other field keeps its old value. -/
theorem C11_update_merges (s : Store) (id : JSVal) (fields : JSObj)
    (hwf : JSObj.wellFormed fields) :
    ((BooksContext.updateBook s id fields).books.length = s.books.length
      ∧ ∀ (i : Nat) (book : JSObj), s.books[i]? = some book →
          ∃ book' : JSObj, (BooksContext.updateBook s id fields).books[i]? = some book'
            ∧ ((book.get "id").strictEq id = false → book' = book)
            ∧ ((book.get "id").strictEq id = true →
                (∀ k, JSObj.has fields k = true → book'.get k = fields.get k)
                ∧ (∀ k, JSObj.has fields k = false → book'.get k = book.get k)))
    ∧ ((BooksContext.updateNote s id fields).notes.length = s.notes.length
      ∧ ∀ (i : Nat) (note : JSObj), s.notes[i]? = some note →
          ∃ note' : JSObj, (BooksContext.updateNote s id fields).notes[i]? = some note'
            ∧ ((note.get "id").strictEq id = false → note' = note)
            ∧ ((note.get "id").strictEq id = true →
                (∀ k, JSObj.has fields k = true → note'.get k = fields.get k)
                ∧ (∀ k, JSObj.has fields k = false → note'.get k = note.get k))) := by
  have key : ∀ (l : List JSObj) (i : Nat) (r : JSObj), l[i]? = some r →
      ∃ r' : JSObj,
        (l.map (fun x => if (x.get "id").strictEq id then JSObj.spread x fields else x))[i]?
          = some r'
        ∧ ((r.get "id").strictEq id = false → r' = r)
        ∧ ((r.get "id").strictEq id = true →
            (∀ k, JSObj.has fields k = true → r'.get k = fields.get k)
            ∧ (∀ k, JSObj.has fields k = false → r'.get k = r.get k)) := by
    intro l i r h
    refine ⟨_, getElem?_map_merge (fun x => (x.get "id").strictEq id) fields l i r h, ?_, ?_⟩
    · intro hid
      simp [hid]
    · intro hid
      simp only [hid, if_true]
      constructor
      · intro k hk
        rw [get_spread fields r k hwf, if_pos hk]
      · intro k hk
        rw [get_spread fields r k hwf, hk]
        simp
  refine ⟨⟨?_, ?_⟩, ⟨?_, ?_⟩⟩
  · simp [BooksContext.updateBook]
  · intro i book h
    exact key s.books i book h
  · simp [BooksContext.updateNote]
  · intro i note h
    exact key s.notes i note h

/-- C11 (witness). Writing page 7 into the book `b1` of `sampleStore` changes `currentPage` and
keeps the title. -/
theorem C11_update_merges_witness :
    ∃ book' : JSObj,
      (BooksContext.updateBook sampleStore (JSVal.str "b1")
          [("currentPage", JSVal.num (fin 7))]).books[0]? = some book'
      ∧ book'.get "currentPage" = JSVal.num (fin 7)
      ∧ book'.get "title" = JSVal.str "Dom Casmurro" := by
  have hwf : JSObj.wellFormed [("currentPage", JSVal.num (fin 7))] := by
    simp [JSObj.wellFormed]
  obtain ⟨book', h1, _, h3⟩ :=
    (C11_update_merges sampleStore (JSVal.str "b1") [("currentPage", JSVal.num (fin 7))]
      hwf).1.2 0 sampleBook (by simp [sampleStore])
  have hid : (sampleBook.get "id").strictEq (JSVal.str "b1") = true := by
    simp [sampleBook, JSObj.get, JSVal.strictEq]
  obtain ⟨ha, hb⟩ := h3 hid
  refine ⟨book', h1, ?_, ?_⟩
  · rw [ha "currentPage" (by simp [JSObj.has])]
    simp [JSObj.get]
  · rw [hb "title" (by simp [JSObj.has])]
    simp [sampleBook, JSObj.get]

/-- The reading of the clock in `sampleClock`, as text. -/
theorem sampleClock_text : (toString sampleClock.now : String) = "1700000000000" := by
  decide

/-- The identifier of the record `addBook` builds is the text of the clock reading. -/
theorem addBook_newBook_id (c : Clock) (book : JSObj) (cover year : JSVal) :
    JSObj.get ((((((book.set "id" (JSVal.str (toString c.now))).set "createdAt"
      (JSVal.str c.iso)).set "currentPage" (JSVal.num 0)).set "rating" (JSVal.num 0)).set
      "coverImage" cover).set "publishedYear" year) "id" = JSVal.str (toString c.now) := by
  simp [get_set]

/-- On a payload whose `publishedDate` is falsy or a string `addBook` does not throw: it
appends one record and returns its identifier. -/
theorem addBook_eq (c : Clock) (s : Store) (book : JSObj)
    (hdate : (book.get "publishedDate").truthy = false
      ∨ ∃ d, book.get "publishedDate" = JSVal.str d) :
    ∃ newBook : JSObj,
      BooksContext.addBook c s book
        = some ({ s with books := s.books ++ [newBook] }, JSVal.str (toString c.now))
      ∧ newBook.get "id" = JSVal.str (toString c.now)
      ∧ newBook.get "currentPage" = JSVal.num 0
      ∧ newBook.get "totalPages" = book.get "totalPages" := by
  have hyear : ∃ year : JSVal,
      (if (book.get "publishedDate").truthy = true then
        (match book.get "publishedDate" with
          | JSVal.str d => some (JSVal.str (d.take 4))
          | _ => none)
      else some (JSVal.str "")) = some year := by
    by_cases ht : (book.get "publishedDate").truthy = true
    · rcases hdate with hf | ⟨d, hd⟩
      · rw [hf] at ht
        exact absurd ht (by simp)
      · exact ⟨JSVal.str (d.take 4), by rw [if_pos ht, hd]⟩
    · exact ⟨JSVal.str "", by rw [if_neg ht]⟩
  obtain ⟨year, hy⟩ := hyear
  refine ⟨(((((book.set "id" (JSVal.str (toString c.now))).set "createdAt"
      (JSVal.str c.iso)).set "currentPage" (JSVal.num 0)).set "rating" (JSVal.num 0)).set
      "coverImage" (JSVal.orElse (book.get "coverUrl") (JSVal.str ""))).set "publishedYear" year,
    ?_, addBook_newBook_id c book _ _, ?_, ?_⟩
  · unfold BooksContext.addBook
    simp only [hy, addBook_newBook_id]
  · simp [get_set]
  · simp [get_set]

/-- C12 (the claim as stated fails). `addNote` hands back the record it appended, which is an
object and not the identifier that the record carries. -/
theorem C12_addNote_returns_record :
    (BooksContext.addNote sampleClock sampleStore sampleNoteInput).2
        = [("type", JSVal.str "citacao"), ("page", JSVal.num 50),
           ("content", JSVal.str "Bentinho"), ("bookId", JSVal.str "b1"),
           ("id", JSVal.str "1700000000000"),
           ("createdAt", JSVal.str "2023-11-14T22:13:20.000Z")]
    ∧ JSAny.record (BooksContext.addNote sampleClock sampleStore sampleNoteInput).2
        ≠ JSAny.prim ((BooksContext.addNote sampleClock sampleStore sampleNoteInput).2.get "id")
    ∧ JSAny.session (BooksContext.addReadingSession sampleClock sampleStore sampleSessionInput).2
        ≠ JSAny.prim
            (BooksContext.addReadingSession sampleClock sampleStore sampleSessionInput).2.id := by
  refine ⟨?_, ?_, ?_⟩
  · have hid : (toString 1700000000000 : String) = "1700000000000" := by decide
    simp [BooksContext.addNote, sampleNoteInput, JSObj.set, JSObj.has, sampleClock, hid]
  · intro h
    cases h
  · intro h
    cases h

/-- C12 (amended). Each add operation appends exactly one record at the end of its collection
and leaves the other collections as they are; the record carries the text of the clock reading
as `id`. `addBook` (on a payload whose `publishedDate` is absent, empty or a string) returns
that identifier; `addNote` and `addReadingSession` return the record itself. -/
theorem C12_add_appends (c : Clock) (s : Store) (book note : JSObj) (session : SessionInput)
    (hdate : (book.get "publishedDate").truthy = false
      ∨ ∃ d, book.get "publishedDate" = JSVal.str d) :
    (∃ newBook : JSObj,
        BooksContext.addBook c s book
          = some ({ s with books := s.books ++ [newBook] }, newBook.get "id")
        ∧ newBook.get "id" = JSVal.str (toString c.now))
    ∧ (∃ newNote : JSObj,
        BooksContext.addNote c s note = ({ s with notes := s.notes ++ [newNote] }, newNote)
        ∧ newNote.get "id" = JSVal.str (toString c.now))
    ∧ (∃ newSession : Session,
        BooksContext.addReadingSession c s session
          = ({ s with readingSessions := s.readingSessions ++ [newSession] }, newSession)
        ∧ newSession.id = JSVal.str (toString c.now)) := by
  refine ⟨?_, ?_, ?_⟩
  · obtain ⟨newBook, h1, h2, _⟩ := addBook_eq c s book hdate
    exact ⟨newBook, by rw [h1, h2], h2⟩
  · refine ⟨_, rfl, ?_⟩
    simp [get_set]
  · exact ⟨_, rfl, rfl⟩

/-- C12 (witness). Adding `sampleNoteInput` to `sampleStore` puts one note behind the note the
store holds. -/
theorem C12_add_appends_witness :
    ∃ newNote : JSObj,
      (BooksContext.addNote sampleClock sampleStore sampleNoteInput).1.notes
        = [sampleNote, newNote]
      ∧ newNote.get "id" = JSVal.str "1700000000000" := by
  obtain ⟨newNote, h1, h2⟩ := (C12_add_appends sampleClock sampleStore sampleBook
    sampleNoteInput sampleSessionInput (Or.inl (by simp [sampleBook, JSObj.get, JSVal.truthy]))).2.1
  refine ⟨newNote, ?_, ?_⟩
  · rw [h1]
    simp [sampleStore]
  · rw [h2, sampleClock_text]

/-- A list with pairwise unrelated elements stays so when an element unrelated to all of
them is put behind. -/
theorem pairwise_append_single {α : Type} (R : α → α → Prop) (l : List α) (x : α)
    (h : l.Pairwise R) (hx : ∀ a ∈ l, R a x) : (l ++ [x]).Pairwise R := by
  rw [List.pairwise_append]
  refine ⟨h, List.pairwise_singleton R x, ?_⟩
  intro a ha b hb
  rw [List.mem_singleton] at hb
  rw [hb]
  exact hx a ha

/-- C13 (the claim as stated fails). The sessions of `twoSessionStore` carry pairwise distinct
identifiers, the first being the text of the clock reading 1700000000000; a session added at
that clock reading gets the same identifier, and the identifiers are no longer distinct. -/
theorem C13_same_clock_reading_repeats_id :
    twoSessionStore.readingSessions.Pairwise (fun a b => a.id.strictEq b.id = false)
    ∧ (BooksContext.addReadingSession sampleClock twoSessionStore sampleSessionInput).2.id
        = JSVal.str "1700000000000"
    ∧ ¬ (BooksContext.addReadingSession sampleClock twoSessionStore
          sampleSessionInput).1.readingSessions.Pairwise
            (fun a b => a.id.strictEq b.id = false) := by
  have hid : (toString 1700000000000 : String) = "1700000000000" := by decide
  refine ⟨?_, ?_, ?_⟩
  · simp [twoSessionStore, JSVal.strictEq]
  · simp [BooksContext.addReadingSession, sampleClock, hid]
  · simp [BooksContext.addReadingSession, twoSessionStore, sampleClock, hid, JSVal.strictEq,
      List.pairwise_append]

/-- C13 (amended). The identifier an add operation assigns is the text of the clock reading.
When the records of the collection have pairwise distinct ids and none of them carries that
text as id, the new identifier differs from the id of every record already in the collection
and the ids are pairwise distinct after the add. -/
theorem C13_fresh_id (c : Clock) (s : Store) (book note : JSObj) (session : SessionInput)
    (hdate : (book.get "publishedDate").truthy = false
      ∨ ∃ d, book.get "publishedDate" = JSVal.str d) :
    (distinctIds s.books →
      (∀ r ∈ s.books, (r.get "id").strictEq (JSVal.str (toString c.now)) = false) →
      ∃ s' : Store, ∃ id : JSVal, BooksContext.addBook c s book = some (s', id)
        ∧ id = JSVal.str (toString c.now)
        ∧ (∀ r ∈ s.books, (r.get "id").strictEq id = false)
        ∧ distinctIds s'.books)
    ∧ (distinctIds s.notes →
      (∀ r ∈ s.notes, (r.get "id").strictEq (JSVal.str (toString c.now)) = false) →
      ((BooksContext.addNote c s note).2.get "id" = JSVal.str (toString c.now)
        ∧ (∀ r ∈ s.notes,
            (r.get "id").strictEq ((BooksContext.addNote c s note).2.get "id") = false)
        ∧ distinctIds (BooksContext.addNote c s note).1.notes))
    ∧ (s.readingSessions.Pairwise (fun a b => a.id.strictEq b.id = false) →
      (∀ r ∈ s.readingSessions, r.id.strictEq (JSVal.str (toString c.now)) = false) →
      ((BooksContext.addReadingSession c s session).2.id = JSVal.str (toString c.now)
        ∧ (∀ r ∈ s.readingSessions,
            r.id.strictEq (BooksContext.addReadingSession c s session).2.id = false)
        ∧ (BooksContext.addReadingSession c s session).1.readingSessions.Pairwise
            (fun a b => a.id.strictEq b.id = false))) := by
  refine ⟨?_, ?_, ?_⟩
  · intro hd hf
    obtain ⟨newBook, h1, h2, _⟩ := addBook_eq c s book hdate
    refine ⟨_, _, h1, rfl, hf, ?_⟩
    apply pairwise_append_single _ _ _ hd
    intro a ha
    rw [h2]
    exact hf a ha
  · intro hd hf
    have hid : (BooksContext.addNote c s note).2.get "id" = JSVal.str (toString c.now) := by
      simp [BooksContext.addNote, get_set]
    refine ⟨hid, ?_, ?_⟩
    · rw [hid]
      exact hf
    · apply pairwise_append_single _ _ _ hd
      intro a ha
      have := hf a ha
      simpa [get_set] using this
  · intro hd hf
    refine ⟨rfl, hf, ?_⟩
    exact pairwise_append_single _ _ _ hd hf

/-- C13 (witness). A session added to `twoSessionStore` one millisecond after the last one
gets a new identifier. -/
theorem C13_fresh_id_witness :
    (BooksContext.addReadingSession { now := 1700000200001, iso := "2023-11-14T22:16:40.001Z" }
        twoSessionStore sampleSessionInput).1.readingSessions.Pairwise
          (fun a b => a.id.strictEq b.id = false) := by
  have hid : (toString 1700000200001 : String) = "1700000200001" := by decide
  exact ((C13_fresh_id { now := 1700000200001, iso := "2023-11-14T22:16:40.001Z" }
    twoSessionStore sampleBook sampleNoteInput sampleSessionInput
    (Or.inl (by simp [sampleBook, JSObj.get, JSVal.truthy]))).2.2
      (by simp [twoSessionStore, JSVal.strictEq])
      (by simp [twoSessionStore, JSVal.strictEq, hid])).2.2

/-- Inserting into a sorted list keeps it sorted, for a relation that is total and transitive
on the elements that satisfy `P`. -/
theorem pairwise_orderedInsert_on {α : Type} (r : α → α → Prop) [DecidableRel r]
    (P : α → Prop) (htotal : ∀ a b, P a → P b → r a b ∨ r b a)
    (htrans : ∀ a b c, P a → P b → P c → r a b → r b c → r a c) (a : α) (ha : P a) :
    ∀ l : List α, (∀ x ∈ l, P x) → l.Pairwise r → (l.orderedInsert r a).Pairwise r := by
  intro l
  induction l with
  | nil =>
    intro _ _
    simp
  | cons b l ih =>
    intro hP hs
    have hb : P b := hP b (List.mem_cons_self b l)
    have hl : ∀ x ∈ l, P x := fun x hx => hP x (List.mem_cons_of_mem b hx)
    rw [List.pairwise_cons] at hs
    by_cases hab : r a b
    · rw [List.orderedInsert, if_pos hab, List.pairwise_cons]
      refine ⟨?_, List.pairwise_cons.mpr hs⟩
      intro x hx
      rcases List.mem_cons.mp hx with hxb | hxl
      · rw [hxb]
        exact hab
      · exact htrans a b x ha hb (hl x hxl) hab (hs.1 x hxl)
    · rw [List.orderedInsert, if_neg hab, List.pairwise_cons]
      refine ⟨?_, ih hl hs.2⟩
      intro x hx
      rcases (List.mem_orderedInsert r).mp hx with hxa | hxl
      · rw [hxa]
        exact (htotal a b ha hb).resolve_left hab
      · exact hs.1 x hxl

/-- Insertion sort yields a sorted list, for a relation that is total and transitive on the
elements of the list. -/
theorem pairwise_insertionSort_on {α : Type} (r : α → α → Prop) [DecidableRel r]
    (P : α → Prop) (htotal : ∀ a b, P a → P b → r a b ∨ r b a)
    (htrans : ∀ a b c, P a → P b → P c → r a b → r b c → r a c) :
    ∀ l : List α, (∀ x ∈ l, P x) → (l.insertionSort r).Pairwise r := by
  intro l
  induction l with
  | nil =>
    intro _
    simp
  | cons a l ih =>
    intro hP
    have ha : P a := hP a (List.mem_cons_self a l)
    have hl : ∀ x ∈ l, P x := fun x hx => hP x (List.mem_cons_of_mem a hx)
    rw [List.insertionSort]
    apply pairwise_orderedInsert_on r P htotal htrans a ha
    · intro x hx
      exact hl x ((List.mem_insertionSort r).mp hx)
    · exact ih hl

/-- On two finite numbers the comparator `a - b` does not ask for a swap exactly when
`a <= b`. -/
theorem compare_sub_fin (p q : ℚ) : ((fin p - fin q).gt 0 = false) ↔ p ≤ q := by
  simp [JSNum.gt]

/-- C14. `getNotesByBook(bookId)` returns a permutation of exactly the notes whose `bookId` is
the argument, and when the pages of these notes are numbers the result is sorted ascending by
page. -/
theorem C14_getNotesByBook (s : Store) (bookId : JSVal)
    (hpage : ∀ n ∈ s.notes, (n.get "bookId").strictEq bookId = true →
      ∃ q : ℚ, (n.get "page").toNumber = fin q) :
    (BooksContext.getNotesByBook s bookId).Perm
        (s.notes.filter (fun note => (note.get "bookId").strictEq bookId))
    ∧ (BooksContext.getNotesByBook s bookId).Pairwise
        (fun a b => JSNum.le (a.get "page").toNumber (b.get "page").toNumber = true) := by
  constructor
  · exact List.perm_insertionSort _ _
  · have hP : ∀ x ∈ s.notes.filter (fun note => (note.get "bookId").strictEq bookId),
        ∃ q : ℚ, (x.get "page").toNumber = fin q := by
      intro x hx
      rw [List.mem_filter] at hx
      exact hpage x hx.1 hx.2
    have hsorted := pairwise_insertionSort_on
      (fun a b : JSObj => ((a.get "page").toNumber - (b.get "page").toNumber).gt 0 = false)
      (fun x => ∃ q : ℚ, (x.get "page").toNumber = fin q)
      (by
        rintro a b ⟨p, hp⟩ ⟨q, hq⟩
        simp only [hp, hq, compare_sub_fin]
        exact le_total p q)
      (by
        rintro a b c ⟨p, hp⟩ ⟨q, hq⟩ ⟨t, ht⟩
        simp only [hp, hq, ht, compare_sub_fin]
        exact le_trans)
      _ hP
    unfold BooksContext.getNotesByBook jsSort
    refine List.Pairwise.imp_of_mem ?_ hsorted
    intro a b ha hb hab
    obtain ⟨p, hp⟩ := hP a ((List.mem_insertionSort _).mp ha)
    obtain ⟨q, hq⟩ := hP b ((List.mem_insertionSort _).mp hb)
    simp only [hp, hq, compare_sub_fin] at hab
    simpa [hp, hq] using hab

/-- The content of `fiftyTenStore`. -/
theorem fiftyTenStore_notes :
    fiftyTenStore.notes
      = [[("type", JSVal.str "citacao"), ("page", JSVal.num (fin 50)),
          ("content", JSVal.str "Bentinho"), ("bookId", JSVal.str "b1"),
          ("id", JSVal.str "1700000000000"),
          ("createdAt", JSVal.str "2023-11-14T22:13:20.000Z")],
         [("type", JSVal.str "anotacao"), ("page", JSVal.num (fin 10)),
          ("content", JSVal.str "Escobar"), ("bookId", JSVal.str "b1"),
          ("id", JSVal.str "1700000300000"),
          ("createdAt", JSVal.str "2023-11-14T22:18:20.000Z")]] := by
  have h1 : (toString 1700000000000 : String) = "1700000000000" := by decide
  have h2 : (toString 1700000300000 : String) = "1700000300000" := by decide
  simp [fiftyTenStore, BooksContext.addNote, sampleNoteInput, sampleClock, JSObj.set,
    JSObj.has, h1, h2]

/-- C14 (witness). Notes added on pages 50 and then 10 come back in the order 10, 50. -/
theorem C14_getNotesByBook_witness :
    (BooksContext.getNotesByBook fiftyTenStore (JSVal.str "b1")).map (fun n => n.get "page")
        = [JSVal.num (fin 10), JSVal.num (fin 50)]
    ∧ (BooksContext.getNotesByBook fiftyTenStore (JSVal.str "b1")).Pairwise
        (fun a b => JSNum.le (a.get "page").toNumber (b.get "page").toNumber = true) := by
  refine ⟨?_, (C14_getNotesByBook fiftyTenStore (JSVal.str "b1") ?_).2⟩
  · rw [BooksContext.getNotesByBook, fiftyTenStore_notes]
    simp [jsSort, JSObj.get, JSVal.strictEq, JSVal.toNumber, JSNum.gt]
    norm_num
    simp [List.find?]
  · rw [fiftyTenStore_notes]
    intro n hn _
    simp only [List.mem_cons, List.mem_singleton, List.not_mem_nil, or_false] at hn
    rcases hn with h | h
    · exact ⟨50, by simp [h, JSObj.get, JSVal.toNumber]⟩
    · exact ⟨10, by simp [h, JSObj.get, JSVal.toNumber]⟩

/-- The `isbn` of the object built by `addBookFromGoogle` is the extracted one. -/
theorem googleNewBook_isbn (dataId : JSVal) (vi : VolumeInfo) :
    (BooksContext.googleNewBook dataId vi).get "isbn" = extractIsbn vi := by
  simp [BooksContext.googleNewBook, get_cons]

/-- The `isbn` of the object built by the dashboard is the extracted one. -/
theorem dashboardNewBook_isbn (book : Volume) (vi : VolumeInfo) :
    (Dashboard.newBook book vi).get "isbn" = extractIsbn vi := by
  simp [Dashboard.newBook, get_cons]

/-- The `isbn` of the object built by the search page is the extracted one. -/
theorem searchNewBook_isbn (book : Volume) (vi : VolumeInfo) :
    (SearchBooks.newBook book vi).get "isbn" = extractIsbn vi := by
  simp [SearchBooks.newBook, get_cons]

/-- The array method `find` returns the first element that passes the test. -/
theorem find?_first {α : Type} (p : α → Bool) (pre : List α) (e : α) (post : List α)
    (hpre : ∀ x ∈ pre, p x = false) (he : p e = true) :
    (pre ++ e :: post).find? p = some e := by
  induction pre with
  | nil => simp [List.find?, he]
  | cons a pre ih =>
    have ha : p a = false := hpre a (List.mem_cons_self a pre)
    rw [List.cons_append, List.find?, ha]
    exact ih (fun x hx => hpre x (List.mem_cons_of_mem a hx))

/-- C16 (the claim as stated fails). For the record that lists its ISBN-10 before its ISBN-13
the three copies of the mapping choose the ISBN-10. -/
theorem C16_isbn10_listed_first_is_chosen :
    BooksContext.googlePayload (some sampleVolume) ≠ none
    ∧ (BooksContext.googlePayload (some sampleVolume)).map (fun nb => nb.get "isbn")
        = some (JSVal.str "8535902775")
    ∧ (Dashboard.payload sampleVolume).map (fun nb => nb.get "isbn")
        = some (JSVal.str "8535902775")
    ∧ (SearchBooks.payload sampleVolume).map (fun nb => nb.get "isbn")
        = some (JSVal.str "8535902775") := by
  have h : ∀ vi, sampleVolume.volumeInfo = some vi → extractIsbn vi = JSVal.str "8535902775" := by
    intro vi hvi
    simp only [sampleVolume, Option.some.injEq] at hvi
    subst hvi
    simp [extractIsbn, List.find?, JSVal.strictEq]
  refine ⟨?_, ?_, ?_, ?_⟩
  · simp [BooksContext.googlePayload, sampleVolume]
  · simp only [BooksContext.googlePayload, sampleVolume, Option.map_some', googleNewBook_isbn]
    rw [h _ rfl]
  · simp only [Dashboard.payload, sampleVolume, Option.map_some', dashboardNewBook_isbn]
    rw [h _ rfl]
  · simp only [SearchBooks.payload, sampleVolume, Option.map_some', searchNewBook_isbn]
    rw [h _ rfl]

/-- C16 (amended). In the three copies of the mapping the `isbn` is the identifier of the first
entry of `industryIdentifiers`, in the order of the list, whose type is ISBN-13 or ISBN-10
(whichever of the two comes first); it is the empty string when the list is absent or has no
entry of either type. -/
theorem C16_first_isbn_entry (book : Volume) (vi : VolumeInfo) :
    (BooksContext.googleNewBook book.id vi).get "isbn" = extractIsbn vi
    ∧ (Dashboard.newBook book vi).get "isbn" = extractIsbn vi
    ∧ (SearchBooks.newBook book vi).get "isbn" = extractIsbn vi
    ∧ (vi.industryIdentifiers = none → extractIsbn vi = JSVal.str "")
    ∧ (∀ (pre : List IndustryIdentifier) (e : IndustryIdentifier)
        (post : List IndustryIdentifier), vi.industryIdentifiers = some (pre ++ e :: post) →
        (∀ x ∈ pre, x.type.strictEq (JSVal.str "ISBN_13") = false
          ∧ x.type.strictEq (JSVal.str "ISBN_10") = false) →
        (e.type.strictEq (JSVal.str "ISBN_13") = true
          ∨ e.type.strictEq (JSVal.str "ISBN_10") = true) →
        extractIsbn vi = e.identifier)
    ∧ (∀ ids : List IndustryIdentifier, vi.industryIdentifiers = some ids →
        (∀ x ∈ ids, x.type.strictEq (JSVal.str "ISBN_13") = false
          ∧ x.type.strictEq (JSVal.str "ISBN_10") = false) →
        extractIsbn vi = JSVal.str "") := by
  refine ⟨googleNewBook_isbn _ _, dashboardNewBook_isbn _ _, searchNewBook_isbn _ _, ?_, ?_, ?_⟩
  · intro h
    simp [extractIsbn, h]
  · intro pre e post h hpre he
    have hfind : (pre ++ e :: post).find? (fun id => id.type.strictEq (JSVal.str "ISBN_13")
        || id.type.strictEq (JSVal.str "ISBN_10")) = some e := by
      apply find?_first
      · intro x hx
        simp [(hpre x hx).1, (hpre x hx).2]
      · rcases he with h13 | h10
        · simp [h13]
        · simp [h10]
    simp only [extractIsbn, h, hfind]
  · intro ids h hall
    have hfind : ids.find? (fun id => id.type.strictEq (JSVal.str "ISBN_13")
        || id.type.strictEq (JSVal.str "ISBN_10")) = none := by
      rw [List.find?_eq_none]
      intro x hx
      simp [(hall x hx).1, (hall x hx).2]
    simp only [extractIsbn, h, hfind]

/-- C16 (witness). A list with an entry of another type, then an ISBN-13, then an ISBN-10: the
ISBN-13 is chosen. -/
theorem C16_first_isbn_entry_witness :
    extractIsbn
        { title := JSVal.str "Dom Casmurro", authors := none, pageCount := JSVal.num (fin 256),
          imageLinks := none, description := JSVal.undefined,
          industryIdentifiers := some
            ([{ type := JSVal.str "OTHER", identifier := JSVal.str "UOM:39015" }]
              ++ { type := JSVal.str "ISBN_13", identifier := JSVal.str "9788535902778" }
              :: [{ type := JSVal.str "ISBN_10", identifier := JSVal.str "8535902775" }]),
          publisher := JSVal.undefined, publishedDate := JSVal.str "1899",
          language := JSVal.str "pt", categories := none }
      = JSVal.str "9788535902778" :=
  (C16_first_isbn_entry sampleVolume _).2.2.2.2.1 _ _ _ rfl
    (by simp [JSVal.strictEq]) (by simp [JSVal.strictEq])

/-- The expression `v || ''` is the empty string or a string when `v` is falsy or a
string. -/
theorem orElse_empty_string (v : JSVal)
    (h : v.truthy = false ∨ ∃ d, v = JSVal.str d) :
    (JSVal.orElse v (JSVal.str "")).truthy = false
      ∨ ∃ d, JSVal.orElse v (JSVal.str "") = JSVal.str d := by
  by_cases ht : v.truthy = true
  · rcases h with hf | ⟨d, hd⟩
    · rw [hf] at ht
      exact absurd ht (by simp)
    · right
      exact ⟨d, by rw [JSVal.orElse, if_pos ht, hd]⟩
  · right
    exact ⟨"", by simp [JSVal.orElse, ht]⟩

/-- On a payload whose `publishedDate` is falsy or a string, `addBook` appends one record that
carries every field of the payload, apart from the six fields `addBook` sets itself. -/
theorem addBook_keeps_fields (c : Clock) (s : Store) (book : JSObj)
    (hdate : (book.get "publishedDate").truthy = false
      ∨ ∃ d, book.get "publishedDate" = JSVal.str d) :
    ∃ newBook : JSObj,
      BooksContext.addBook c s book
        = some ({ s with books := s.books ++ [newBook] }, JSVal.str (toString c.now))
      ∧ ∀ k : String, k ≠ "id" → k ≠ "createdAt" → k ≠ "currentPage" → k ≠ "rating" →
          k ≠ "coverImage" → k ≠ "publishedYear" → newBook.get k = book.get k := by
  have hyear : ∃ year : JSVal,
      (if (book.get "publishedDate").truthy = true then
        (match book.get "publishedDate" with
          | JSVal.str d => some (JSVal.str (d.take 4))
          | _ => none)
      else some (JSVal.str "")) = some year := by
    by_cases ht : (book.get "publishedDate").truthy = true
    · rcases hdate with hf | ⟨d, hd⟩
      · rw [hf] at ht
        exact absurd ht (by simp)
      · exact ⟨JSVal.str (d.take 4), by rw [if_pos ht, hd]⟩
    · exact ⟨JSVal.str "", by rw [if_neg ht]⟩
  obtain ⟨year, hy⟩ := hyear
  refine ⟨(((((book.set "id" (JSVal.str (toString c.now))).set "createdAt"
      (JSVal.str c.iso)).set "currentPage" (JSVal.num 0)).set "rating" (JSVal.num 0)).set
      "coverImage" (JSVal.orElse (book.get "coverUrl") (JSVal.str ""))).set "publishedYear" year,
    ?_, ?_⟩
  · unfold BooksContext.addBook
    simp only [hy, addBook_newBook_id]
  · intro k h1 h2 h3 h4 h5 h6
    simp [get_set, h1, h2, h3, h4, h5, h6]

/-- C17. The mapping fails exactly when the record has no `volumeInfo`. Without one,
`addBookFromGoogle` throws and `handleAddBook` of the dashboard ends in its `catch` block,
with the error toast and the store as it was. With one, the mapping yields `totalPages` 0 for
an absent page count, the empty string as `coverUrl` without a thumbnail, as `isbn` without
industry identifiers, and for an absent publisher, date, language or categories; and, the date
being absent or a string, both functions add to the store one book that carries the fields of
the mapping, `addBookFromGoogle` returning its id and `handleAddBook` showing the toast of
success. -/
theorem C17_mapping_fails_only_without_envelope (c : Clock) (s : Store) (data : Volume) :
    (BooksContext.googlePayload (some data) = none ↔ data.volumeInfo = none)
    ∧ (Dashboard.payload data = none ↔ data.volumeInfo = none)
    ∧ BooksContext.addBookFromGoogle c s none = none
    ∧ (data.volumeInfo = none →
        BooksContext.addBookFromGoogle c s (some data) = none
        ∧ Dashboard.handleAddBook c s data = (s, "Erro"))
    ∧ ((∀ vi : VolumeInfo, data.volumeInfo = some vi →
          vi.publishedDate.truthy = false ∨ ∃ d, vi.publishedDate = JSVal.str d) →
        (BooksContext.addBookFromGoogle c s (some data) = none ↔ data.volumeInfo = none)
        ∧ ((Dashboard.handleAddBook c s data).2 = "Erro" ↔ data.volumeInfo = none)
        ∧ ((Dashboard.handleAddBook c s data).1 = s ↔ data.volumeInfo = none))
    ∧ ∀ vi : VolumeInfo, data.volumeInfo = some vi →
        ∃ nb : JSObj, BooksContext.googlePayload (some data) = some nb
          ∧ Dashboard.payload data = some nb
          ∧ (vi.pageCount = JSVal.undefined → nb.get "totalPages" = JSVal.num 0)
          ∧ (thumbnailOf vi = JSVal.undefined → nb.get "coverUrl" = JSVal.str "")
          ∧ (vi.industryIdentifiers = none ∨ vi.industryIdentifiers = some [] →
              nb.get "isbn" = JSVal.str "")
          ∧ (vi.publisher = JSVal.undefined → nb.get "publisher" = JSVal.str "")
          ∧ (vi.publishedDate = JSVal.undefined → nb.get "publishedDate" = JSVal.str "")
          ∧ (vi.language = JSVal.undefined → nb.get "language" = JSVal.str "")
          ∧ (vi.categories = none → nb.get "categories" = JSVal.str "")
          ∧ (vi.publishedDate.truthy = false ∨ (∃ d, vi.publishedDate = JSVal.str d) →
              ∃ newBook : JSObj,
                BooksContext.addBookFromGoogle c s (some data)
                  = some ({ s with books := s.books ++ [newBook] },
                      JSVal.str (toString c.now))
                ∧ Dashboard.handleAddBook c s data
                  = ({ s with books := s.books ++ [newBook] }, "Livro adicionado")
                ∧ ∀ k : String, k ≠ "id" → k ≠ "createdAt" → k ≠ "currentPage" →
                    k ≠ "rating" → k ≠ "coverImage" → k ≠ "publishedYear" →
                    newBook.get k = nb.get k) := by
  have hadded : ∀ vi : VolumeInfo, data.volumeInfo = some vi →
      (vi.publishedDate.truthy = false ∨ (∃ d, vi.publishedDate = JSVal.str d)) →
      ∃ newBook : JSObj,
        BooksContext.addBookFromGoogle c s (some data)
          = some ({ s with books := s.books ++ [newBook] }, JSVal.str (toString c.now))
        ∧ Dashboard.handleAddBook c s data
          = ({ s with books := s.books ++ [newBook] }, "Livro adicionado")
        ∧ ∀ k : String, k ≠ "id" → k ≠ "createdAt" → k ≠ "currentPage" →
            k ≠ "rating" → k ≠ "coverImage" → k ≠ "publishedYear" →
            newBook.get k = (BooksContext.googleNewBook data.id vi).get k := by
    intro vi hvi h
    have hdate : ((BooksContext.googleNewBook data.id vi).get "publishedDate").truthy = false
        ∨ ∃ d, (BooksContext.googleNewBook data.id vi).get "publishedDate" = JSVal.str d := by
      have hg : (BooksContext.googleNewBook data.id vi).get "publishedDate"
          = JSVal.orElse vi.publishedDate (JSVal.str "") := by
        simp [BooksContext.googleNewBook, get_cons]
      rw [hg]
      exact orElse_empty_string _ h
    obtain ⟨newBook, h1, h2⟩ :=
      addBook_keeps_fields c s (BooksContext.googleNewBook data.id vi) hdate
    have hp : Dashboard.payload data = some (BooksContext.googleNewBook data.id vi) := by
      simp [Dashboard.payload, hvi, Dashboard.newBook, BooksContext.googleNewBook]
    refine ⟨newBook, ?_, ?_, h2⟩
    · simp [BooksContext.addBookFromGoogle, BooksContext.googlePayload, hvi, h1]
    · simp [Dashboard.handleAddBook, hp, h1]
  have habsent : data.volumeInfo = none →
      BooksContext.addBookFromGoogle c s (some data) = none
      ∧ Dashboard.handleAddBook c s data = (s, "Erro") := by
    intro h
    constructor
    · simp [BooksContext.addBookFromGoogle, BooksContext.googlePayload, h]
    · simp [Dashboard.handleAddBook, Dashboard.payload, h]
  refine ⟨?_, ?_, rfl, habsent, ?_, ?_⟩
  · cases h : data.volumeInfo <;> simp [BooksContext.googlePayload, h]
  · cases h : data.volumeInfo <;> simp [Dashboard.payload, h]
  · intro htyped
    cases hvi : data.volumeInfo with
    | none =>
      obtain ⟨h1, h2⟩ := habsent hvi
      simp [h1, h2]
    | some vi =>
      obtain ⟨newBook, h1, h2, _⟩ := hadded vi hvi (htyped vi hvi)
      rw [h1, h2]
      refine ⟨by simp, by simp, ?_⟩
      constructor
      · intro h
        exfalso
        have hlen := congrArg (fun t : Store => t.books.length) h
        simp at hlen
      · intro h
        exact absurd h (by simp)
  · intro vi hvi
    refine ⟨BooksContext.googleNewBook data.id vi, ?_, ?_, ?_, ?_, ?_, ?_, ?_, ?_, ?_, ?_⟩
    · simp [BooksContext.googlePayload, hvi]
    · simp [Dashboard.payload, hvi, Dashboard.newBook, BooksContext.googleNewBook]
    · intro h
      simp [BooksContext.googleNewBook, get_cons, h, JSVal.orElse, JSVal.truthy]
    · intro h
      simp [BooksContext.googleNewBook, get_cons, h, JSVal.orElse, JSVal.truthy]
    · intro h
      rw [googleNewBook_isbn]
      rcases h with h | h <;> simp [extractIsbn, h]
    · intro h
      simp [BooksContext.googleNewBook, get_cons, h, JSVal.orElse, JSVal.truthy]
    · intro h
      simp [BooksContext.googleNewBook, get_cons, h, JSVal.orElse, JSVal.truthy]
    · intro h
      simp [BooksContext.googleNewBook, get_cons, h, JSVal.orElse, JSVal.truthy]
    · intro h
      simp [BooksContext.googleNewBook, get_cons, h, joinOr]
    · exact hadded vi hvi

/-- C17 (witness). The record `sampleVolume` has no page count, cover, publisher, date,
language or categories: the mapping succeeds with 0 pages and empty strings, and the dashboard
adds to the store a book with these fields; the same record without its `volumeInfo` leaves
the store as it was, with the error toast. -/
theorem C17_mapping_fails_only_without_envelope_witness :
    (∃ nb newBook : JSObj, Dashboard.payload sampleVolume = some nb
      ∧ nb.get "totalPages" = JSVal.num 0
      ∧ nb.get "coverUrl" = JSVal.str ""
      ∧ nb.get "publisher" = JSVal.str ""
      ∧ nb.get "categories" = JSVal.str ""
      ∧ Dashboard.handleAddBook sampleClock sampleStore sampleVolume
          = ({ sampleStore with books := sampleStore.books ++ [newBook] }, "Livro adicionado")
      ∧ newBook.get "totalPages" = JSVal.num 0
      ∧ newBook.get "title" = JSVal.str "Dom Casmurro")
    ∧ Dashboard.handleAddBook sampleClock sampleStore
        { id := JSVal.str "zyTCAlFPjgYC", volumeInfo := none } = (sampleStore, "Erro")
    ∧ BooksContext.addBookFromGoogle sampleClock sampleStore
        (some { id := JSVal.str "zyTCAlFPjgYC", volumeInfo := none }) = none := by
  obtain ⟨nb, _, h2, h3, h4, _, h6, _, _, h9, h10⟩ :=
    (C17_mapping_fails_only_without_envelope sampleClock sampleStore sampleVolume).2.2.2.2.2
      { title := JSVal.str "Dom Casmurro"
        authors := some ["Machado de Assis"]
        pageCount := JSVal.undefined
        imageLinks := none
        description := JSVal.undefined
        industryIdentifiers := some
          [{ type := JSVal.str "ISBN_10", identifier := JSVal.str "8535902775" },
           { type := JSVal.str "ISBN_13", identifier := JSVal.str "9788535902778" }]
        publisher := JSVal.undefined
        publishedDate := JSVal.undefined
        language := JSVal.undefined
        categories := none } rfl
  obtain ⟨newBook, _, hb, hk⟩ := h10 (Or.inl rfl)
  have habsent := (C17_mapping_fails_only_without_envelope sampleClock sampleStore
    { id := JSVal.str "zyTCAlFPjgYC", volumeInfo := none }).2.2.2.1 rfl
  refine ⟨⟨nb, newBook, h2, h3 rfl, h4 rfl, h6 rfl, h9 rfl, hb, ?_, ?_⟩, habsent.2, habsent.1⟩
  · rw [hk "totalPages" (by decide) (by decide) (by decide) (by decide) (by decide)
      (by decide)]
    exact h3 rfl
  · rw [hk "title" (by decide) (by decide) (by decide) (by decide) (by decide) (by decide)]
    have hp : Dashboard.payload sampleVolume = some nb := h2
    simp only [Dashboard.payload, sampleVolume, Option.some.injEq] at hp
    rw [← hp]
    simp [Dashboard.newBook, get_cons]

/-- C18 (the claim as stated fails). With the text `null` stored under the key, which is valid
JSON and no list, `loadFromStorage` returns the decoded value and not the default list. -/
theorem C18_valid_json_that_is_no_list :
    BooksContext.loadFromStorage (storageWithBooks "null") sampleParse "books"
        (BooksContext.Decoded.array [])
      = BooksContext.Decoded.other
    ∧ BooksContext.loadFromStorage (storageWithBooks "null") sampleParse "books"
        (BooksContext.Decoded.array [])
      ≠ BooksContext.Decoded.array [] := by
  have h : BooksContext.loadFromStorage (storageWithBooks "null") sampleParse "books"
      (BooksContext.Decoded.array []) = BooksContext.Decoded.other := by
    simp [BooksContext.loadFromStorage, storageWithBooks, sampleParse]
  refine ⟨h, ?_⟩
  rw [h]
  intro h'
  cases h'

/-- C18 (amended). `loadFromStorage` always returns a value and never propagates an error: the
default when reading the storage throws, when nothing or the empty text is stored under the
key, and when the stored text is not valid JSON; otherwise the value the stored text decodes
to, which is a list whenever the text is the JSON of a list. -/
theorem C18_loadFromStorage {α : Type} (getItem : String → Option (Option String))
    (parse : String → Option (BooksContext.Decoded α)) (key : String)
    (defaultValue : BooksContext.Decoded α) :
    (getItem key = none ∨ getItem key = some none ∨ getItem key = some (some "") →
        BooksContext.loadFromStorage getItem parse key defaultValue = defaultValue)
    ∧ (∀ item : String, getItem key = some (some item) → parse item = none →
        BooksContext.loadFromStorage getItem parse key defaultValue = defaultValue)
    ∧ (∀ (item : String) (value : BooksContext.Decoded α), getItem key = some (some item) →
        item ≠ "" → parse item = some value →
        BooksContext.loadFromStorage getItem parse key defaultValue = value)
    ∧ (∀ (item : String) (items : List α), getItem key = some (some item) →
        item ≠ "" → parse item = some (BooksContext.Decoded.array items) →
        BooksContext.loadFromStorage getItem parse key defaultValue
          = BooksContext.Decoded.array items) := by
  refine ⟨?_, ?_, ?_, ?_⟩
  · rintro (h | h | h) <;> simp [BooksContext.loadFromStorage, h]
  · intro item h hp
    by_cases he : item = "" <;> simp [BooksContext.loadFromStorage, h, hp, he]
  · intro item value h he hp
    simp [BooksContext.loadFromStorage, h, hp, he]
  · intro item items h he hp
    simp [BooksContext.loadFromStorage, h, hp, he]

/-- C18 (witness). A malformed text under the key gives the default list, the text `[]` the
list it stands for. -/
theorem C18_loadFromStorage_witness :
    BooksContext.loadFromStorage (storageWithBooks "oops") sampleParse "books"
        (BooksContext.Decoded.array [sampleBook])
      = BooksContext.Decoded.array [sampleBook]
    ∧ BooksContext.loadFromStorage (storageWithBooks "[]") sampleParse "books"
        (BooksContext.Decoded.array [sampleBook])
      = BooksContext.Decoded.array [] := by
  constructor
  · exact (C18_loadFromStorage (storageWithBooks "oops") sampleParse "books"
      (BooksContext.Decoded.array [sampleBook])).2.1 "oops"
      (by simp [storageWithBooks]) (by decide)
  · exact (C18_loadFromStorage (storageWithBooks "[]") sampleParse "books"
      (BooksContext.Decoded.array [sampleBook])).2.2.2 "[]" []
      (by simp [storageWithBooks]) (by decide) (by decide)

/-- The operator `x > v` for a number `x` compares numbers. -/
theorem num_gt (x : JSNum) (v : JSVal) : (JSVal.num x).gt v = JSNum.lt v.toNumber x := by
  cases v <;> rfl

/-- The form data of `noteDialogWithPage`. -/
theorem noteDialogWithPage_eq (page : String) :
    noteDialogWithPage page
      = { isDialogOpen := true
          editingNote := none
          formData := [("type", JSVal.str "anotacao"), ("page", JSVal.str page),
                       ("content", JSVal.str "Capitu")] } := by
  simp [noteDialogWithPage, NotesTimeline.setContent, NotesTimeline.setPage,
    NotesTimeline.handleOpenDialog, NotesTimeline.emptyForm, JSObj.set, JSObj.has]

/-- C20 (the claim as stated fails). The page input `1.5` denotes no integer, and
`handleSubmit` accepts the form: it calls `addNote` with page 1. -/
theorem C20_fraction_is_accepted :
    stringToNumber "1.5" = fin (3 / 2)
    ∧ (NotesTimeline.handleSubmit sampleNoteProps sampleClock sampleStore
        (noteDialogWithPage "1.5")).toast = "Sucesso!"
    ∧ (NotesTimeline.handleSubmit sampleNoteProps sampleClock sampleStore
        (noteDialogWithPage "1.5")).store.notes
      = [sampleNote,
         [("type", JSVal.str "anotacao"), ("page", JSVal.num (fin 1)),
          ("content", JSVal.str "Capitu"), ("bookId", JSVal.str "b1"),
          ("id", JSVal.str "1700000000000"),
          ("createdAt", JSVal.str "2023-11-14T22:13:20.000Z")]] := by
  have hp : parseInt "1.5" = fin 1 := by decide
  have hid : (toString 1700000000000 : String) = "1700000000000" := by decide
  refine ⟨?_, ?_, ?_⟩
  · have h : classifyNumeric "1.5" = StrNumeric.decimal false 15 1 0 := by decide
    simp [stringToNumber, h, StrNumeric.value]
    norm_num
  · rw [noteDialogWithPage_eq]
    simp [NotesTimeline.handleSubmit, JSObj.get, JSVal.truthy, parseIntValue, hp, num_gt,
      sampleNoteProps, JSVal.toNumber]
  · rw [noteDialogWithPage_eq]
    simp [NotesTimeline.handleSubmit, JSObj.get, JSVal.truthy, parseIntValue, hp, num_gt,
      sampleNoteProps, JSVal.toNumber, BooksContext.addNote, JSObj.set, JSObj.has, sampleStore,
      sampleClock, hid]

/-- C20 (amended). `handleSubmit` of the note dialog rejects the form, calls neither `addNote`
nor `updateNote` and leaves the store and the dialog as they are when the page input is empty
(or the content is), or when `parseInt` of the page input is an integer below 1 or above the
page count of the book. -/
theorem C20_rejected_forms (p : NotesTimeline.Props) (c : Clock) (store : Store)
    (st : NotesTimeline.State) :
    ((st.formData.get "page").truthy = false ∨ (st.formData.get "content").truthy = false →
        NotesTimeline.handleSubmit p c store st = { state := st, store := store, toast := "Erro" })
    ∧ (∀ n : ℤ, parseIntValue (st.formData.get "page") = fin n → n < 1 →
        NotesTimeline.handleSubmit p c store st = { state := st, store := store, toast := "Erro" })
    ∧ (∀ (n : ℤ) (tp : ℚ), parseIntValue (st.formData.get "page") = fin n →
        p.totalPages.toNumber = fin tp → tp < n →
        NotesTimeline.handleSubmit p c store st
          = { state := st, store := store, toast := "Erro" }) := by
  refine ⟨?_, ?_, ?_⟩
  · intro h
    unfold NotesTimeline.handleSubmit
    rcases h with h | h <;> simp [h]
  · intro n hn hlt
    have hq : ((n : ℚ) < 1) := by exact_mod_cast hlt
    unfold NotesTimeline.handleSubmit
    split_ifs with h1 h2
    · rfl
    · rfl
    · exfalso
      apply h2
      simp [hn, hq]
  · intro n tp hn htp hlt
    unfold NotesTimeline.handleSubmit
    split_ifs with h1 h2
    · rfl
    · rfl
    · exfalso
      apply h2
      simp [hn, num_gt, htp, hlt]

/-- C20 (witness). Page 0 on a book of 100 pages is rejected and the notes are unchanged. -/
theorem C20_rejected_forms_witness :
    (NotesTimeline.handleSubmit { bookId := JSVal.str "b1", totalPages := JSVal.num 100 }
        sampleClock sampleStore (noteDialogWithPage "0")).store.notes = sampleStore.notes
    ∧ (NotesTimeline.handleSubmit { bookId := JSVal.str "b1", totalPages := JSVal.num 100 }
        sampleClock sampleStore (noteDialogWithPage "0")).toast = "Erro" := by
  have hp : parseIntValue ((noteDialogWithPage "0").formData.get "page") = fin ((0 : ℤ) : ℚ) := by
    have h0 : parseInt "0" = fin 0 := by decide
    rw [noteDialogWithPage_eq]
    simp [JSObj.get, parseIntValue, h0]
  have h := (C20_rejected_forms { bookId := JSVal.str "b1", totalPages := JSVal.num 100 }
    sampleClock sampleStore (noteDialogWithPage "0")).2.1 0 hp (by decide)
  rw [h]
  exact ⟨rfl, rfl⟩

/-- The two ways `handleStop` ends: with an error toast and nothing changed, or, when the end
page is typed in and passes the three tests, with the call of `calculateWPM`. -/
theorem handleStop_cases (p : ReadingTimer.Props) (c : Clock) (store : Store)
    (st : ReadingTimer.State) :
    ReadingTimer.handleStop p c store st = { state := st, store := store, toast := "Erro" }
    ∨ (st.endPage ≠ "" ∧ (parseInt st.endPage).lt 1 = false
        ∧ (JSVal.num (parseInt st.endPage)).gt p.totalPages = false
        ∧ (parseInt st.endPage).le (parseInt st.startPage) = false
        ∧ ReadingTimer.handleStop p c store st
            = ReadingTimer.calculateWPM p c store { st with isRunning := false }
                (parseInt st.startPage) (parseInt st.endPage) (fin st.seconds)) := by
  by_cases e1 : st.endPage = ""
  · left
    rw [ReadingTimer.handleStop, if_pos e1]
  · by_cases e2 : ((parseInt st.endPage).lt 1
        || (JSVal.num (parseInt st.endPage)).gt p.totalPages) = true
    · left
      rw [ReadingTimer.handleStop, if_neg e1]
      simp only [e2, if_true]
    · by_cases e3 : (parseInt st.endPage).le (parseInt st.startPage) = true
      · left
        rw [ReadingTimer.handleStop, if_neg e1]
        simp only [e2, e3, if_true, if_false, Bool.false_eq_true]
      · right
        have e2' := e2
        simp only [Bool.or_eq_true, not_or, Bool.not_eq_true] at e2'
        refine ⟨e1, e2'.1, e2'.2, by simpa using e3, ?_⟩
        rw [ReadingTimer.handleStop, if_neg e1]
        simp only [e2, e3, if_false, Bool.false_eq_true]

/-- While the timer runs, its start page is the one `handleStart` accepted: not empty, not
below 1 and not above the page count. -/
theorem reachable_running (p : ReadingTimer.Props) (st : ReadingTimer.State)
    (h : ReadingTimer.Reachable p st) :
    st.isRunning = true →
      st.startPage ≠ "" ∧ (parseInt st.startPage).lt 1 = false
        ∧ (JSVal.num (parseInt st.startPage)).gt p.totalPages = false := by
  induction h with
  | mount =>
    intro hr
    exact absurd hr (by simp [ReadingTimer.initial])
  | typeStart st value _ ih =>
    intro hr
    by_cases hrun : st.isRunning = true
    · have he : ReadingTimer.setStartPage st value = st := by
        simp [ReadingTimer.setStartPage, hrun]
      rw [he]
      exact ih hrun
    · have he : (ReadingTimer.setStartPage st value).isRunning = st.isRunning := by
        simp [ReadingTimer.setStartPage, hrun]
      rw [he] at hr
      exact absurd hr hrun
  | typeEnd st value _ ih =>
    intro hr
    have h1 : (ReadingTimer.setEndPage st value).isRunning = st.isRunning := by
      unfold ReadingTimer.setEndPage
      split_ifs <;> rfl
    have h2 : (ReadingTimer.setEndPage st value).startPage = st.startPage := by
      unfold ReadingTimer.setEndPage
      split_ifs <;> rfl
    rw [h1] at hr
    rw [h2]
    exact ih hr
  | start store st _ hstand _ =>
    intro hr
    by_cases h1 : st.startPage = ""
    · have he : (ReadingTimer.handleStart p store st).state = st := by
        rw [ReadingTimer.handleStart, if_pos h1]
      rw [he, hstand] at hr
      exact absurd hr (by simp)
    · by_cases h2 : ((parseInt st.startPage).lt 1
          || (JSVal.num (parseInt st.startPage)).gt p.totalPages) = true
      · have he : (ReadingTimer.handleStart p store st).state = st := by
          rw [ReadingTimer.handleStart, if_neg h1, if_pos h2]
        rw [he, hstand] at hr
        exact absurd hr (by simp)
      · have he : (ReadingTimer.handleStart p store st).state
            = { st with isRunning := true } := by
          rw [ReadingTimer.handleStart, if_neg h1, if_neg h2]
        rw [he]
        simp only [Bool.or_eq_true, not_or, Bool.not_eq_true] at h2
        exact ⟨h1, h2.1, h2.2⟩
  | stop c store st _ hrun ih =>
    intro hr
    rcases handleStop_cases p c store st with he | ⟨_, _, _, _, he⟩
    · rw [he]
      exact ih hrun
    · rw [he] at hr
      exact absurd hr (by simp [ReadingTimer.calculateWPM])
  | reset st _ _ =>
    intro hr
    exact absurd hr (by simp [ReadingTimer.handleReset])
  | second st _ ih =>
    intro hr
    have h1 : (ReadingTimer.tick st).isRunning = st.isRunning := by
      unfold ReadingTimer.tick
      split_ifs <;> rfl
    have h2 : (ReadingTimer.tick st).startPage = st.startPage := by
      unfold ReadingTimer.tick
      split_ifs <;> rfl
    rw [h1] at hr
    rw [h2]
    exact ih hr

/-- The session `calculateWPM` passes to `addReadingSession`. -/
theorem calculateWPM_sessions (p : ReadingTimer.Props) (c : Clock) (store : Store)
    (st : ReadingTimer.State) (start finish totalSeconds : JSNum) :
    (ReadingTimer.calculateWPM p c store st start finish totalSeconds).store.readingSessions
      = store.readingSessions ++
          [{ bookId := p.bookId
             startPage := start
             endPage := finish
             duration := totalSeconds
             wpm := some (ReadingTimer.calculatedWPM start finish totalSeconds)
             id := JSVal.str (toString c.now)
             createdAt := JSVal.str c.iso }] := rfl

/-- The books after `calculateWPM`: the current page of the book is set to the end page. -/
theorem calculateWPM_books (p : ReadingTimer.Props) (c : Clock) (store : Store)
    (st : ReadingTimer.State) (start finish totalSeconds : JSNum) :
    (ReadingTimer.calculateWPM p c store st start finish totalSeconds).store.books
      = (BooksContext.updateBook store p.bookId [("currentPage", JSVal.num finish)]).books :=
  rfl

/-- When both page inputs parse to numbers and the page count is a number, a session a
reachable running timer passes to `addReadingSession` satisfies
`1 <= startPage < endPage <= totalPages`. -/
theorem handleStop_session_bounds (p : ReadingTimer.Props) (c : Clock) (store : Store)
    (st : ReadingTimer.State) (h : ReadingTimer.Reachable p st) (hrun : st.isRunning = true)
    (a b tp : ℚ) (ha : parseInt st.startPage = fin a) (hb : parseInt st.endPage = fin b)
    (htp : p.totalPages.toNumber = fin tp) :
    (ReadingTimer.handleStop p c store st).store = store
    ∨ ∃ x : Session,
        (ReadingTimer.handleStop p c store st).store.readingSessions
          = store.readingSessions ++ [x]
        ∧ x.startPage = fin a ∧ x.endPage = fin b
        ∧ sessionBounds x p.totalPages = true := by
  rcases handleStop_cases p c store st with he | ⟨_, e1, e2, e3, he⟩
  · left
    rw [he]
  · right
    obtain ⟨_, s1, _⟩ := reachable_running p st h hrun
    rw [ha] at s1
    rw [hb] at e1
    rw [hb, num_gt, htp] at e2
    rw [hb, ha] at e3
    simp only [JSNum.one_eq, JSNum.lt_fin, JSNum.le_fin, decide_eq_false_iff_not, not_lt,
      not_le] at s1 e1 e2 e3
    refine ⟨_, by rw [he, calculateWPM_sessions], ?_, ?_, ?_⟩
    · exact ha
    · exact hb
    · simp [sessionBounds, ha, hb, htp, s1, e2, e3]

/-- The text `.5` has no leading digit. -/
theorem parseInt_dot5 : parseInt ".5" = nan := by decide

/-- The timer of `sampleProps` after the start page 1 was typed, the timer started, one second
passed and `.5` was typed as end page. -/
theorem timer_before_stop :
    ReadingTimer.setEndPage
        (ReadingTimer.tick
          (ReadingTimer.handleStart sampleProps sampleStore
            (ReadingTimer.setStartPage ReadingTimer.initial "1")).state) ".5"
      = { isRunning := true, seconds := 1, startPage := "1", endPage := ".5", wpm := none } := by
  simp [ReadingTimer.setEndPage, ReadingTimer.tick, ReadingTimer.handleStart,
    ReadingTimer.setStartPage, ReadingTimer.initial, parseInt_1, sampleProps, JSVal.gt,
    JSVal.lt, JSVal.toNumber]

/-- C19 (the code at the failing input). With `.5` typed as end page, `parseInt` gives NaN, the
three tests of `handleStop` are false, and the session passed to `addReadingSession` has the end
page NaN: it does not satisfy `1 <= startPage < endPage <= totalPages`. -/
theorem C19_session_with_nan_end_page :
    (ReadingTimer.handleStop sampleProps sampleClock sampleStore
        (ReadingTimer.setEndPage
          (ReadingTimer.tick
            (ReadingTimer.handleStart sampleProps sampleStore
              (ReadingTimer.setStartPage ReadingTimer.initial "1")).state)
          ".5")).store.readingSessions
      = [{ bookId := JSVal.str "b1"
           startPage := fin 1
           endPage := nan
           duration := fin 1
           wpm := some nan
           id := JSVal.str "1700000000000"
           createdAt := JSVal.str "2023-11-14T22:13:20.000Z" }]
    ∧ sessionBounds
        { bookId := JSVal.str "b1"
          startPage := fin 1
          endPage := nan
          duration := fin 1
          wpm := some nan
          id := JSVal.str "1700000000000"
          createdAt := JSVal.str "2023-11-14T22:13:20.000Z" } sampleProps.totalPages = false := by
  have hid : (toString 1700000000000 : String) = "1700000000000" := by decide
  rw [timer_before_stop]
  constructor
  · simp [ReadingTimer.handleStop, ReadingTimer.calculateWPM, parseInt_1, parseInt_dot5,
      sampleProps, sampleStore, sampleClock, JSVal.gt, JSVal.lt, JSVal.toNumber, JSNum.lt,
      JSNum.le, JSNum.isNaN, BooksContext.addReadingSession, BooksContext.updateBook, hid,
      calculatedWPM_nan_end]
  · simp [sessionBounds, JSNum.lt, JSNum.le, JSNum.isNaN]

/-- Two numbers that are `===` are the same number. -/
theorem JSNum.eq_of_eq_true (a b : JSNum) (h : JSNum.eq a b = true) : a = b := by
  cases a <;> cases b <;> simp_all [JSNum.eq]

/-- Two values that are `===` are the same value. -/
theorem strictEq_eq (a b : JSVal) (h : a.strictEq b = true) : a = b := by
  cases a <;> cases b <;> simp_all [JSVal.strictEq]
  exact JSNum.eq_of_eq_true _ _ h

/-- The operator `===` on numbers is symmetric. -/
theorem JSNum.eq_swap (a b : JSNum) : JSNum.eq a b = JSNum.eq b a := by
  cases a <;> cases b <;> simp [JSNum.eq, eq_comm]

/-- The operator `===` is symmetric. -/
theorem strictEq_comm (a b : JSVal) : a.strictEq b = b.strictEq a := by
  cases a <;> cases b <;> simp [JSVal.strictEq, eq_comm, JSNum.eq_swap]

/-- In a collection with pairwise distinct ids at most one record carries a given id. -/
theorem unique_of_distinctIds (l : List JSObj) (hd : distinctIds l) (id : JSVal)
    (a b : JSObj) (ha : a ∈ l) (hb : b ∈ l) (hai : (a.get "id").strictEq id = true)
    (hbi : (b.get "id").strictEq id = true) : a = b := by
  by_contra hne
  have hsymm : Symmetric (fun x y : JSObj => (x.get "id").strictEq (y.get "id") = false) := by
    intro x y hxy
    rw [strictEq_comm]
    exact hxy
  have hR := List.Pairwise.forall hsymm hd ha hb hne
  have e1 := strictEq_eq _ _ hai
  have e2 := strictEq_eq _ _ hbi
  rw [e1, e2] at hR
  rw [e1] at hai
  rw [hai] at hR
  exact absurd hR (by simp)

/-- What `getBook` finds is a stored book that carries the id. -/
theorem getBook_some (s : Store) (id : JSVal) (book : JSObj)
    (h : BooksContext.getBook s id = some book) :
    book ∈ s.books ∧ (book.get "id").strictEq id = true := by
  unfold BooksContext.getBook at h
  refine ⟨List.mem_of_find?_eq_some h, ?_⟩
  have h2 := List.find?_some h
  exact h2

/-- The invariant of a book after its current page was overwritten. -/
theorem bookInvariant_set_currentPage (book : JSObj) (x : JSNum) :
    bookInvariant (JSObj.spread book [("currentPage", JSVal.num x)])
      = (!(JSNum.lt 0 (book.get "totalPages").toNumber)
          || (JSNum.le 0 x && JSNum.le x (book.get "totalPages").toNumber)) := by
  have hwf : JSObj.wellFormed [("currentPage", JSVal.num x)] := by simp [JSObj.wellFormed]
  unfold bookInvariant
  rw [get_spread _ book "totalPages" hwf, get_spread _ book "currentPage" hwf]
  simp [JSObj.has, JSObj.get, JSVal.toNumber]

/-- A number that something is smaller than is not NaN. -/
theorem isNaN_of_lt (a b : JSNum) (h : JSNum.lt a b = true) :
    JSNum.isNaN a = false ∧ JSNum.isNaN b = false := by
  cases a <;> cases b <;> simp_all [JSNum.lt, JSNum.isNaN]

/-- A number that is not NaN and not below 1 is at least 0. -/
theorem le_zero_of_not_lt_one (x : JSNum) (hn : JSNum.isNaN x = false)
    (h : JSNum.lt x 1 = false) : JSNum.le 0 x = true := by
  cases x with
  | fin q =>
    simp only [JSNum.one_eq, JSNum.lt_fin, decide_eq_false_iff_not, not_lt] at h
    simp only [JSNum.zero_eq, JSNum.le_fin, decide_eq_true_eq]
    linarith
  | posInf => simp [JSNum.le, JSNum.isNaN, JSNum.lt]
  | negInf => simp [JSNum.lt] at h
  | nan => simp [JSNum.isNaN] at hn

/-- A number that is not NaN and not below 0 is at least 0. -/
theorem le_zero_of_not_lt_zero (x : JSNum) (hn : JSNum.isNaN x = false)
    (h : JSNum.lt x 0 = false) : JSNum.le 0 x = true := by
  show (!(JSNum.isNaN 0) && !(JSNum.isNaN x) && !(JSNum.lt x 0)) = true
  rw [hn, h]
  rfl

/-- A number that is not NaN and not above a positive page count is at most that count. -/
theorem le_of_not_gt (x tp : JSNum) (hn : JSNum.isNaN x = false) (hpos : JSNum.lt 0 tp = true)
    (h : JSNum.lt tp x = false) : JSNum.le x tp = true := by
  show (!(JSNum.isNaN x) && !(JSNum.isNaN tp) && !(JSNum.lt tp x)) = true
  rw [hn, (isNaN_of_lt _ _ hpos).2, h]
  rfl

/-- Overwriting the current page of the books with an id keeps the invariant when the new page
is a number at least 0 and not above the page count of any book with that id. -/
theorem updateBook_currentPage_invariant (s : Store) (id : JSVal) (x : JSNum)
    (hinv : ∀ b ∈ s.books, bookInvariant b = true) (h0 : JSNum.le 0 x = true)
    (hle : ∀ b ∈ s.books, (b.get "id").strictEq id = true →
      JSNum.lt 0 (b.get "totalPages").toNumber = true →
      JSNum.le x (b.get "totalPages").toNumber = true) :
    ∀ b ∈ (BooksContext.updateBook s id [("currentPage", JSVal.num x)]).books,
      bookInvariant b = true := by
  intro b hb
  unfold BooksContext.updateBook at hb
  simp only [List.mem_map] at hb
  obtain ⟨b0, hb0, rfl⟩ := hb
  by_cases hid : (b0.get "id").strictEq id = true
  · rw [if_pos hid, bookInvariant_set_currentPage]
    cases hpos : JSNum.lt 0 (b0.get "totalPages").toNumber
    · simp
    · rw [h0, hle b0 hb0 hid hpos]
      rfl
  · rw [if_neg hid]
    exact hinv b0 hb0

/-- When `addBook` returns, it has appended one record whose current page is 0 and whose page
count is the one of the payload. -/
theorem addBook_some (c : Clock) (s : Store) (book : JSObj) (r : Store × JSVal)
    (h : BooksContext.addBook c s book = some r) :
    ∃ newBook : JSObj, r.1.books = s.books ++ [newBook]
      ∧ newBook.get "currentPage" = JSVal.num 0
      ∧ newBook.get "totalPages" = book.get "totalPages" := by
  unfold BooksContext.addBook at h
  dsimp only at h
  generalize (if (book.get "publishedDate").truthy = true then
      (match book.get "publishedDate" with
        | JSVal.str d => some (JSVal.str (d.take 4))
        | _ => none)
    else some (JSVal.str "")) = oy at h
  cases oy with
  | none => exact absurd h (by simp)
  | some year =>
    simp only [Option.some.injEq] at h
    subst h
    exact ⟨_, rfl, by simp [get_set], by simp [get_set]⟩

/-- A book at page 0 satisfies the invariant. -/
theorem bookInvariant_of_page_zero (b : JSObj) (h : b.get "currentPage" = JSVal.num 0) :
    bookInvariant b = true := by
  unfold bookInvariant
  rw [h]
  cases hpos : JSNum.lt 0 (b.get "totalPages").toNumber
  · rfl
  · have hn := (isNaN_of_lt _ _ hpos).2
    have h1 : JSNum.le 0 (JSVal.num 0).toNumber = true := by
      simp [JSVal.toNumber]
    have h2 : JSNum.le (JSVal.num 0).toNumber (b.get "totalPages").toNumber = true := by
      show (!(JSNum.isNaN 0) && !(JSNum.isNaN (b.get "totalPages").toNumber)
        && !(JSNum.lt (b.get "totalPages").toNumber 0)) = true
      rw [hn]
      cases htp : (b.get "totalPages").toNumber <;> rw [htp] at hpos <;>
        simp_all [JSNum.lt, JSNum.isNaN]
      exact le_of_lt hpos
    rw [h1, h2]
    rfl

/-- The content of `overrunForm`. -/
theorem overrunForm_eq :
    overrunForm
      = [("title", JSVal.str "Dom Casmurro"), ("totalPages", JSVal.str "100"),
         ("id", JSVal.str "b1"), ("currentPage", JSVal.str "150"),
         ("author", JSVal.str "Machado de Assis"), ("year", JSVal.str "1899")] := by
  simp [overrunForm, AddEditBook.handleChange, sampleBook, JSObj.set, JSObj.has]

/-- The strings `100` and `150` as numbers. -/
theorem stringToNumber_100_150 :
    stringToNumber "100" = fin 100 ∧ stringToNumber "150" = fin 150 := by
  have h1 : classifyNumeric "100" = StrNumeric.decimal false 100 0 0 := by decide
  have h2 : classifyNumeric "150" = StrNumeric.decimal false 150 0 0 := by decide
  constructor
  · simp [stringToNumber, h1, StrNumeric.value]
  · simp [stringToNumber, h2, StrNumeric.value]

/-- C15 (the code departs from the claim). Every book of `sampleStore` satisfies the
invariant; the edit form submitted with the page count 100 and the current page 150 is
accepted by `handleSubmit`, which does not compare the two, and the stored book then has its
current page above its page count. -/
theorem C15_edit_stores_page_above_count :
    sampleStore.books.map bookInvariant = [true]
    ∧ (AddEditBook.handleSubmit sampleClock sampleStore (JSVal.str "b1") overrunForm).2
        = "Sucesso!"
    ∧ (AddEditBook.handleSubmit sampleClock sampleStore (JSVal.str "b1") overrunForm).1.books
        = [overrunForm]
    ∧ bookInvariant overrunForm = false := by
  have hwf : JSObj.wellFormed overrunForm := by
    rw [overrunForm_eq]
    simp [JSObj.wellFormed]
  have hinv : bookInvariant overrunForm = false := by
    rw [overrunForm_eq]
    simp [bookInvariant, JSObj.get, JSVal.toNumber, stringToNumber_100_150.1,
      stringToNumber_100_150.2]
    norm_num
  refine ⟨?_, ?_, ?_, hinv⟩
  · simp [sampleStore, sampleBook, bookInvariant, JSObj.get, JSVal.toNumber]
  · rw [overrunForm_eq]
    simp [AddEditBook.handleSubmit, JSObj.get, JSVal.truthy]
  · have hs : AddEditBook.handleSubmit sampleClock sampleStore (JSVal.str "b1") overrunForm
        = (BooksContext.updateBook sampleStore (JSVal.str "b1") overrunForm, "Sucesso!") := by
      rw [overrunForm_eq]
      simp [AddEditBook.handleSubmit, JSObj.get, JSVal.truthy]
    rw [hs, overrunForm_eq]
    simp [BooksContext.updateBook, sampleStore, sampleBook, JSObj.get, JSVal.strictEq,
      JSObj.spread, JSObj.set, JSObj.has]

/-- The three operations that check the page keep the invariant. When every stored book
satisfies `0 <= currentPage <= totalPages` whenever `totalPages > 0` (on the numbers the fields
denote), so does every stored book after `addBook`, and, in a store whose books carry pairwise
distinct ids, after `handleUpdatePage` and after a reading session completed by `handleStop`
whose end page parses to a number. -/
theorem invariant_preserved_by_checked_operations (c : Clock) (s : Store)
    (hinv : ∀ b ∈ s.books, bookInvariant b = true) :
    (∀ payload : JSObj,
      ∀ b ∈ (match BooksContext.addBook c s payload with
          | some r => r.1.books
          | none => s.books), bookInvariant b = true)
    ∧ (distinctIds s.books → ∀ (id : JSVal) (input : String),
        ∀ b ∈ (BookDetails.handleUpdatePage s id input).1.books, bookInvariant b = true)
    ∧ (distinctIds s.books → ∀ (p : ReadingTimer.Props) (st : ReadingTimer.State),
        (∀ book : JSObj, BooksContext.getBook s p.bookId = some book →
          p.totalPages = book.get "totalPages") →
        (parseInt st.endPage).isNaN = false →
        ∀ b ∈ (ReadingTimer.handleStop p c s st).store.books, bookInvariant b = true) := by
  have hadd : ∀ payload : JSObj,
      ∀ b ∈ (match BooksContext.addBook c s payload with
          | some r => r.1.books
          | none => s.books), bookInvariant b = true := by
    intro payload b hb
    cases hr : BooksContext.addBook c s payload with
    | none =>
      rw [hr] at hb
      exact hinv b hb
    | some r =>
      rw [hr] at hb
      obtain ⟨newBook, h1, h2, _⟩ := addBook_some c s payload r hr
      simp only [h1, List.mem_append, List.mem_singleton] at hb
      rcases hb with hb | hb
      · exact hinv b hb
      · rw [hb]
        exact bookInvariant_of_page_zero newBook h2
  refine ⟨hadd, ?_, ?_⟩
  · intro hd id input b hb
    unfold BookDetails.handleUpdatePage at hb
    cases hg : BooksContext.getBook s id with
    | none =>
      rw [hg] at hb
      exact hinv b hb
    | some book =>
      rw [hg] at hb
      obtain ⟨hmem, hid⟩ := getBook_some s id book hg
      by_cases h1 : input = ""
      · simp only [h1, if_true] at hb
        exact hinv b hb
      · by_cases h2 : ((parseInt input).isNaN || (parseInt input).lt 0
            || (JSVal.num (parseInt input)).gt (book.get "totalPages")) = true
        · simp only [h1, h2, if_true, if_false] at hb
          exact hinv b hb
        · simp only [h1, h2, if_false, Bool.false_eq_true] at hb
          simp only [Bool.or_eq_true, not_or, Bool.not_eq_true] at h2
          obtain ⟨⟨hn, hlt⟩, hgt⟩ := h2
          rw [num_gt] at hgt
          apply updateBook_currentPage_invariant s id (parseInt input) hinv
            (le_zero_of_not_lt_zero _ hn hlt) _ b hb
          intro b0 hb0 hb0id hpos
          have hb0eq : b0 = book := unique_of_distinctIds s.books hd id b0 book hb0 hmem hb0id hid
          rw [hb0eq] at hpos ⊢
          exact le_of_not_gt _ _ hn hpos hgt
  · intro hd p st hprops hn b hb
    rcases handleStop_cases p c s st with he | ⟨_, e1, e2, _, he⟩
    · rw [he] at hb
      exact hinv b hb
    · rw [he, calculateWPM_books] at hb
      rw [num_gt] at e2
      apply updateBook_currentPage_invariant s p.bookId (parseInt st.endPage) hinv
        (le_zero_of_not_lt_one _ hn e1) _ b hb
      intro b0 hb0 hb0id hpos
      cases hg : BooksContext.getBook s p.bookId with
      | none =>
        exfalso
        unfold BooksContext.getBook at hg
        rw [List.find?_eq_none] at hg
        exact hg b0 hb0 hb0id
      | some book =>
        obtain ⟨hmem, hid⟩ := getBook_some s p.bookId book hg
        have hb0eq : b0 = book :=
          unique_of_distinctIds s.books hd p.bookId b0 book hb0 hmem hb0id hid
        rw [hprops book hg] at e2
        rw [hb0eq] at hpos ⊢
        exact le_of_not_gt _ _ hn hpos e2

/-- Typing page 120 in the progress dialog of the book of 300 pages keeps the invariant. -/
theorem invariant_preserved_example :
    (BookDetails.handleUpdatePage sampleStore (JSVal.str "b1") "120").1.books.all bookInvariant
      = true := by
  rw [List.all_eq_true]
  exact (invariant_preserved_by_checked_operations sampleClock sampleStore
    (by simp [sampleStore, sampleBook, bookInvariant, JSObj.get, JSVal.toNumber])).2.1
    (by simp [distinctIds, sampleStore]) (JSVal.str "b1") "120"

/-- The cover image of the record `addBook` stores is `book.coverUrl || ''`, whatever the
payload carries as `coverImage`. -/
theorem addBook_coverImage (c : Clock) (s : Store) (book : JSObj) (r : Store × JSVal)
    (h : BooksContext.addBook c s book = some r) :
    ∃ newBook : JSObj, r.1.books = s.books ++ [newBook]
      ∧ newBook.get "coverImage" = JSVal.orElse (book.get "coverUrl") (JSVal.str "") := by
  unfold BooksContext.addBook at h
  dsimp only at h
  generalize (if (book.get "publishedDate").truthy = true then
      (match book.get "publishedDate" with
        | JSVal.str d => some (JSVal.str (d.take 4))
        | _ => none)
    else some (JSVal.str "")) = oy at h
  cases oy with
  | none => exact absurd h (by simp)
  | some year =>
    simp only [Option.some.injEq] at h
    subst h
    exact ⟨_, rfl, by simp [get_set]⟩

/-- C21 (the code departs from the claim). The form of a new book is submitted with the
address of a cover image in its field `coverImage`: `handleSubmit` accepts it and `addBook`
stores the book with the empty string as `coverImage`, because it takes the cover from
`coverUrl`, which the form does not have. -/
theorem C21_form_cover_image_is_dropped :
    coverForm.get "coverImage" = JSVal.str "https://exemplo.com/capa.jpg"
    ∧ (AddEditBook.handleSubmit sampleClock emptyStore JSVal.undefined coverForm).2 = "Sucesso!"
    ∧ (AddEditBook.handleSubmit sampleClock emptyStore JSVal.undefined coverForm).1.books.map
        (fun book => (book.get "title", book.get "coverImage"))
        = [(JSVal.str "Dom Casmurro", JSVal.str "")] := by
  decide

/-- With the field of the daily minutes empty, `handleCalculate` shows the error toast and
leaves the state as it was: `calculateEstimatedTime` is not called. -/
theorem handleCalculate_empty (book : JSObj) (avg : JSNum) (st : ReadingPlanner.State)
    (h : st.dailyMinutes = "") :
    ReadingPlanner.handleCalculate book avg st = (st, some "Erro") := by
  rw [ReadingPlanner.handleCalculate, if_pos h]

/-- The text `0` parses to the number 0. -/
theorem parseInt_0 : parseInt "0" = fin 0 := by decide

/-- The `averageWPM` the planner holds for the book of `sampleStore`, which has no session. -/
theorem sampleStore_plannerWPM :
    ReadingPlanner.averageWPM sampleStore (JSVal.str "b1") = fin 200 := by
  rw [ReadingPlanner.averageWPM, sampleStore_average]
  simp [JSNum.orElse, JSNum.truthy]

/-- C22 (the code departs from the claim). With the text `0` typed as daily minutes, which
parses to 0, `handleCalculate` calls `calculateEstimatedTime` and stores its result: for the
book of 300 pages read at 200 words per minute the projection has `daysNeeded` infinite. -/
theorem C22_zero_minutes_projection :
    parseInt zeroMinutesPlan.dailyMinutes = fin 0
    ∧ ReadingPlanner.handleCalculate sampleBook
        (ReadingPlanner.averageWPM sampleStore (JSVal.str "b1")) zeroMinutesPlan
      = ({ desiredDays := "", dailyMinutes := "0",
           result := some { totalMinutes := fin 375, daysNeeded := posInf,
                            hoursNeeded := fin 6 } }, none) := by
  refine ⟨by decide, ?_⟩
  have hne : zeroMinutesPlan.dailyMinutes ≠ "" := by decide
  have hd : zeroMinutesPlan.desiredDays = "" := rfl
  have hcp : (JSVal.orElse (sampleBook.get "currentPage") (JSVal.num 0)).toNumber = fin 0 := by
    simp [sampleBook, JSObj.get, JSVal.orElse, JSVal.truthy, JSNum.truthy, JSVal.toNumber]
  have hest : BooksContext.calculateEstimatedTime (sampleBook.get "totalPages")
      (JSVal.orElse (sampleBook.get "currentPage") (JSVal.num 0)) (fin 0) (some (fin 200))
      = { totalMinutes := fin 375, daysNeeded := posInf, hoursNeeded := fin 6 } := by
    rw [calculateEstimatedTime_eq _ _ 300 0 200 (fin 0) sampleBook_totalPages hcp (by norm_num)]
    have h1 : (round ((300 - 0) * 250 / 200 : ℚ) : ℤ) = 375 := by
      rw [round_eq, Int.floor_eq_iff]; norm_num
    have h2 : (round ((300 - 0) * 250 / 200 / 60 : ℚ) : ℤ) = 6 := by
      rw [round_eq, Int.floor_eq_iff]; norm_num
    rw [h1, h2]
    simp [JSNum.fin_div_def, JSNum.ofSign]
  rw [sampleStore_plannerWPM, ReadingPlanner.handleCalculate, if_neg hne]
  have hp : parseInt zeroMinutesPlan.dailyMinutes = fin 0 := by decide
  simp only [hp, hest, hd]
  simp [zeroMinutesPlan]

/-- With the field of the desired days empty, `calculateRequiredDailyTime` returns 0. -/
theorem calculateRequiredDailyTime_empty (book : JSObj) (avg : JSNum)
    (st : ReadingPlanner.State) (h : st.desiredDays = "") :
    ReadingPlanner.calculateRequiredDailyTime book avg st = fin 0 := by
  rw [ReadingPlanner.calculateRequiredDailyTime, if_pos h]
  rfl

/-- C23 (the code departs from the claim). With the text `0` typed as desired days, which
parses to 0, `calculateRequiredDailyTime` divides by it: for the book of 300 pages read at 200
words per minute it returns `Infinity`, not the sentinel 0. -/
theorem C23_zero_days_divides :
    parseInt zeroDaysPlan.desiredDays = fin 0
    ∧ ReadingPlanner.calculateRequiredDailyTime sampleBook
        (ReadingPlanner.averageWPM sampleStore (JSVal.str "b1")) zeroDaysPlan = posInf := by
  refine ⟨by decide, ?_⟩
  have hne : zeroDaysPlan.desiredDays ≠ "" := by decide
  have hp : parseInt zeroDaysPlan.desiredDays = fin 0 := by decide
  have hcp : (JSVal.orElse (sampleBook.get "currentPage") (JSVal.num 0)).toNumber = fin 0 := by
    simp [sampleBook, JSObj.get, JSVal.orElse, JSVal.truthy, JSNum.truthy, JSVal.toNumber]
  rw [sampleStore_plannerWPM, ReadingPlanner.calculateRequiredDailyTime, if_neg hne]
  simp only [hp, hcp, sampleBook_totalPages]
  simp [JSNum.fin_div_def, JSNum.ofSign]

/-- The planner shows `NaN` as progress for every book whose page count is the number 0 and
whose current page is 0 or absent. -/
theorem progressPercentage_of_zero (book : JSObj)
    (htp : book.get "totalPages" = JSVal.num (fin 0))
    (hcp : (JSVal.orElse (book.get "currentPage") (JSVal.num 0)).toNumber = fin 0) :
    ReadingPlanner.progressPercentage book = "NaN" := by
  unfold ReadingPlanner.progressPercentage
  rw [hcp, htp]
  simp [JSVal.toNumber, JSNum.fin_div_def, JSNum.ofSign, JSNum.toFixed]
  rfl

/-- C24 (the code departs from the claim). The catalog record `sampleVolume` has no page
count, so the book stored for it has `totalPages` 0 and `currentPage` 0; the planner computes
its progress as `0 / 0 * 100`, and the text it shows is `NaN`, while the three sibling
functions return 0 for the same book. -/
theorem C24_planner_progress_of_zero_pages :
    importedStore.books.map
        (fun book => (book.get "totalPages", book.get "currentPage",
          ReadingPlanner.progressPercentage book, ProgressChart.progressPercentage book,
          BookDetails.calculateProgress book, Dashboard.calculateProgress book))
      = [(JSVal.num (fin 0), JSVal.num (fin 0), "NaN", fin 0, fin 0, fin 0)] := by
  have hid : (toString 1700000000000 : String) = "1700000000000" := by decide
  have hj : ", ".intercalate ["Machado de Assis"] = "Machado de Assis" := by decide
  have hb : importedStore.books =
      [[("title", JSVal.str "Dom Casmurro"), ("author", JSVal.str "Machado de Assis"),
        ("totalPages", JSVal.num (fin 0)), ("coverUrl", JSVal.str ""),
        ("description", JSVal.str ""), ("isbn", JSVal.str "8535902775"),
        ("publisher", JSVal.str ""), ("publishedDate", JSVal.str ""),
        ("googleBooksId", JSVal.str "zyTCAlFPjgYC"), ("language", JSVal.str ""),
        ("categories", JSVal.str ""), ("id", JSVal.str "1700000000000"),
        ("createdAt", JSVal.str "2023-11-14T22:13:20.000Z"), ("currentPage", JSVal.num (fin 0)),
        ("rating", JSVal.num (fin 0)), ("coverImage", JSVal.str ""),
        ("publishedYear", JSVal.str "")]] := by
    simp [importedStore, Dashboard.handleAddBook, Dashboard.payload, Dashboard.newBook,
      sampleVolume, emptyStore, BooksContext.addBook, sampleClock, JSObj.get, JSObj.set,
      JSObj.has, JSVal.truthy, JSVal.orElse, hid, hj, thumbnailOf, extractIsbn, joinOr,
      JSVal.strictEq]
  rw [hb]
  simp only [List.map_cons, List.map_nil]
  rw [progressPercentage_of_zero _ (by simp [get_cons]) (by simp [get_cons, JSVal.orElse,
    JSVal.truthy, JSNum.truthy, JSVal.toNumber])]
  simp [get_cons, ProgressChart.progressPercentage, BookDetails.calculateProgress,
    Dashboard.calculateProgress, JSVal.gt, JSVal.lt, JSVal.toNumber, JSVal.truthy,
    JSNum.truthy, JSVal.strictEq]

/-- C25. `deleteBook(id)` changes nothing else: each collection afterwards is a sublist of the
collection before (the records kept are the records that were there, in the order they had,
and nothing is added), and every book whose id differs from `id`, every note and every
session whose `bookId` differs from `id` occurs afterwards as often as before. -/
theorem C25_deleteBook_frame (s : Store) (id : JSVal) :
    ((BooksContext.deleteBook s id).books.Sublist s.books
      ∧ ∀ book : JSObj, (book.get "id").strictEq id = false →
          (BooksContext.deleteBook s id).books.count book = s.books.count book)
    ∧ ((BooksContext.deleteBook s id).notes.Sublist s.notes
      ∧ ∀ note : JSObj, (note.get "bookId").strictEq id = false →
          (BooksContext.deleteBook s id).notes.count note = s.notes.count note)
    ∧ ((BooksContext.deleteBook s id).readingSessions.Sublist s.readingSessions
      ∧ ∀ session : Session, session.bookId.strictEq id = false →
          (BooksContext.deleteBook s id).readingSessions.count session
            = s.readingSessions.count session) := by
  refine ⟨⟨List.filter_sublist _, ?_⟩, ⟨List.filter_sublist _, ?_⟩,
    ⟨List.filter_sublist _, ?_⟩⟩
  · intro book h
    exact List.count_filter (by simp [h])
  · intro note h
    exact List.count_filter (by simp [h])
  · intro session h
    exact List.count_filter (by simp [h])

/-- C25 (witness). Deleting the book `b2` from `twoSessionStore` keeps the book `b1` and its
two sessions, in their order. -/
theorem C25_deleteBook_frame_witness :
    (BooksContext.deleteBook twoSessionStore (JSVal.str "b2")).books = [sampleBook]
    ∧ (BooksContext.deleteBook twoSessionStore (JSVal.str "b2")).readingSessions.map
        (fun session => session.id)
        = [JSVal.str "1700000000000", JSVal.str "1700000200000"]
    ∧ (BooksContext.deleteBook twoSessionStore (JSVal.str "b2")).books.count sampleBook
        = twoSessionStore.books.count sampleBook :=
  ⟨by decide, by decide,
    (C25_deleteBook_frame twoSessionStore (JSVal.str "b2")).1.2 sampleBook (by decide)⟩

/-- C26. For every catalog record with a `volumeInfo` the three copies of the mapping build
the same object, field for field and in the same order of keys, and each passes it to
`addBook`: `addBookFromGoogle` returns what `addBook` returns for it, and the two
`handleAddBook` leave the store `addBook` leaves for it (the store unchanged when `addBook`
throws). -/
theorem C26_three_mappings_agree (c : Clock) (s : Store) (record : Volume)
    (volumeInfo : VolumeInfo) (h : record.volumeInfo = some volumeInfo) :
    BooksContext.googlePayload (some record)
        = some (BooksContext.googleNewBook record.id volumeInfo)
    ∧ Dashboard.payload record = some (Dashboard.newBook record volumeInfo)
    ∧ SearchBooks.payload record = some (SearchBooks.newBook record volumeInfo)
    ∧ BooksContext.googleNewBook record.id volumeInfo = Dashboard.newBook record volumeInfo
    ∧ Dashboard.newBook record volumeInfo = SearchBooks.newBook record volumeInfo
    ∧ BooksContext.addBookFromGoogle c s (some record)
        = BooksContext.addBook c s (BooksContext.googleNewBook record.id volumeInfo)
    ∧ (Dashboard.handleAddBook c s record).1
        = ((BooksContext.addBook c s (Dashboard.newBook record volumeInfo)).map
            Prod.fst).getD s
    ∧ (SearchBooks.handleAddBook c s record).1
        = ((BooksContext.addBook c s (SearchBooks.newBook record volumeInfo)).map
            Prod.fst).getD s := by
  refine ⟨?_, ?_, ?_, rfl, rfl, ?_, ?_, ?_⟩
  · simp [BooksContext.googlePayload, h]
  · simp [Dashboard.payload, h]
  · simp [SearchBooks.payload, h]
  · simp [BooksContext.addBookFromGoogle, BooksContext.googlePayload, h]
  · simp only [Dashboard.handleAddBook, Dashboard.payload, h]
    cases BooksContext.addBook c s (Dashboard.newBook record volumeInfo) <;> rfl
  · simp only [SearchBooks.handleAddBook, SearchBooks.payload, h]
    cases BooksContext.addBook c s (SearchBooks.newBook record volumeInfo) <;> rfl

/-- C26 (witness). For `sampleVolume` the three copies build one object, and the two pages
leave the same store. -/
theorem C26_three_mappings_agree_witness :
    BooksContext.googlePayload (some sampleVolume) = Dashboard.payload sampleVolume
    ∧ Dashboard.payload sampleVolume = SearchBooks.payload sampleVolume
    ∧ (Dashboard.handleAddBook sampleClock emptyStore sampleVolume).1
        = (SearchBooks.handleAddBook sampleClock emptyStore sampleVolume).1 := by
  obtain ⟨h1, h2, h3, h4, h5, _, h7, h8⟩ :=
    C26_three_mappings_agree sampleClock emptyStore sampleVolume _ rfl
  refine ⟨?_, ?_, ?_⟩
  · rw [h1, h2, h4]
  · rw [h2, h3, h5]
  · rw [h7, h8, h5]

/-- While the timer runs, `k` firings of the interval add `k` to the counter and change
nothing else. -/
theorem tick_iterate (st : ReadingTimer.State) (h : st.isRunning = true) (k : Nat) :
    ReadingTimer.tick^[k] st = { st with seconds := st.seconds + k } := by
  induction k generalizing st with
  | zero => rfl
  | succ k ih =>
    rw [Function.iterate_succ_apply]
    have h1 : ReadingTimer.tick st = { st with seconds := st.seconds + 1 } := by
      rw [ReadingTimer.tick, if_pos h]
    rw [h1, ih { st with seconds := st.seconds + 1 } h]
    simp only [ReadingTimer.State.mk.injEq, and_true, true_and]
    omega

/-- When `handleStop` shows the toast of a saved session, it has called `calculateWPM` with
the two parsed page inputs and the counter. -/
theorem handleStop_saved (p : ReadingTimer.Props) (c : Clock) (store : Store)
    (st : ReadingTimer.State)
    (h : (ReadingTimer.handleStop p c store st).toast = "Sessão de leitura salva!") :
    ReadingTimer.handleStop p c store st
      = ReadingTimer.calculateWPM p c store { st with isRunning := false }
          (parseInt st.startPage) (parseInt st.endPage) (fin st.seconds) := by
  rcases handleStop_cases p c store st with h1 | ⟨_, _, _, _, h2⟩
  · rw [h1] at h
    simp at h
  · exact h2

/-- When `handleStart` shows the toast of a started timer, it has set `isRunning` and changed
nothing else. -/
theorem handleStart_started (p : ReadingTimer.Props) (store : Store)
    (st : ReadingTimer.State)
    (h : (ReadingTimer.handleStart p store st).toast = "Cronômetro iniciado!") :
    (ReadingTimer.handleStart p store st).state = { st with isRunning := true } := by
  unfold ReadingTimer.handleStart at h ⊢
  split_ifs at h ⊢
  · simp at h
  · simp at h
  · rfl

/-- C27. A session is saved by `handleStop` with the counter at `st.seconds`; the start page
is then typed again and `handleStart` accepted, without `handleReset` in between: the counter
still reads `st.seconds`. After `k` further seconds it reads `st.seconds + k`, and the session
`handleStop` then saves has that sum as its duration and, as its `wpm`, the value
`calculatedWPM` takes on the two pages and that sum. -/
theorem C27_counter_carries_over (p : ReadingTimer.Props) (c1 c2 : Clock)
    (store1 store2 : Store) (st s1 s2 s3 : ReadingTimer.State) (newStart newEnd : String)
    (k : Nat)
    (hsaved : (ReadingTimer.handleStop p c1 store1 st).toast = "Sessão de leitura salva!")
    (h1 : s1 = ReadingTimer.setStartPage (ReadingTimer.handleStop p c1 store1 st).state newStart)
    (hstart : (ReadingTimer.handleStart p store2 s1).toast = "Cronômetro iniciado!")
    (h2 : s2 = (ReadingTimer.handleStart p store2 s1).state)
    (h3 : s3 = ReadingTimer.setEndPage (ReadingTimer.tick^[k] s2) newEnd)
    (hstop : (ReadingTimer.handleStop p c2 store2 s3).toast = "Sessão de leitura salva!") :
    ((ReadingTimer.handleStop p c1 store1 st).store.readingSessions.getLast?).map
        (fun session => session.duration) = some (fin st.seconds)
    ∧ s2.seconds = st.seconds
    ∧ s3.seconds = st.seconds + k
    ∧ (ReadingTimer.handleStop p c2 store2 s3).store.readingSessions
        = store2.readingSessions ++
            [{ bookId := p.bookId
               startPage := parseInt newStart
               endPage := parseInt newEnd
               duration := fin ((st.seconds + k : ℕ) : ℚ)
               wpm := some (ReadingTimer.calculatedWPM (parseInt newStart) (parseInt newEnd)
                 (fin ((st.seconds + k : ℕ) : ℚ)))
               id := JSVal.str (toString c2.now)
               createdAt := JSVal.str c2.iso }] := by
  have e1 := handleStop_saved p c1 store1 st hsaved
  have hs1 : s1 =
      { isRunning := false
        seconds := st.seconds
        startPage := newStart
        endPage := st.endPage
        wpm := some (ReadingTimer.calculatedWPM (parseInt st.startPage) (parseInt st.endPage)
          (fin st.seconds)) } := by
    rw [h1, e1]
    simp [ReadingTimer.calculateWPM, ReadingTimer.setStartPage]
  have e2 := handleStart_started p store2 s1 hstart
  have hs2 : s2 = { s1 with isRunning := true } := by rw [h2, e2]
  have hrun : s2.isRunning = true := by rw [hs2]
  have hs3 : s3 = { s2 with seconds := s2.seconds + k, endPage := newEnd } := by
    rw [h3, tick_iterate s2 hrun k]
    simp [ReadingTimer.setEndPage, hrun]
  have e3 := handleStop_saved p c2 store2 s3 hstop
  refine ⟨?_, ?_, ?_, ?_⟩
  · rw [e1, calculateWPM_sessions]
    simp
  · rw [hs2, hs1]
  · rw [hs3, hs2, hs1]
  · rw [e3, calculateWPM_sessions, hs3, hs2, hs1]

/-- The text `3` parses to the number 3. -/
theorem parseInt_3 : parseInt "3" = fin 3 := by decide

/-- Stopping `twoSecondTimer` saves a session. -/
theorem firstStop_toast : firstStop.toast = "Sessão de leitura salva!" := by
  have h300 : ¬ ((300 : ℚ) < 2) := by norm_num
  simp [firstStop, twoSecondTimer, ReadingTimer.handleStop, ReadingTimer.calculateWPM,
    parseInt_1, parseInt_2, sampleProps, JSVal.gt, JSVal.lt, JSVal.toNumber, h300]

/-- One page in 2 seconds: `calculatedWPM` is 7500. -/
theorem calculatedWPM_1_2_2 :
    ReadingTimer.calculatedWPM (fin 1) (fin 2) (fin 2) = fin 7500 := by
  have h := calculatedWPM_of_round 1 2 2 7500 (by norm_num) (by norm_num) (by norm_num)
    (by norm_num) (by norm_num)
  simpa using h

/-- One page in 5 seconds: `calculatedWPM` is 3000. -/
theorem calculatedWPM_2_3_5 :
    ReadingTimer.calculatedWPM (fin 2) (fin 3) (fin 5) = fin 3000 := by
  have h := calculatedWPM_of_round 2 3 5 3000 (by norm_num) (by norm_num) (by norm_num)
    (by norm_num) (by norm_num)
  simpa using h

/-- The state `firstStop` leaves: the timer stands, the counter still reads 2. -/
theorem firstStop_state :
    firstStop.state
      = { isRunning := false, seconds := 2, startPage := "1", endPage := "2",
          wpm := some (fin 7500) } := by
  have h300 : ¬ ((300 : ℚ) < 2) := by norm_num
  simp [firstStop, twoSecondTimer, ReadingTimer.handleStop, ReadingTimer.calculateWPM,
    parseInt_1, parseInt_2, sampleProps, JSVal.gt, JSVal.lt, JSVal.toNumber, h300,
    calculatedWPM_1_2_2]

/-- C27 (witness). A session from page 1 to page 2 is saved after 2 seconds; the timer is
started again from page 2 without a reset and stopped 3 seconds later at page 3: the second
session has the duration 5 and the `wpm` 3000 that 250 words in 5 seconds make. -/
theorem C27_counter_carries_over_witness :
    firstStop.store.readingSessions.map (fun session => (session.duration, session.wpm))
        = [(fin 2, some (fin 7500))]
    ∧ ((ReadingTimer.handleStop sampleProps laterClock firstStop.store
          resumedTimer).store.readingSessions.map
        (fun session => (session.startPage, session.endPage, session.duration, session.wpm)))
        = [(fin 1, fin 2, fin 2, some (fin 7500)), (fin 2, fin 3, fin 5, some (fin 3000))] := by
  have h300 : ¬ ((300 : ℚ) < 2) := by norm_num
  have h300' : ¬ ((300 : ℚ) < 3) := by norm_num
  have h32 : ¬ ((3 : ℚ) ≤ 2) := by norm_num
  have hfirst : firstStop.store.readingSessions
      = [{ bookId := JSVal.str "b1", startPage := fin 1, endPage := fin 2, duration := fin 2,
           wpm := some (fin 7500), id := JSVal.str (toString sampleClock.now),
           createdAt := JSVal.str sampleClock.iso }] := by
    have e := handleStop_saved sampleProps sampleClock sampleStore twoSecondTimer firstStop_toast
    rw [firstStop, e, calculateWPM_sessions]
    simp [twoSecondTimer, parseInt_1, parseInt_2, sampleStore, sampleProps,
      calculatedWPM_1_2_2]
  have hstart : (ReadingTimer.handleStart sampleProps firstStop.store
      (ReadingTimer.setStartPage firstStop.state "2")).toast = "Cronômetro iniciado!" := by
    rw [firstStop_state]
    simp [ReadingTimer.setStartPage, ReadingTimer.handleStart, parseInt_2, sampleProps,
      JSVal.gt, JSVal.lt, JSVal.toNumber, h300]
  have hres : resumedTimer
      = { isRunning := true, seconds := 5, startPage := "2", endPage := "3",
          wpm := some (fin 7500) } := by
    rw [resumedTimer, handleStart_started _ _ _ hstart, firstStop_state]
    simp [ReadingTimer.setStartPage, ReadingTimer.setEndPage, ReadingTimer.tick]
  have hstop : (ReadingTimer.handleStop sampleProps laterClock firstStop.store
      resumedTimer).toast = "Sessão de leitura salva!" := by
    rw [hres]
    simp [ReadingTimer.handleStop, ReadingTimer.calculateWPM, parseInt_2, parseInt_3,
      sampleProps, JSVal.gt, JSVal.lt, JSVal.toNumber, h300', h32]
  have H := C27_counter_carries_over sampleProps sampleClock laterClock sampleStore
    firstStop.store twoSecondTimer _ _ resumedTimer "2" "3" 3 firstStop_toast rfl hstart rfl rfl
    hstop
  refine ⟨?_, ?_⟩
  · rw [hfirst]
    rfl
  · rw [H.2.2.2, hfirst]
    simp [twoSecondTimer, parseInt_2, parseInt_3, sampleProps, calculatedWPM_2_3_5]

/-- C28. After `calculateWPM(start, end, seconds)` the books stand at the positions they had;
a book with the id of the timer has `currentPage` equal to the end page, whatever it was
before, and every other field as before; a book with another id is unchanged. -/
theorem C28_current_page_is_end_page (p : ReadingTimer.Props) (c : Clock) (store : Store)
    (st : ReadingTimer.State) (start finish totalSeconds : JSNum) (i : Nat) (book : JSObj)
    (hi : store.books[i]? = some book) :
    ∃ book' : JSObj,
      (ReadingTimer.calculateWPM p c store st start finish totalSeconds).store.books[i]?
        = some book'
      ∧ ((book.get "id").strictEq p.bookId = true →
          book'.get "currentPage" = JSVal.num finish
          ∧ ∀ k : String, k ≠ "currentPage" → book'.get k = book.get k)
      ∧ ((book.get "id").strictEq p.bookId = false → book' = book) := by
  have hwf : JSObj.wellFormed [("currentPage", JSVal.num finish)] := by
    simp [JSObj.wellFormed]
  rw [calculateWPM_books]
  refine ⟨_, getElem?_map_merge (fun x => (x.get "id").strictEq p.bookId)
    [("currentPage", JSVal.num finish)] store.books i book hi, ?_, ?_⟩
  · intro hid
    simp only [hid, if_true]
    constructor
    · rw [get_spread _ book "currentPage" hwf]
      simp [JSObj.has, JSObj.get]
    · intro k hk
      rw [get_spread _ book k hwf]
      have hk2 : ¬ "currentPage" = k := fun h => hk h.symm
      simp [JSObj.has, hk2]
  · intro hid
    simp [hid]

/-- C28 (witness). The book `b1` stands at page 200; a session from page 1 to page 51 is
saved: the book then stands at page 51, with its title and its page count as before. -/
theorem C28_current_page_is_end_page_witness :
    (advancedStore.books.map (fun book => book.get "currentPage")) = [JSVal.num (fin 200)]
    ∧ ∃ book' : JSObj,
        (ReadingTimer.calculateWPM sampleProps sampleClock advancedStore ReadingTimer.initial
          (fin 1) (fin 51) (fin 3000)).store.books[0]? = some book'
        ∧ book'.get "currentPage" = JSVal.num (fin 51)
        ∧ book'.get "title" = JSVal.str "Dom Casmurro"
        ∧ book'.get "totalPages" = JSVal.num (fin 300) := by
  refine ⟨by simp [advancedStore, advancedBook, get_cons], ?_⟩
  obtain ⟨book', h1, h2, _⟩ :=
    C28_current_page_is_end_page sampleProps sampleClock advancedStore ReadingTimer.initial
      (fin 1) (fin 51) (fin 3000) 0 advancedBook (by simp [advancedStore])
  have hid : (advancedBook.get "id").strictEq sampleProps.bookId = true := by
    simp [advancedBook, sampleProps, get_cons, JSVal.strictEq]
  refine ⟨book', h1, (h2 hid).1, ?_, ?_⟩
  · rw [(h2 hid).2 "title" (by decide)]
    simp [advancedBook, get_cons]
  · rw [(h2 hid).2 "totalPages" (by decide)]
    simp [advancedBook, get_cons]

/-- When the callback does not throw on the elements of the array, `filter` keeps the
elements for which it returns true. -/
theorem jsFilter_of_some {α : Type} (callback : α → Option Bool) (q : α → Bool) (l : List α)
    (h : ∀ a ∈ l, callback a = some (q a)) : jsFilter callback l = some (l.filter q) := by
  induction l with
  | nil => rfl
  | cons a l ih =>
    have ha := h a (List.mem_cons_self a l)
    have hl := ih (fun x hx => h x (List.mem_cons_of_mem a hx))
    rw [jsFilter, ha, hl]
    by_cases hq : q a = true
    · simp [List.filter, hq]
    · have hq' : q a = false := by simpa using hq
      simp [List.filter, hq']

/-- With no text filter set, the callback of `getFilteredBooks` does not throw and decides on
the status alone. -/
theorem keepsBook_status_only (toLowerCase : String → String) (st : Dashboard.ListState)
    (status : String) (book : JSObj) :
    Dashboard.keepsBook toLowerCase
        (Dashboard.handleStatusFilterClick (Dashboard.clearFilters st) status) book
      = some (!(decide (status = "inProgress")
              && ((book.get "currentPage").strictEq (JSVal.num 0)
                || (book.get "currentPage").ge (book.get "totalPages")))
          && !(decide (status = "completed")
              && ((book.get "currentPage").lt (book.get "totalPages")
                || (book.get "totalPages").strictEq (JSVal.num 0)))) := by
  unfold Dashboard.keepsBook
  simp only [Dashboard.handleStatusFilterClick, Dashboard.clearFilters, Dashboard.searchRejects,
    Dashboard.authorRejects, Dashboard.yearRejects, Dashboard.publisherRejects, if_true,
    Option.some_bind, Bool.false_eq_true, if_false]
  generalize ((book.get "currentPage").strictEq (JSVal.num 0)
    || (book.get "currentPage").ge (book.get "totalPages")) = a
  generalize ((book.get "currentPage").lt (book.get "totalPages")
    || (book.get "totalPages").strictEq (JSVal.num 0)) = b
  by_cases hs1 : status = "inProgress" <;> by_cases hs2 : status = "completed" <;>
    cases a <;> cases b <;> simp [hs1, hs2]

/-- On two natural numbers the test of the in-progress filter is the negation of the test of
`calculateStats`, and so is the test of the completed filter. -/
theorem status_tests_agree (cp tp : ℕ) :
    (!((JSVal.num (fin cp)).strictEq (JSVal.num 0)
        || (JSVal.num (fin cp)).ge (JSVal.num (fin tp))))
      = ((JSVal.num (fin cp)).gt (JSVal.num 0)
          && (JSVal.num (fin cp)).lt (JSVal.num (fin tp)))
    ∧ (!((JSVal.num (fin cp)).lt (JSVal.num (fin tp))
        || (JSVal.num (fin tp)).strictEq (JSVal.num 0)))
      = ((JSVal.num (fin cp)).ge (JSVal.num (fin tp))
          && (JSVal.num (fin tp)).gt (JSVal.num 0)) := by
  have h0 : (0 : ℚ) ≤ cp := Nat.cast_nonneg cp
  have h1 : (0 : ℚ) ≤ tp := Nat.cast_nonneg tp
  have hc : (cp : ℚ) = 0 ↔ cp = 0 := Nat.cast_eq_zero
  have ht : (tp : ℚ) = 0 ↔ tp = 0 := Nat.cast_eq_zero
  simp only [JSVal.strictEq, JSVal.ge, JSVal.le, JSVal.gt, JSVal.lt, JSVal.toNumber,
    JSNum.zero_eq, JSNum.eq, JSNum.le_fin, JSNum.lt_fin, Nat.cast_le, Nat.cast_lt,
    Nat.cast_pos, hc, ht]
  constructor
  · by_cases a : cp = 0 <;> by_cases b : tp ≤ cp <;> (simp [a, b]; try omega)
  · by_cases a : tp = 0 <;> by_cases b : cp < tp <;> (simp [a, b]; try omega)

/-- C29. In a collection whose books carry natural numbers as `currentPage` and `totalPages`,
`getFilteredBooks` with the status filter `inProgress` (respectively `completed`) and no text
filter returns as many books as `calculateStats` counts in progress (respectively completed),
and no book of the first list is in the second. -/
theorem C29_status_counts_agree (toLowerCase : String → String) (books : List JSObj)
    (st : Dashboard.ListState)
    (hnum : ∀ book ∈ books, ∃ cp tp : ℕ,
      book.get "currentPage" = JSVal.num (fin cp) ∧ book.get "totalPages" = JSVal.num (fin tp)) :
    ∃ reading finished : List JSObj,
      Dashboard.getFilteredBooks toLowerCase books
          (Dashboard.handleStatusFilterClick (Dashboard.clearFilters st) "inProgress")
        = some reading
      ∧ Dashboard.getFilteredBooks toLowerCase books
          (Dashboard.handleStatusFilterClick (Dashboard.clearFilters st) "completed")
        = some finished
      ∧ reading.length = (Dashboard.calculateStats books).inProgress
      ∧ finished.length = (Dashboard.calculateStats books).completed
      ∧ ∀ book ∈ reading, book ∉ finished := by
  refine ⟨books.filter (fun book =>
      (book.get "currentPage").gt (JSVal.num 0)
        && (book.get "currentPage").lt (book.get "totalPages")),
    books.filter (fun book =>
      (book.get "currentPage").ge (book.get "totalPages")
        && (book.get "totalPages").gt (JSVal.num 0)), ?_, ?_, rfl, rfl, ?_⟩
  · apply jsFilter_of_some
    intro book hb
    obtain ⟨cp, tp, hcp, htp⟩ := hnum book hb
    rw [keepsBook_status_only, hcp, htp, ← (status_tests_agree cp tp).1]
    simp
  · apply jsFilter_of_some
    intro book hb
    obtain ⟨cp, tp, hcp, htp⟩ := hnum book hb
    rw [keepsBook_status_only, hcp, htp, ← (status_tests_agree cp tp).2]
    simp
  · intro book hr hf
    obtain ⟨cp, tp, hcp, htp⟩ := hnum book (List.mem_filter.mp hr).1
    have h1 := (List.mem_filter.mp hr).2
    have h2 := (List.mem_filter.mp hf).2
    rw [hcp, htp] at h1 h2
    simp only [JSVal.ge, JSVal.le, JSVal.gt, JSVal.lt, JSVal.toNumber,
      JSNum.zero_eq, JSNum.le_fin, JSNum.lt_fin, Nat.cast_le, Nat.cast_lt,
      Bool.and_eq_true, decide_eq_true_eq] at h1 h2
    omega

/-- The counts of `calculateStats` on `shelf`: two books in progress, one completed. -/
theorem shelf_stats :
    (Dashboard.calculateStats shelf).inProgress = 2
    ∧ (Dashboard.calculateStats shelf).completed = 1 := by
  constructor
  · simp [Dashboard.calculateStats, shelf, get_cons, JSVal.gt, JSVal.lt, JSVal.toNumber,
      List.filter]
    norm_num
  · simp [Dashboard.calculateStats, shelf, get_cons, JSVal.gt, JSVal.lt, JSVal.ge, JSVal.le,
      JSVal.toNumber, List.filter]
    norm_num

/-- C29 (witness). On `shelf` the filter `inProgress` returns two books and the filter
`completed` one, the numbers `calculateStats` reports. -/
theorem C29_status_counts_agree_witness :
    ∃ reading finished : List JSObj,
      Dashboard.getFilteredBooks id shelf
          (Dashboard.handleStatusFilterClick (Dashboard.clearFilters Dashboard.initialList)
            "inProgress") = some reading
      ∧ Dashboard.getFilteredBooks id shelf
          (Dashboard.handleStatusFilterClick (Dashboard.clearFilters Dashboard.initialList)
            "completed") = some finished
      ∧ reading.length = 2 ∧ finished.length = 1 := by
  have hnum : ∀ book ∈ shelf, ∃ cp tp : ℕ,
      book.get "currentPage" = JSVal.num (fin cp)
        ∧ book.get "totalPages" = JSVal.num (fin tp) := by
    intro book hb
    simp only [shelf, List.mem_cons, List.mem_singleton, List.not_mem_nil, or_false] at hb
    rcases hb with rfl | rfl | rfl | rfl | rfl
    · exact ⟨0, 300, rfl, rfl⟩
    · exact ⟨50, 300, rfl, rfl⟩
    · exact ⟨120, 120, rfl, rfl⟩
    · exact ⟨0, 0, rfl, rfl⟩
    · exact ⟨79, 80, rfl, rfl⟩
  obtain ⟨reading, finished, h1, h2, h3, h4, _⟩ :=
    C29_status_counts_agree id shelf Dashboard.initialList hnum
  exact ⟨reading, finished, h1, h2, h3.trans shelf_stats.1, h4.trans shelf_stats.2⟩

/-- Outside the domain of C29: for a book whose page fields are held as text, with `0` as
current page, `calculateStats` does not count the book as in progress, while the filter
`inProgress` keeps it. -/
theorem status_of_text_pages :
    (Dashboard.calculateStats [textPagesBook]).inProgress = 0
    ∧ Dashboard.getFilteredBooks id [textPagesBook]
        (Dashboard.handleStatusFilterClick (Dashboard.clearFilters Dashboard.initialList)
          "inProgress") = some [textPagesBook] := by
  constructor
  · have h0 : stringToNumber "0" = fin 0 := stringToNumber_zero
    simp [Dashboard.calculateStats, textPagesBook, get_cons, JSVal.gt, JSVal.lt,
      JSVal.toNumber, List.filter, h0]
  · rw [Dashboard.getFilteredBooks, jsFilter_of_some _ (fun _ => true)]
    · rfl
    · intro book hb
      simp only [List.mem_singleton] at hb
      subst hb
      rw [keepsBook_status_only]
      have hlt : ¬ (("300" : String) ≤ "0") := by
        rw [String.le_iff_toList_le]
        decide
      simp [textPagesBook, get_cons, JSVal.strictEq, JSVal.ge, JSVal.le, hlt]

/-- The method `slice` on a window that starts at a natural number: the elements from the
start, at most as many as the window is wide. -/
theorem jsSlice_window {α : Type} (l : List α) (a c : ℕ) :
    jsSlice l (a : ℤ) ((a : ℤ) + c) = (l.drop a).take c := by
  unfold jsSlice
  have h1 : ¬ ((a : ℤ) < 0) := by omega
  have h2 : ¬ ((a : ℤ) + c < 0) := by omega
  simp only [h1, h2, if_false]
  by_cases ha : a ≤ l.length
  · have e1 : min (a : ℤ) (l.length : ℤ) = a := by omega
    by_cases hc : a + c ≤ l.length
    · have e2 : min ((a : ℤ) + c) (l.length : ℤ) = (a : ℤ) + c := by omega
      rw [e1, e2]
      have e3 : ((a : ℤ) + c - a).toNat = c := by omega
      rw [e3, Int.toNat_ofNat]
    · have e2 : min ((a : ℤ) + c) (l.length : ℤ) = l.length := by omega
      rw [e1, e2, Int.toNat_ofNat]
      have hlen : (l.drop a).length = l.length - a := List.length_drop a l
      rw [List.take_of_length_le (by omega), List.take_of_length_le (by omega)]
  · have e1 : min (a : ℤ) (l.length : ℤ) = l.length := by omega
    rw [e1, Int.toNat_ofNat, List.drop_eq_nil_of_le (le_refl _),
      List.drop_eq_nil_of_le (by omega)]
    simp

/-- Cutting a list into windows of the same width and joining them gives the list back, as
soon as the windows cover its length. -/
theorem join_windows {α : Type} (c : ℕ) (m : ℕ) :
    ∀ l : List α, l.length ≤ m * c →
      (List.range m).flatMap (fun i => (l.drop (i * c)).take c) = l := by
  induction m with
  | zero =>
    intro l h
    have : l.length = 0 := by omega
    simp [List.length_eq_zero.mp this]
  | succ m ih =>
    intro l h
    rw [List.range_succ_eq_map, List.flatMap_cons, List.flatMap_map]
    have hl : (l.drop c).length ≤ m * c := by
      rw [List.length_drop]
      have : (m + 1) * c = m * c + c := by ring
      omega
    have hfun : (fun i => (l.drop ((i + 1) * c)).take c)
        = (fun i => ((l.drop c).drop (i * c)).take c) := by
      funext i
      rw [List.drop_drop]
      congr 2
      ring
    simp only [Function.comp, Nat.succ_eq_add_one, zero_mul, List.drop_zero]
    rw [hfun, ih (l.drop c) hl, List.take_append_drop]

/-- The filtered list does not depend on the page shown. -/
theorem getFilteredBooks_currentPage (toLowerCase : String → String) (books : List JSObj)
    (st : Dashboard.ListState) (page : ℤ) :
    Dashboard.getFilteredBooks toLowerCase books { st with currentPage := page }
      = Dashboard.getFilteredBooks toLowerCase books st := rfl

/-- The page with the number `i + 1` shows the window of nine books that starts at the
position `i * 9` of the filtered list. -/
theorem getPaginatedBooks_window (toLowerCase : String → String) (books : List JSObj)
    (st : Dashboard.ListState) (filtered : List JSObj)
    (h : Dashboard.getFilteredBooks toLowerCase books st = some filtered) (i : ℕ) :
    Dashboard.getPaginatedBooks toLowerCase books { st with currentPage := (i : ℤ) + 1 }
      = some ((filtered.drop (i * 9)).take 9) := by
  unfold Dashboard.getPaginatedBooks
  rw [getFilteredBooks_currentPage, h]
  simp only [Option.map_some', Dashboard.booksPerPage]
  have e : ((i : ℤ) + 1 - 1) * ((9 : ℕ) : ℤ) = ((i * 9 : ℕ) : ℤ) := by
    push_cast
    ring
  rw [e, jsSlice_window]

/-- The number of pages covers the filtered list, and the last page starts inside it. -/
theorem ceil_ninth (n : ℕ) :
    n ≤ ⌈(n : ℚ) / 9⌉.toNat * 9
    ∧ ∀ i : ℕ, (i : ℤ) + 1 ≤ ⌈(n : ℚ) / 9⌉ → i * 9 < n := by
  have hnn : (0 : ℤ) ≤ ⌈(n : ℚ) / 9⌉ := by
    apply Int.ceil_nonneg
    positivity
  constructor
  · have h1 : (n : ℚ) / 9 ≤ (⌈(n : ℚ) / 9⌉ : ℚ) := Int.le_ceil _
    have h2 : (n : ℚ) ≤ ((⌈(n : ℚ) / 9⌉ * 9 : ℤ) : ℚ) := by
      push_cast
      linarith
    have h3 : (n : ℤ) ≤ ⌈(n : ℚ) / 9⌉ * 9 := by exact_mod_cast h2
    have h4 : ((⌈(n : ℚ) / 9⌉.toNat : ℕ) : ℤ) = ⌈(n : ℚ) / 9⌉ := Int.toNat_of_nonneg hnn
    omega
  · intro i hi
    have h1 : (i : ℤ) < ⌈(n : ℚ) / 9⌉ := by omega
    have h2 : ((i : ℤ) : ℚ) < (n : ℚ) / 9 := Int.lt_ceil.mp h1
    have h3 : ((i * 9 : ℕ) : ℚ) < (n : ℚ) := by
      push_cast at h2 ⊢
      linarith
    exact_mod_cast h3

/-- C30. For the filtered list of the dashboard, `totalPages` is the ceiling of its length
over 9; every page from 1 to `totalPages` that `getPaginatedBooks` returns is not empty and
has at most 9 books; the pages joined in order are the filtered list; and `changePage` moves
to exactly the pages from 1 to `totalPages`. -/
theorem C30_pages_partition (toLowerCase : String → String) (books : List JSObj)
    (st : Dashboard.ListState) (filtered : List JSObj)
    (h : Dashboard.getFilteredBooks toLowerCase books st = some filtered) :
    Dashboard.totalPages toLowerCase books st = some ⌈(filtered.length : ℚ) / 9⌉
    ∧ (∀ page : ℤ, 1 ≤ page → page ≤ ⌈(filtered.length : ℚ) / 9⌉ →
        ∃ shown : List JSObj,
          Dashboard.getPaginatedBooks toLowerCase books { st with currentPage := page }
            = some shown
          ∧ shown ≠ [] ∧ shown.length ≤ 9)
    ∧ (List.range ⌈(filtered.length : ℚ) / 9⌉.toNat).flatMap
        (fun i => (Dashboard.getPaginatedBooks toLowerCase books
          { st with currentPage := (i : ℤ) + 1 }).getD []) = filtered
    ∧ (∀ newPage : ℤ, (Dashboard.changePage toLowerCase books st newPage).currentPage
        = if 1 ≤ newPage ∧ newPage ≤ ⌈(filtered.length : ℚ) / 9⌉ then newPage
          else st.currentPage) := by
  have htotal : Dashboard.totalPages toLowerCase books st
      = some ⌈(filtered.length : ℚ) / 9⌉ := by
    simp [Dashboard.totalPages, h, Dashboard.booksPerPage]
  refine ⟨htotal, ?_, ?_, ?_⟩
  · intro page h1 h2
    obtain ⟨i, hi⟩ : ∃ i : ℕ, page = (i : ℤ) + 1 := ⟨(page - 1).toNat, by omega⟩
    subst hi
    have hlt := (ceil_ninth filtered.length).2 i h2
    refine ⟨_, getPaginatedBooks_window toLowerCase books st filtered h i, ?_, ?_⟩
    · intro hnil
      have hlen : ((filtered.drop (i * 9)).take 9).length = 0 := by rw [hnil]; rfl
      rw [List.length_take, List.length_drop] at hlen
      omega
    · rw [List.length_take]
      omega
  · have hfun : (fun i : ℕ => (Dashboard.getPaginatedBooks toLowerCase books
          { st with currentPage := (i : ℤ) + 1 }).getD [])
        = (fun i : ℕ => (filtered.drop (i * 9)).take 9) := by
      funext i
      rw [getPaginatedBooks_window toLowerCase books st filtered h i]
      rfl
    rw [hfun]
    exact join_windows 9 _ filtered (ceil_ninth filtered.length).1
  · intro newPage
    unfold Dashboard.changePage
    rw [htotal]
    simp only
    split_ifs <;> rfl

/-- With no filter set, `getFilteredBooks` returns every book. -/
theorem getFilteredBooks_unfiltered (toLowerCase : String → String) (books : List JSObj) :
    Dashboard.getFilteredBooks toLowerCase books Dashboard.initialList = some books := by
  have hst : Dashboard.initialList
      = Dashboard.handleStatusFilterClick (Dashboard.clearFilters Dashboard.initialList)
          "all" := rfl
  rw [Dashboard.getFilteredBooks, jsFilter_of_some _ (fun _ => true)]
  · simp
  · intro book _
    rw [hst, keepsBook_status_only]
    simp

/-- C30 (witness). A library of twenty books with no filter set has three pages, and the
third page shows the last two books. -/
theorem C30_pages_partition_witness :
    Dashboard.totalPages id twentyBooks Dashboard.initialList = some 3
    ∧ ∃ shown : List JSObj,
        Dashboard.getPaginatedBooks id twentyBooks
          { Dashboard.initialList with currentPage := 3 } = some shown
        ∧ shown ≠ [] ∧ shown.length ≤ 9 := by
  have hlen : twentyBooks.length = 20 := by simp [twentyBooks]
  have hceil : ⌈((twentyBooks.length : ℕ) : ℚ) / 9⌉ = 3 := by
    rw [hlen, Int.ceil_eq_iff]
    norm_num
  have H := C30_pages_partition id twentyBooks Dashboard.initialList twentyBooks
    (getFilteredBooks_unfiltered id twentyBooks)
  refine ⟨?_, ?_⟩
  · rw [H.1, hceil]
  · exact H.2.1 3 (by norm_num) (by rw [hceil])

/-- The sibling check: the progress dialog of the book page rejects a page above the page count
and leaves the store as it was. -/
theorem handleUpdatePage_rejects_page_above_count :
    BookDetails.handleUpdatePage sampleStore (JSVal.str "b1") "350"
      = (sampleStore, "Página inválida") := by
  have hp : parseInt "350" = fin 350 := by decide
  have hg : BooksContext.getBook sampleStore (JSVal.str "b1") = some sampleBook := by
    simp [BooksContext.getBook, sampleStore, sampleBook, get_cons, JSVal.strictEq]
  have h : (300 : ℚ) < 350 := by norm_num
  simp [BookDetails.handleUpdatePage, hg, hp, sampleBook, get_cons, JSVal.gt, JSVal.lt,
    JSVal.toNumber, JSNum.isNaN, h]

end ReadingTracker
